import Mathlib

/-!
# Dynamic VLAN initialisation: `src/ap/vlan_init.c`

A shallow embedding of the dynamic VLAN code of the access-point daemon, built
with `CONFIG_FULL_DYNAMIC_VLAN` and without `CONFIG_VLAN_NETLINK`.

* C strings are Lean `String`s (interface names are ASCII, one `Char` per byte);
  a copy into a fixed-size buffer keeps the first `size - 1` characters.
* C `int` counters are `Int`; flag words built from the `DVLAN_CLEAN_*` bits
  are `Nat` bitsets.  The reference counter `usage` wraps around at `INT_MAX`
  and `INT_MIN` as 32-bit two's complement arithmetic does.
* Singly-linked lists are Lean lists, head first.
* The receive buffer of the link watcher is a list of bytes; integers in it
  are in host byte order, taken as little-endian.
* Calls that leave the process (ioctl wrappers, the driver, the WPA
  authenticator, the helper script) are answered by an oracle and recorded in
  a trace.
* Memory that the program reads without having set it (what `va_arg` finds
  behind the last argument of a `run_script` call, an uninitialised local
  array) is answered by the oracle as well.
-/

namespace VlanInit

/-! ## Constants that the file takes from headers -/

/-- Values of the macros and build switches that `vlan_init.c` takes from
headers which are not part of the sources.  Every definition below is
parametric in them. -/
structure Consts where
  /-- `IFNAMSIZ` of `<net/if.h>`. -/
  IFNAMSIZ : Nat
  /-- `MAX_VLAN_ID`, the largest valid VID. -/
  MAX_VLAN_ID : Int
  /-- `MAX_NUM_TAGGED_VLAN`, the bound of the loops over `vlan_desc.tagged`. -/
  MAX_NUM_TAGGED_VLAN : Nat
  /-- `VLAN_ID_WILDCARD`, the `vlan_id` of a template binding. -/
  VLAN_ID_WILDCARD : Int
  /-- `DVLAN_CLEAN_WLAN_PORT`, the per-binding cleanup bit. -/
  DVLAN_CLEAN_WLAN_PORT : Nat
  /-- `DYNAMIC_VLAN_NAMING_WITH_DEVICE`, a value of `ssid.vlan_naming`. -/
  DYNAMIC_VLAN_NAMING_WITH_DEVICE : Int
  /-- Whether the build defines `CONFIG_RSN_PREAUTH_COPY`. -/
  CONFIG_RSN_PREAUTH_COPY : Bool
  /-- The size of `vlan_ioctl_args.device1`, from `<linux/if_vlan.h>`. -/
  VLAN_DEVICE1_SIZE : Nat

/-- The values on Linux with the upstream headers. -/
def linux : Consts where
  IFNAMSIZ := 16
  MAX_VLAN_ID := 4094
  MAX_NUM_TAGGED_VLAN := 32
  VLAN_ID_WILDCARD := -1
  DVLAN_CLEAN_WLAN_PORT := 0x8
  DYNAMIC_VLAN_NAMING_WITH_DEVICE := 1
  CONFIG_RSN_PREAUTH_COPY := false
  VLAN_DEVICE1_SIZE := 24

/-- `#define DVLAN_CLEAN_BR 0x1` -/
def DVLAN_CLEAN_BR : Nat := 0x1

/-- `#define DVLAN_CLEAN_VLAN 0x2` -/
def DVLAN_CLEAN_VLAN : Nat := 0x2

/-- `#define DVLAN_CLEAN_VLAN_PORT 0x4` -/
def DVLAN_CLEAN_VLAN_PORT : Nat := 0x4

/-! ## Bounded string copies -/

/-- `os_strlcpy(dst, src, siz)`: what `dst` holds afterwards, the first
`siz - 1` characters of `src`. -/
def os_strlcpy (src : String) (siz : Nat) : String :=
  ⟨src.data.take (siz - 1)⟩

/-- `os_snprintf(buf, size, fmt, ...)`: what `buf` holds afterwards, given the
fully formatted text `s`: its first `size - 1` characters. -/
def os_snprintf (size : Nat) (s : String) : String :=
  ⟨s.data.take (size - 1)⟩

/-- `itoa(i)`: the decimal text of `i`, as `"%d"` prints it. -/
def itoa (i : Int) : String :=
  toString i

/-! ## The shared-resource registry -/

/-- `struct dynamic_iface`, without the `next` pointer. -/
structure dynamic_iface where
  ifname : String
  usage : Int
  clean : Nat
deriving DecidableEq, Repr

/-- `x++` on an `int`: one more, and from `INT_MAX` round to `INT_MIN`, the
wrap-around of 32-bit two's complement arithmetic. -/
def int_incr (x : Int) : Int :=
  if x = 2147483647 then -2147483648 else x + 1

/-- `x--` on an `int`: one less, and from `INT_MIN` round to `INT_MAX`. -/
def int_decr (x : Int) : Int :=
  if x = -2147483648 then 2147483647 else x - 1

/-- The first part of `dyn_iface_get`: the search loop and the `if (next)`
branch.  Walks the list to the first entry whose name compares equal and
updates it in place; `none` when the loop ends with `next == NULL`. -/
def dyn_iface_get_found (ifname : String) (clean : Nat) :
    List dynamic_iface → Option (List dynamic_iface)
  | [] => none
  | e :: rest =>
    if ifname = e.ifname then
      some ({ e with usage := int_incr e.usage, clean := e.clean ||| clean } :: rest)
    else
      (dyn_iface_get_found ifname clean rest).map (fun r => e :: r)

/-- The part of `dyn_iface_get` before `os_zalloc`: `some reg1` when the
function returns there with the list `reg1` (entry found and updated, or not
found and `clean == 0`), `none` when it goes on to allocate. -/
def dyn_iface_get_pre (reg : List dynamic_iface) (ifname : String) (clean : Nat) :
    Option (List dynamic_iface) :=
  match dyn_iface_get_found ifname clean reg with
  | some reg1 => some reg1
  | none => if clean = 0 then some reg else none

/-- The part of `dyn_iface_get` from `os_zalloc` on; `alloc_ok` says whether
`os_zalloc` returned memory. -/
def dyn_iface_get_post (K : Consts) (alloc_ok : Bool) (reg : List dynamic_iface)
    (ifname : String) (clean : Nat) : List dynamic_iface :=
  if !alloc_ok then reg
  else
    { ifname := os_strlcpy ifname (K.IFNAMSIZ + 1), usage := 1, clean := clean } :: reg

/-- `dyn_iface_get(hapd, ifname, clean)` on the list `*dynamic_ifaces`.
`alloc_ok` says whether `os_zalloc`, if it is reached, returns memory. -/
def dyn_iface_get (K : Consts) (alloc_ok : Bool) (reg : List dynamic_iface)
    (ifname : String) (clean : Nat) : List dynamic_iface :=
  match dyn_iface_get_pre reg ifname clean with
  | some reg1 => reg1
  | none => dyn_iface_get_post K alloc_ok reg ifname clean

/-- `dyn_iface_put(hapd, ifname)` on the list `*dynamic_ifaces`: the new list
and the returned value. -/
def dyn_iface_put : List dynamic_iface → String → List dynamic_iface × Nat
  | [], _ => ([], 0)
  | e :: rest, ifname =>
    if ifname = e.ifname then
      if int_decr e.usage ≠ 0 then
        ({ e with usage := int_decr e.usage } :: rest, 0)
      else
        (rest, e.clean)
    else
      let r := dyn_iface_put rest ifname
      (e :: r.1, r.2)

/-! ## Sequences of registry calls -/

/-- One call on the registry: a `dyn_iface_get` together with the outcome of
its `os_zalloc`, or a `dyn_iface_put`. -/
inductive RegOp where
  | get (ifname : String) (clean : Nat) (alloc_ok : Bool)
  | put (ifname : String)
deriving DecidableEq, Repr

/-- The interface name a registry call is about. -/
def RegOp.name : RegOp → String
  | .get n _ _ => n
  | .put n => n

/-- Whether the call is a `dyn_iface_get` on `X`. -/
def RegOp.is_get (X : String) : RegOp → Bool
  | .get n _ _ => decide (n = X)
  | .put _ => false

/-- Whether the call is a `dyn_iface_put` on `X`. -/
def RegOp.is_put (X : String) : RegOp → Bool
  | .get _ _ _ => false
  | .put n => decide (n = X)

/-- The registry after one call. -/
def RegOp.apply (K : Consts) (reg : List dynamic_iface) : RegOp → List dynamic_iface
  | .get n c a => dyn_iface_get K a reg n c
  | .put n => (dyn_iface_put reg n).1

/-- The registry after a sequence of calls, first call first. -/
def run_ops (K : Consts) (reg : List dynamic_iface) (ops : List RegOp) :
    List dynamic_iface :=
  ops.foldl (RegOp.apply K) reg

/-- The number of `dyn_iface_get` calls on `X` in a sequence. -/
def gets (X : String) (ops : List RegOp) : Nat :=
  ops.countP (RegOp.is_get X)

/-- The number of `dyn_iface_put` calls on `X` in a sequence. -/
def puts (X : String) (ops : List RegOp) : Nat :=
  ops.countP (RegOp.is_put X)

/-! ## Configuration and VLAN bindings -/

/-- `struct vlan_description`.  `tagged` holds the entries of the C array;
reading past the end of the list yields the terminating 0. -/
structure vlan_description where
  notempty : Int
  untagged : Int
  tagged : List Int
deriving DecidableEq, Repr

/-- `struct hostapd_vlan`, without the `next` pointer.  `rsn_preauth` is the
snoop handle as an integer, 0 for `NULL`. -/
structure hostapd_vlan where
  ifname : String
  vlan_id : Int
  vlan_desc : vlan_description
  dynamic_vlan : Int
  configured : Int
  clean : Nat
  rsn_preauth : Int
deriving DecidableEq, Repr

/-- The fields of `struct hostapd_ssid` that the file reads.  `wep_key` has one
flag per slot of `wep.key[NUM_WEP_KEYS]`: whether the pointer is set. -/
structure hostapd_ssid where
  wep_key : List Bool
  vlan_script : Option String
  vlan_tagged_interface : Option String
  vlan_naming : Int
deriving DecidableEq, Repr

/-- The fields of `struct hostapd_bss_config` that the file reads; `vlan` is
the list of bindings `hapd->conf->vlan`. -/
structure hostapd_bss_config where
  iface : String
  bridge : String
  vlan_bridge : String
  ssid : hostapd_ssid
  vlan : List hostapd_vlan
deriving DecidableEq, Repr

/-- The parts of `struct hostapd_data` that the file uses: the configuration,
whether `hapd->wpa_auth` is set, and the registry
`hapd->iface->interfaces->vlan_priv`. -/
structure hostapd_data where
  conf : hostapd_bss_config
  wpa_auth : Bool
  vlan_priv : List dynamic_iface
deriving DecidableEq, Repr

/-! ## The environment -/

/-- The calls whose outcome the file does not decide itself.  The last two are
not calls but reads of memory whose content the program has not set: `va_arg
k` is the `k`-th value that `va_arg` yields in `run_script` after the
arguments of the call site, and `br_name_uninit` the bytes found in an
uninitialised local array `br_name` and behind it.  They are answered by the
environment too, and they are not recorded in the trace. -/
inductive OsCall where
  | os_zalloc
  | os_strdup
  | ifconfig_up (ifname : String)
  | ifconfig_down (ifname : String)
  | br_addbr (br : String)
  | br_delbr (br : String)
  | br_addif (br : String) (ifname : String)
  | br_delif (br : String) (ifname : String)
  | br_getnumports (br : String)
  | socket
  | close
  | ioctl_get_vlan_vid (device1 : String)
  | ioctl_get_vlan_realdev (device1 : String)
  | ioctl_add_vlan (device1 : String) (vid : Int)
  | ioctl_del_vlan (device1 : String)
  | hostapd_vlan_if_add (ifname : String)
  | hostapd_vlan_if_remove (ifname : String)
  | wpa_auth_ensure_group (vlan_id : Int)
  | wpa_auth_release_group (vlan_id : Int)
  | rsn_preauth_snoop_init (ifname : String)
  | rsn_preauth_snoop_deinit (ifname : String) (handle : Int)
  | exec (script : String) (args : List String) (capture : Bool)
  | va_arg (k : Nat)
  | br_name_uninit
deriving DecidableEq, Repr

/-- What a call gives back: the returned value `ret`, and for the calls that
fill an out-parameter a number `val` and a text `str`. -/
structure OsAnswer where
  ret : Int
  val : Int
  str : String
deriving DecidableEq, Repr

/-- One entry of the trace: a call and what it gave back. -/
structure OsEvent where
  call : OsCall
  ans : OsAnswer
deriving DecidableEq, Repr

/-- The environment as an oracle: the answer to a call, given the trace of all
earlier calls. -/
abbrev Oracle := List OsEvent → OsCall → OsAnswer

/-- Modelled from the spec: the state outside the process.  `trace` lists the
calls issued so far, oldest first; `ifaces` is the kernel-visible set of
network interface names. -/
structure World where
  trace : List OsEvent
  ifaces : List String
deriving DecidableEq, Repr

/-- Issue a call: ask the oracle and append the event to the trace. -/
def os_call (ω : Oracle) (c : OsCall) (w : World) : OsAnswer × World :=
  (ω w.trace c, { w with trace := w.trace ++ [{ call := c, ans := ω w.trace c }] })

/-- Add a name to the interface set. -/
def iface_insert (n : String) (l : List String) : List String :=
  if n ∈ l then l else n :: l

/-- Remove a name from the interface set. -/
def iface_remove (n : String) (l : List String) : List String :=
  l.filter (fun x => decide (x ≠ n))

/-- Modelled from the spec: `if_nametoindex(ifname)` of the C library, "resolve
name-to-index": non-zero exactly for the names in the interface set. -/
def if_nametoindex (w : World) (ifname : String) : Nat :=
  if ifname ∈ w.ifaces then w.ifaces.indexOf ifname + 1 else 0

/-- Modelled from the spec: `ifconfig_up(name)` of `ifconfig.h`, "bring
interface administratively up". -/
def ifconfig_up (ω : Oracle) (ifname : String) (w : World) : Int × World :=
  let r := os_call ω (.ifconfig_up ifname) w
  (r.1.ret, r.2)

/-- Modelled from the spec: `ifconfig_down(name)` of `ifconfig.h`, "bring
interface administratively down". -/
def ifconfig_down (ω : Oracle) (ifname : String) (w : World) : Int × World :=
  let r := os_call ω (.ifconfig_down ifname) w
  (r.1.ret, r.2)

/-- Modelled from the spec: `br_addbr(name)` of `bridge.h`, "create a bridge";
0 on success, and then the bridge device exists. -/
def br_addbr (ω : Oracle) (br : String) (w : World) : Int × World :=
  let r := os_call ω (.br_addbr br) w
  (r.1.ret, if r.1.ret = 0 then { r.2 with ifaces := iface_insert br r.2.ifaces } else r.2)

/-- Modelled from the spec: `br_delbr(name)` of `bridge.h`, "destroy a
bridge"; 0 on success, and then the bridge device is gone. -/
def br_delbr (ω : Oracle) (br : String) (w : World) : Int × World :=
  let r := os_call ω (.br_delbr br) w
  (r.1.ret, if r.1.ret = 0 then { r.2 with ifaces := iface_remove br r.2.ifaces } else r.2)

/-- Modelled from the spec: `br_addif(br, port)` of `bridge.h`, "enroll a
port"; 0 on success. -/
def br_addif (ω : Oracle) (br : String) (ifname : String) (w : World) : Int × World :=
  let r := os_call ω (.br_addif br ifname) w
  (r.1.ret, r.2)

/-- Modelled from the spec: `br_delif(br, port)` of `bridge.h`, "unenroll a
port"; 0 on success. -/
def br_delif (ω : Oracle) (br : String) (ifname : String) (w : World) : Int × World :=
  let r := os_call ω (.br_delif br ifname) w
  (r.1.ret, r.2)

/-- Modelled from the spec: `br_getnumports(br)` of `bridge.h`, "number of
currently enrolled ports". -/
def br_getnumports (ω : Oracle) (br : String) (w : World) : Int × World :=
  let r := os_call ω (.br_getnumports br) w
  (r.1.ret, r.2)

/-- Modelled from the spec: `hostapd_vlan_if_add(hapd, name)`, "driver-level
per-station virtual interface create"; 0 on success, and then the interface
exists. -/
def hostapd_vlan_if_add (ω : Oracle) (ifname : String) (w : World) : Int × World :=
  let r := os_call ω (.hostapd_vlan_if_add ifname) w
  (r.1.ret, if r.1.ret = 0 then { r.2 with ifaces := iface_insert ifname r.2.ifaces } else r.2)

/-- Modelled from the spec: `hostapd_vlan_if_remove(hapd, name)`, "driver-level
per-station virtual interface destroy"; 0 on success, and then the interface
is gone. -/
def hostapd_vlan_if_remove (ω : Oracle) (ifname : String) (w : World) : Int × World :=
  let r := os_call ω (.hostapd_vlan_if_remove ifname) w
  (r.1.ret, if r.1.ret = 0 then { r.2 with ifaces := iface_remove ifname r.2.ifaces } else r.2)

/-- Modelled from the spec: `wpa_auth_ensure_group(wpa_auth, vid)`, the
authenticator's "ensure group for VID"; 0 on success. -/
def wpa_auth_ensure_group (ω : Oracle) (vlan_id : Int) (w : World) : Int × World :=
  let r := os_call ω (.wpa_auth_ensure_group vlan_id) w
  (r.1.ret, r.2)

/-- Modelled from the spec: `wpa_auth_release_group(wpa_auth, vid)`, the
release that matches `wpa_auth_ensure_group`; 0 on success. -/
def wpa_auth_release_group (ω : Oracle) (vlan_id : Int) (w : World) : Int × World :=
  let r := os_call ω (.wpa_auth_release_group vlan_id) w
  (r.1.ret, r.2)

/-- Modelled from the spec: `rsn_preauth_snoop_init(hapd, ifname)`, the
pre-auth snoop hook; returns the handle, 0 for `NULL`. -/
def rsn_preauth_snoop_init (ω : Oracle) (ifname : String) (w : World) : Int × World :=
  let r := os_call ω (.rsn_preauth_snoop_init ifname) w
  (r.1.ret, r.2)

/-- Modelled from the spec: `rsn_preauth_snoop_deinit(hapd, ifname, handle)`,
which ends the pre-auth snoop. -/
def rsn_preauth_snoop_deinit (ω : Oracle) (ifname : String) (handle : Int) (w : World) :
    World :=
  (os_call ω (.rsn_preauth_snoop_deinit ifname handle) w).2

/-! ## The helper script -/

/-- What the argument loop of `run_script` reads with `va_arg` behind the
arguments of the call site, ahead of `n` free slots of `args[100]`.  No caller
passes the terminating `NULL`, so the loop reads on; what it finds is not
determined by the program (undefined behaviour in C) and is left to the
environment: the answer to `va_arg k` has `ret = 0` for a null pointer and
otherwise the string in `str`. -/
def run_script_va_arg (ω : Oracle) (tr : List OsEvent) : Nat → Nat → List String
  | 0, _ => []
  | n + 1, k =>
    if (ω tr (.va_arg k)).ret = 0 then []
    else (ω tr (.va_arg k)).str :: run_script_va_arg ω tr n (k + 1)

/-- The argument collection loop of `run_script`, with `n` free slots of
`args[100]`: the arguments of the call site up to a `NULL` among them, and
behind them what `va_arg` yields. -/
def run_script_args (ω : Oracle) (tr : List OsEvent) :
    Nat → List (Option String) → List String
  | 0, _ => []
  | n + 1, [] => run_script_va_arg ω tr (n + 1) 0
  | _ + 1, none :: _ => []
  | n + 1, some a :: rest => a :: run_script_args ω tr n rest

/-- The read loop of `run_script`: the memory at `output` afterwards, given
the bytes `out` that the child writes to its standard output.  At most `size`
bytes are stored; a newline among them is replaced by a 0 byte and ends the
loop.  Without a newline no 0 byte is written, and what was behind the stored
bytes stays. -/
def run_script_read (size : Nat) (out : String) (output : List Char) : List Char :=
  if ((out.data.take size).takeWhile (fun c => decide (c ≠ '\n'))).length
      < (out.data.take size).length then
    (out.data.take size).takeWhile (fun c => decide (c ≠ '\n'))
      ++ Char.ofNat 0
        :: output.drop (((out.data.take size).takeWhile (fun c => decide (c ≠ '\n'))).length + 1)
  else
    out.data.take size ++ output.drop (out.data.take size).length

/-- The text of the C string at the start of a piece of memory: the
characters before the first 0 byte (all of them when there is no 0 byte). -/
def c_text (mem : List Char) : String :=
  ⟨mem.takeWhile (fun c => decide (c ≠ Char.ofNat 0))⟩

/-- The memory after a C string has been stored at its start: the characters,
a 0 byte, and behind them what was there. -/
def store_c_text (text : String) (mem : List Char) : List Char :=
  text.data ++ Char.ofNat 0 :: mem.drop (text.length + 1)

/-- `run_script(output, size, script, ...)`: the returned value and the memory
at `output` afterwards; `output` is `none` for `NULL`.  The
`pipe`/`fork`/`execv`/`waitid` sequence is one call to the environment, whose
answer has `ret < 0` when the child could not be started or waited for,
`ret > 0` when it did not exit normally (`si_code != CLD_EXITED`), `ret = 0`
when it exited with status `val`, and `str` as the bytes written to its
standard output. -/
def run_script (ω : Oracle) (output : Option (List Char)) (size : Nat) (script : String)
    (args : List (Option String)) (w : World) : (Int × List Char) × World :=
  let r := os_call ω (.exec script (run_script_args ω w.trace 100 args) output.isSome) w
  if r.1.ret < 0 then ((-1, output.getD []), r.2)
  else if r.1.ret ≠ 0 then ((-1, output.getD []), r.2)
  else if r.1.val ≠ 0 then ((1, output.getD []), r.2)
  else
    match output with
    | none => ((0, []), r.2)
    | some mem => ((0, run_script_read size r.1.str mem), r.2)

/-! ## VLAN devices through `SIOCSIFVLAN` -/

/-- `vlan_rem(if_name)`.  A successful `DEL_VLAN_CMD` removes the device. -/
def vlan_rem (K : Consts) (ω : Oracle) (if_name : String) (w : World) : Int × World :=
  if if_name.length + 1 > K.VLAN_DEVICE1_SIZE then (-1, w)
  else
    let s := os_call ω .socket w
    if s.1.ret < 0 then (-1, s.2)
    else
      let r := os_call ω (.ioctl_del_vlan (os_strlcpy if_name K.VLAN_DEVICE1_SIZE)) s.2
      if r.1.ret < 0 then (-1, (os_call ω .close r.2).2)
      else
        (0, (os_call ω .close
          { r.2 with ifaces := iface_remove if_name r.2.ifaces }).2)

/-- The end of `vlan_add`, from "A suitable vlan device does not already
exist, add one".  A successful `ADD_VLAN_CMD` creates a device whose name the
kernel chooses; the answer carries it in `str`. -/
def vlan_add_new (K : Consts) (ω : Oracle) (if_name : String) (vid : Int) (w : World) :
    Int × World :=
  let a := os_call ω (.ioctl_add_vlan (os_strlcpy if_name K.VLAN_DEVICE1_SIZE) vid) w
  if a.1.ret < 0 then (-1, (os_call ω .close a.2).2)
  else
    (0, (os_call ω .close { a.2 with ifaces := iface_insert a.1.str a.2.ifaces }).2)

/-- `vlan_add(if_name, vid, vlan_if_name)`: -1 on error, 1 if a matching VLAN
device exists already, 0 if one was added.  `u.device2` has the size of
`device1`. -/
def vlan_add (K : Consts) (ω : Oracle) (if_name : String) (vid : Int)
    (_vlan_if_name : String) (w : World) : Int × World :=
  let u := ifconfig_up ω if_name w
  if if_name.length + 1 > K.VLAN_DEVICE1_SIZE then (-1, u.2)
  else
    let s := os_call ω .socket u.2
    if s.1.ret < 0 then (-1, s.2)
    else
      let g := os_call ω
        (.ioctl_get_vlan_vid (os_snprintf K.VLAN_DEVICE1_SIZE ("vlan" ++ itoa vid))) s.2
      if g.1.ret = 0 then
        if g.1.val = vid then
          let d := os_call ω
            (.ioctl_get_vlan_realdev (os_snprintf K.VLAN_DEVICE1_SIZE ("vlan" ++ itoa vid)))
            g.2
          if d.1.ret = 0 ∧
              d.1.str.data.take K.VLAN_DEVICE1_SIZE
                = if_name.data.take K.VLAN_DEVICE1_SIZE then
            (1, (os_call ω .close d.2).2)
          else vlan_add_new K ω if_name vid d.2
        else vlan_add_new K ω if_name vid g.2
      else vlan_add_new K ω if_name vid g.2

/-! ## The program state -/

/-- The state of one BSS together with the world around it. -/
structure Sys where
  hapd : hostapd_data
  os : World
deriving DecidableEq, Repr

/-- Replace the world. -/
def Sys.with_os (s : Sys) (w : World) : Sys :=
  { s with os := w }

/-- Replace the registry `hapd->iface->interfaces->vlan_priv`. -/
def Sys.with_vlan_priv (s : Sys) (reg : List dynamic_iface) : Sys :=
  { s with hapd := { s.hapd with vlan_priv := reg } }

/-- Replace the binding list `hapd->conf->vlan`. -/
def Sys.with_vlan (s : Sys) (l : List hostapd_vlan) : Sys :=
  { s with hapd := { s.hapd with conf := { s.hapd.conf with vlan := l } } }

/-- `dyn_iface_get(hapd, ifname, clean)` as a step of the program: the
outcome of `os_zalloc`, when it is reached, comes from the environment. -/
def dyn_iface_get_call (K : Consts) (ω : Oracle) (ifname : String) (clean : Nat)
    (s : Sys) : Sys :=
  match dyn_iface_get_pre s.hapd.vlan_priv ifname clean with
  | some reg1 => s.with_vlan_priv reg1
  | none =>
    let a := os_call ω .os_zalloc s.os
    (s.with_os a.2).with_vlan_priv
      (dyn_iface_get_post K (decide (a.1.ret ≠ 0)) s.hapd.vlan_priv ifname clean)

/-- `dyn_iface_put(hapd, ifname)` as a step of the program. -/
def dyn_iface_put_call (ifname : String) (s : Sys) : Nat × Sys :=
  ((dyn_iface_put s.hapd.vlan_priv ifname).2,
   s.with_vlan_priv (dyn_iface_put s.hapd.vlan_priv ifname).1)

/-! ## Per-station interfaces -/

/-- The end of `vlan_if_add`, from `if (ret) return ret;` on, with `ret` the
outcome of the interface creation. -/
def vlan_if_add_up (K : Consts) (ω : Oracle) (hapd : hostapd_data) (vlan : hostapd_vlan)
    (ret : Int) (w : World) : Int × hostapd_vlan × World :=
  if ret ≠ 0 then (ret, vlan, w)
  else
    let u := ifconfig_up ω vlan.ifname w
    let p : hostapd_vlan × World :=
      if K.CONFIG_RSN_PREAUTH_COPY ∧ vlan.rsn_preauth = 0 then
        ({ vlan with rsn_preauth := (rsn_preauth_snoop_init ω vlan.ifname u.2).1 },
         (rsn_preauth_snoop_init ω vlan.ifname u.2).2)
      else (vlan, u.2)
    let g : Int × World :=
      if hapd.wpa_auth then wpa_auth_ensure_group ω vlan.vlan_id p.2 else (ret, p.2)
    if g.1 = 0 then (g.1, p.1, g.2)
    else
      let r := wpa_auth_release_group ω vlan.vlan_id g.2
      let d : World :=
        if K.CONFIG_RSN_PREAUTH_COPY then
          rsn_preauth_snoop_deinit ω vlan.ifname p.1.rsn_preauth r.2
        else r.2
      (g.1, p.1, (hostapd_vlan_if_remove ω vlan.ifname d).2)

/-- `vlan_if_add(hapd, vlan, existsok)`: the returned value, the binding as
the call leaves it, and the world. -/
def vlan_if_add (K : Consts) (ω : Oracle) (hapd : hostapd_data) (vlan : hostapd_vlan)
    (existsok : Bool) (w : World) : Int × hostapd_vlan × World :=
  if hapd.conf.ssid.wep_key.any (fun k => k) then (-1, vlan, w)
  else if if_nametoindex w vlan.ifname = 0 then
    let r := hostapd_vlan_if_add ω vlan.ifname w
    vlan_if_add_up K ω hapd vlan r.1 r.2
  else if !existsok then (-1, vlan, w)
  else vlan_if_add_up K ω hapd vlan 0 w

/-- `vlan_if_remove(hapd, vlan)`: the returned value, the binding as the call
leaves it, and the world. -/
def vlan_if_remove (K : Consts) (ω : Oracle) (vlan : hostapd_vlan) (w : World) :
    Int × hostapd_vlan × World :=
  let r := wpa_auth_release_group ω vlan.vlan_id w
  if K.CONFIG_RSN_PREAUTH_COPY then
    let h := hostapd_vlan_if_remove ω vlan.ifname
      (rsn_preauth_snoop_deinit ω vlan.ifname vlan.rsn_preauth r.2)
    (h.1, { vlan with rsn_preauth := 0 }, h.2)
  else
    let h := hostapd_vlan_if_remove ω vlan.ifname r.2
    (h.1, vlan, h.2)

/-! ## Bridges and trunk children -/

/-- The name that `vlan_newlink_tagged` and `vlan_dellink_tagged` print into
`vlan_ifname[IFNAMSIZ]`. -/
def vlan_ifname_of (K : Consts) (vlan_naming : Int) (tagged_interface : String)
    (vid : Int) : String :=
  if vlan_naming = K.DYNAMIC_VLAN_NAMING_WITH_DEVICE then
    os_snprintf K.IFNAMSIZ (tagged_interface ++ "." ++ itoa vid)
  else
    os_snprintf K.IFNAMSIZ ("vlan" ++ itoa vid)

/-- `vlan_newlink_tagged(vlan_naming, tagged_interface, br_name, vid, hapd)`. -/
def vlan_newlink_tagged (K : Consts) (ω : Oracle) (vlan_naming : Int)
    (tagged_interface : String) (br_name : String) (vid : Int) (s : Sys) : Sys :=
  let vlan_ifname := vlan_ifname_of K vlan_naming tagged_interface vid
  let u := ifconfig_up ω tagged_interface s.os
  match s.hapd.conf.ssid.vlan_script with
  | some script =>
    let r := run_script ω none 0 script
      [some "br_addif", some br_name, some tagged_interface, some "tagged",
       some (itoa vid)] u.2
    let clean : Nat := if r.1.1 = 0 then 0 ||| DVLAN_CLEAN_VLAN_PORT else 0
    let s1 := dyn_iface_get_call K ω vlan_ifname clean (s.with_os r.2)
    s1.with_os (ifconfig_up ω vlan_ifname s1.os).2
  | none =>
    let a := vlan_add K ω tagged_interface vid vlan_ifname u.2
    let clean1 : Nat := if a.1 = 0 then 0 ||| DVLAN_CLEAN_VLAN else 0
    let b := br_addif ω br_name vlan_ifname a.2
    let clean2 : Nat := if b.1 = 0 then clean1 ||| DVLAN_CLEAN_VLAN_PORT else clean1
    let s1 := dyn_iface_get_call K ω vlan_ifname clean2 (s.with_os b.2)
    s1.with_os (ifconfig_up ω vlan_ifname s1.os).2

/-- The three `os_snprintf` branches of `vlan_bridge_name`. -/
def vlan_bridge_name_default (K : Consts) (hapd : hostapd_data) (vid : Int) : String :=
  if hapd.conf.vlan_bridge ≠ "" then
    os_snprintf K.IFNAMSIZ (hapd.conf.vlan_bridge ++ itoa vid)
  else
    match hapd.conf.ssid.vlan_tagged_interface with
    | some tagged_interface =>
      os_snprintf K.IFNAMSIZ ("br" ++ tagged_interface ++ "." ++ itoa vid)
    | none => os_snprintf K.IFNAMSIZ ("brvlan" ++ itoa vid)

/-- `vlan_bridge_name(br_name, hapd, vid)`, with `br_name` the memory of the
caller's array (and behind it) before the call: the bridge name that the
callers read from `br_name` afterwards, and the memory afterwards.  After
`os_snprintf` the name is the printed text; after a successful `run_script` it
is the C string that starts at `br_name`, which goes on into what the array
held before when the script prints no newline. -/
def vlan_bridge_name (K : Consts) (ω : Oracle) (br_name : List Char) (vid : Int) (s : Sys) :
    (String × List Char) × Sys :=
  match s.hapd.conf.ssid.vlan_script with
  | some script =>
    let r := run_script ω (some br_name) K.IFNAMSIZ script
      [some "br_name", some s.hapd.conf.vlan_bridge, s.hapd.conf.ssid.vlan_tagged_interface,
       some (itoa vid)] s.os
    if r.1.1 = 0 then ((c_text r.1.2, r.1.2), s.with_os r.2)
    else
      ((vlan_bridge_name_default K s.hapd vid,
        store_c_text (vlan_bridge_name_default K s.hapd vid) br_name), s.with_os r.2)
  | none =>
    ((vlan_bridge_name_default K s.hapd vid,
      store_c_text (vlan_bridge_name_default K s.hapd vid) br_name), s)

/-- The bytes in the local array `br_name[IFNAMSIZ]` of `vlan_newlink` and
`vlan_dellink`, and behind it, when the function is entered: the array is not
initialised, so the environment decides. -/
def br_name_uninit (ω : Oracle) (w : World) : List Char :=
  (ω w.trace .br_name_uninit).str.data

/-- `vlan_get_bridge(br_name, hapd, vid)`. -/
def vlan_get_bridge (K : Consts) (ω : Oracle) (br_name : String) (vid : Int) (s : Sys) :
    Sys :=
  let r : Int × World :=
    match s.hapd.conf.ssid.vlan_script with
    | none => br_addbr ω br_name s.os
    | some script =>
      let x := run_script ω none 0 script
        [some "br_addbr", some br_name, some (itoa vid)] s.os
      (x.1.1, x.2)
  let s1 := dyn_iface_get_call K ω br_name (if r.1 ≠ 0 then 0 else DVLAN_CLEAN_BR)
    (s.with_os r.2)
  let s2 := s1.with_os (ifconfig_up ω br_name s1.os).2
  match s.hapd.conf.ssid.vlan_tagged_interface with
  | some tagged_interface =>
    vlan_newlink_tagged K ω s.hapd.conf.ssid.vlan_naming tagged_interface br_name vid s2
  | none => s2

/-- `vlan_dellink_tagged(vlan_naming, tagged_interface, br_name, vid, hapd)`. -/
def vlan_dellink_tagged (K : Consts) (ω : Oracle) (vlan_naming : Int)
    (tagged_interface : String) (br_name : String) (vid : Int) (s : Sys) : Sys :=
  let vlan_ifname := vlan_ifname_of K vlan_naming tagged_interface vid
  let c := dyn_iface_put_call vlan_ifname s
  match s.hapd.conf.ssid.vlan_script with
  | some script =>
    if c.1 &&& DVLAN_CLEAN_VLAN_PORT ≠ 0 then
      c.2.with_os (run_script ω none 0 script
        [some "br_delif", some br_name, some tagged_interface, some "tagged",
         some (itoa vid)] c.2.os).2
    else c.2
  | none =>
    let w1 : World :=
      if c.1 &&& DVLAN_CLEAN_VLAN_PORT ≠ 0 then (br_delif ω br_name vlan_ifname c.2.os).2
      else c.2.os
    let w2 : World :=
      if c.1 &&& DVLAN_CLEAN_VLAN ≠ 0 then
        (vlan_rem K ω vlan_ifname (ifconfig_down ω vlan_ifname w1).2).2
      else w1
    c.2.with_os w2

/-- `vlan_put_bridge(br_name, hapd, vid)`. -/
def vlan_put_bridge (K : Consts) (ω : Oracle) (br_name : String) (vid : Int) (s : Sys) :
    Sys :=
  let s1 : Sys :=
    match s.hapd.conf.ssid.vlan_tagged_interface with
    | some tagged_interface =>
      vlan_dellink_tagged K ω s.hapd.conf.ssid.vlan_naming tagged_interface br_name vid s
    | none => s
  let c := dyn_iface_put_call br_name s1
  if c.1 &&& DVLAN_CLEAN_BR = 0 then c.2
  else
    match s.hapd.conf.ssid.vlan_script with
    | none =>
      let n := br_getnumports ω br_name c.2.os
      if n.1 ≠ 0 then c.2.with_os n.2
      else c.2.with_os (br_delbr ω br_name (ifconfig_down ω br_name n.2).2).2
    | some script =>
      c.2.with_os (run_script ω none 0 script
        [some "br_delbr", some br_name, some (itoa vid)]
        (ifconfig_down ω br_name c.2.os).2).2

/-! ## Link appearance and removal -/

/-- The loop over `tagged` in `vlan_newlink`, from index `i` on, on the memory
of `br_name` and the state.  `fuel` is `MAX_NUM_TAGGED_VLAN - i`, so that
`fuel = 0` is the exit `i >= MAX_NUM_TAGGED_VLAN`. -/
def vlan_newlink_tagged_loop (K : Consts) (ω : Oracle) (ifname : String) (untagged : Int)
    (tagged : List Int) : Nat → Nat → List Char × Sys → List Char × Sys
  | 0, _, st => st
  | fuel + 1, i, st =>
    if tagged.getD i 0 = 0 then st
    else if tagged.getD i 0 = untagged then
      vlan_newlink_tagged_loop K ω ifname untagged tagged fuel (i + 1) st
    else if tagged.getD i 0 ≤ 0 ∨ tagged.getD i 0 > K.MAX_VLAN_ID then
      vlan_newlink_tagged_loop K ω ifname untagged tagged fuel (i + 1) st
    else if i > 0 ∧ tagged.getD i 0 = tagged.getD (i - 1) 0 then
      vlan_newlink_tagged_loop K ω ifname untagged tagged fuel (i + 1) st
    else
      let b := vlan_bridge_name K ω st.1 (tagged.getD i 0) st.2
      let s1 := vlan_get_bridge K ω b.1.1 (tagged.getD i 0) b.2
      vlan_newlink_tagged_loop K ω ifname untagged tagged fuel (i + 1)
        (b.1.2,
         vlan_newlink_tagged K ω K.DYNAMIC_VLAN_NAMING_WITH_DEVICE ifname b.1.1
          (tagged.getD i 0) s1)

/-- The body of the loop of `vlan_newlink` for the binding it stops at, from
`vlan->configured = 1` to the `break`: the binding and the state afterwards. -/
def vlan_newlink_vlan (K : Consts) (ω : Oracle) (ifname : String) (vlan : hostapd_vlan)
    (s : Sys) : hostapd_vlan × Sys :=
  let vlan0 : hostapd_vlan := { vlan with configured := 1 }
  let untagged := vlan.vlan_desc.untagged
  let r : hostapd_vlan × List Char × Sys :=
    if vlan.vlan_desc.notempty = 0 then
      if s.hapd.conf.bridge ≠ "" then
        let a : Int × World :=
          match s.hapd.conf.ssid.vlan_script with
          | some script =>
            let x := run_script ω none 0 script
              [some "br_addif", some s.hapd.conf.bridge, some ifname] s.os
            (x.1.1, x.2)
          | none => br_addif ω s.hapd.conf.bridge ifname s.os
        (if a.1 = 0 then { vlan0 with clean := vlan0.clean ||| K.DVLAN_CLEAN_WLAN_PORT }
          else vlan0,
         br_name_uninit ω s.os, s.with_os a.2)
      else (vlan0, br_name_uninit ω s.os, s)
    else if untagged > 0 ∧ untagged ≤ K.MAX_VLAN_ID then
      let b := vlan_bridge_name K ω (br_name_uninit ω s.os) untagged s
      let s1 := vlan_get_bridge K ω b.1.1 untagged b.2
      let a : Int × World :=
        match s.hapd.conf.ssid.vlan_script with
        | some script =>
          let x := run_script ω none 0 script
            [some "br_addif", some b.1.1, some ifname, some "untagged", some (itoa untagged)]
            s1.os
          (x.1.1, x.2)
        | none => br_addif ω b.1.1 ifname s1.os
      (if a.1 = 0 then { vlan0 with clean := vlan0.clean ||| K.DVLAN_CLEAN_WLAN_PORT }
        else vlan0,
       b.1.2, s1.with_os a.2)
    else (vlan0, br_name_uninit ω s.os, s)
  let s2 := (vlan_newlink_tagged_loop K ω ifname untagged vlan.vlan_desc.tagged
    K.MAX_NUM_TAGGED_VLAN 0 r.2).2
  let u := ifconfig_up ω ifname s2.os
  if K.CONFIG_RSN_PREAUTH_COPY ∧ r.1.rsn_preauth = 0 then
    ({ r.1 with rsn_preauth := (rsn_preauth_snoop_init ω vlan.ifname u.2).1 },
     s2.with_os (rsn_preauth_snoop_init ω vlan.ifname u.2).2)
  else (r.1, s2.with_os u.2)

/-- The search of `vlan_newlink`: the position of the first binding that is
not configured and whose name equals `ifname`. -/
def vlan_newlink_find (ifname : String) : List hostapd_vlan → Option Nat
  | [] => none
  | v :: rest =>
    if v.configured ≠ 0 then (vlan_newlink_find ifname rest).map (fun i => i + 1)
    else if ifname ≠ v.ifname then (vlan_newlink_find ifname rest).map (fun i => i + 1)
    else some 0

/-- `vlan_newlink(ifname, hapd)`. -/
def vlan_newlink (K : Consts) (ω : Oracle) (ifname : String) (s : Sys) : Sys :=
  match vlan_newlink_find ifname s.hapd.conf.vlan with
  | none => s
  | some i =>
    match s.hapd.conf.vlan.get? i with
    | none => s
    | some vlan =>
      let r := vlan_newlink_vlan K ω ifname vlan s
      r.2.with_vlan (r.2.hapd.conf.vlan.set i r.1)

/-- The loop over `tagged` in `vlan_dellink`, from index `i` on, on the memory
of `br_name` and the state, with `fuel` as in `vlan_newlink_tagged_loop`. -/
def vlan_dellink_tagged_loop (K : Consts) (ω : Oracle) (ifname : String) (untagged : Int)
    (tagged : List Int) : Nat → Nat → List Char × Sys → List Char × Sys
  | 0, _, st => st
  | fuel + 1, i, st =>
    if tagged.getD i 0 = 0 then st
    else if tagged.getD i 0 = untagged then
      vlan_dellink_tagged_loop K ω ifname untagged tagged fuel (i + 1) st
    else if tagged.getD i 0 ≤ 0 ∨ tagged.getD i 0 > K.MAX_VLAN_ID then
      vlan_dellink_tagged_loop K ω ifname untagged tagged fuel (i + 1) st
    else if i > 0 ∧ tagged.getD i 0 = tagged.getD (i - 1) 0 then
      vlan_dellink_tagged_loop K ω ifname untagged tagged fuel (i + 1) st
    else
      let b := vlan_bridge_name K ω st.1 (tagged.getD i 0) st.2
      let s1 := vlan_dellink_tagged K ω K.DYNAMIC_VLAN_NAMING_WITH_DEVICE ifname b.1.1
        (tagged.getD i 0) b.2
      vlan_dellink_tagged_loop K ω ifname untagged tagged fuel (i + 1)
        (b.1.2, vlan_put_bridge K ω b.1.1 (tagged.getD i 0) s1)

/-- The part of `vlan_dellink` between `if (!vlan->configured) goto
skip_counting;` and the label `skip_counting`, for a configured binding. -/
def vlan_dellink_counting (K : Consts) (ω : Oracle) (ifname : String) (vlan : hostapd_vlan)
    (s : Sys) : Sys :=
  let s0 : Sys :=
    if K.CONFIG_RSN_PREAUTH_COPY then
      s.with_os (rsn_preauth_snoop_deinit ω vlan.ifname vlan.rsn_preauth s.os)
    else s
  let untagged := vlan.vlan_desc.untagged
  let st1 := vlan_dellink_tagged_loop K ω ifname untagged vlan.vlan_desc.tagged
    K.MAX_NUM_TAGGED_VLAN 0 (br_name_uninit ω s.os, s0)
  let s1 := st1.2
  if vlan.vlan_desc.notempty = 0 then
    if s.hapd.conf.bridge ≠ "" ∧ vlan.clean &&& K.DVLAN_CLEAN_WLAN_PORT ≠ 0 then
      match s.hapd.conf.ssid.vlan_script with
      | some script =>
        s1.with_os (run_script ω none 0 script
          [some "br_delif", some s.hapd.conf.bridge, some ifname] s1.os).2
      | none => s1.with_os (br_delif ω s.hapd.conf.bridge ifname s1.os).2
    else s1
  else if untagged > 0 ∧ untagged ≤ K.MAX_VLAN_ID then
    let b := vlan_bridge_name K ω st1.1 untagged s1
    let s2 : Sys :=
      if vlan.clean &&& K.DVLAN_CLEAN_WLAN_PORT ≠ 0 then
        match s.hapd.conf.ssid.vlan_script with
        | some script =>
          b.2.with_os (run_script ω none 0 script
            [some "br_delif", some b.1.1, some vlan.ifname, some "untagged",
             some (itoa untagged)] b.2.os).2
        | none => b.2.with_os (br_delif ω b.1.1 vlan.ifname b.2.os).2
      else b.2
    vlan_put_bridge K ω b.1.1 untagged s2
  else s1

/-- The body of the loop of `vlan_dellink` for the binding it stops at, up to
the unlinking. -/
def vlan_dellink_vlan (K : Consts) (ω : Oracle) (ifname : String) (vlan : hostapd_vlan)
    (s : Sys) : Sys :=
  let s1 : Sys := if vlan.configured = 0 then s else vlan_dellink_counting K ω ifname vlan s
  if if_nametoindex s1.os vlan.ifname ≠ 0 then
    s1.with_os (vlan_if_remove K ω vlan s1.os).2.2
  else s1

/-- The search of `vlan_dellink`: the position of the first binding whose
name equals `ifname`. -/
def vlan_dellink_find (ifname : String) : List hostapd_vlan → Option Nat
  | [] => none
  | v :: rest =>
    if ifname ≠ v.ifname then (vlan_dellink_find ifname rest).map (fun i => i + 1)
    else some 0

/-- `vlan_dellink(ifname, hapd)`. -/
def vlan_dellink (K : Consts) (ω : Oracle) (ifname : String) (s : Sys) : Sys :=
  match vlan_dellink_find ifname s.hapd.conf.vlan with
  | none => s
  | some i =>
    match s.hapd.conf.vlan.get? i with
    | none => s
    | some vlan =>
      let s1 := vlan_dellink_vlan K ω ifname vlan s
      s1.with_vlan (s1.hapd.conf.vlan.eraseIdx i)

/-- `vlan_add_dynamic(hapd, vlan, vlan_id, vlan_desc)`: the returned binding
(`none` for `NULL`) and the state.  `sizeof(n->ifname)` is `IFNAMSIZ + 1`. -/
def vlan_add_dynamic (K : Consts) (ω : Oracle) (vlan : Option hostapd_vlan) (vlan_id : Int)
    (vlan_desc : vlan_description) (s : Sys) : Option hostapd_vlan × Sys :=
  match vlan with
  | none => (none, s)
  | some t =>
    if t.vlan_id ≠ K.VLAN_ID_WILDCARD then (none, s)
    else
      let d := os_call ω .os_strdup s.os
      if d.1.ret = 0 then (none, s.with_os d.2)
      else if '#' ∉ t.ifname.data then (none, s.with_os d.2)
      else
        let ifname : String := ⟨t.ifname.data.takeWhile (fun c => decide (c ≠ '#'))⟩
        let pos : String := ⟨(t.ifname.data.dropWhile (fun c => decide (c ≠ '#'))).drop 1⟩
        let z := os_call ω .os_zalloc d.2
        if z.1.ret = 0 then (none, s.with_os z.2)
        else
          let n : hostapd_vlan :=
            { ifname := os_snprintf (K.IFNAMSIZ + 1) (ifname ++ itoa vlan_id ++ pos),
              vlan_id := vlan_id,
              vlan_desc := vlan_desc,
              dynamic_vlan := 1,
              configured := 0,
              clean := 0,
              rsn_preauth := 0 }
          let r := vlan_if_add K ω (s.with_vlan (n :: s.hapd.conf.vlan)).hapd n false z.2
          if r.1 ≠ 0 then (none, s.with_os r.2.2)
          else (some r.2.1, (s.with_os r.2.2).with_vlan (r.2.1 :: s.hapd.conf.vlan))

/-- The search of `vlan_remove_dynamic`: the position of the first binding
with `vlan_id` and a positive `dynamic_vlan`. -/
def vlan_remove_dynamic_find (vlan_id : Int) : List hostapd_vlan → Option Nat
  | [] => none
  | v :: rest =>
    if v.vlan_id = vlan_id ∧ v.dynamic_vlan > 0 then some 0
    else (vlan_remove_dynamic_find vlan_id rest).map (fun i => i + 1)

/-- `vlan_remove_dynamic(hapd, vlan_id)`. -/
def vlan_remove_dynamic (K : Consts) (ω : Oracle) (vlan_id : Int) (s : Sys) : Int × Sys :=
  if vlan_id ≤ 0 then (1, s)
  else
    match vlan_remove_dynamic_find vlan_id s.hapd.conf.vlan with
    | none => (1, s)
    | some i =>
      match s.hapd.conf.vlan.get? i with
      | none => (1, s)
      | some v =>
        let v1 : hostapd_vlan := { v with dynamic_vlan := v.dynamic_vlan - 1 }
        let s1 := s.with_vlan (s.hapd.conf.vlan.set i v1)
        if v1.dynamic_vlan = 0 then
          let r := vlan_if_remove K ω v1 s1.os
          let s2 := (s1.with_os r.2.2).with_vlan (s1.hapd.conf.vlan.set i r.2.1)
          (0, vlan_dellink K ω v1.ifname s2)
        else (0, s1)

/-- The loop of `vlan_dynamic_add(hapd, vlan)` over the binding list, from
position `i` on; `fuel` bounds the number of bindings left. -/
def vlan_dynamic_add (K : Consts) (ω : Oracle) : Nat → Nat → Sys → Int × Sys
  | 0, _, s => (0, s)
  | fuel + 1, i, s =>
    match s.hapd.conf.vlan.get? i with
    | none => (0, s)
    | some vlan =>
      if vlan.vlan_id ≠ K.VLAN_ID_WILDCARD then
        let r := vlan_if_add K ω s.hapd vlan true s.os
        let s1 := (s.with_os r.2.2).with_vlan (s.hapd.conf.vlan.set i r.2.1)
        if r.1 ≠ 0 then (-1, s1)
        else vlan_dynamic_add K ω fuel (i + 1) (vlan_newlink K ω vlan.ifname s1)
      else vlan_dynamic_add K ω fuel (i + 1) s

/-! ## Example environments and configurations -/

/-- An environment in which every call succeeds: allocations return memory,
everything else returns 0.  In it `va_arg` finds a null pointer right behind
the arguments of a call site, and an uninitialised `br_name` holds nothing. -/
def oracle_ok : Oracle := fun _ c =>
  match c with
  | .os_zalloc => { ret := 1, val := 0, str := "" }
  | .os_strdup => { ret := 1, val := 0, str := "" }
  | _ => { ret := 0, val := 0, str := "" }

/-- A binding with the given name, VID and description, fresh from
`os_zalloc`. -/
def binding (ifname : String) (vlan_id : Int) (desc : vlan_description) : hostapd_vlan :=
  { ifname := ifname, vlan_id := vlan_id, vlan_desc := desc, dynamic_vlan := 0,
    configured := 0, clean := 0, rsn_preauth := 0 }

/-- A BSS on `wlan0` without helper script and without trunk interface, with
the given bridge name stem, WEP key slots and bindings; nothing registered, no
call issued yet, and only `wlan0` existing. -/
def example_sys (vlan_bridge : String) (wep_key : List Bool) (vlan : List hostapd_vlan) :
    Sys :=
  { hapd :=
      { conf :=
          { iface := "wlan0", bridge := "", vlan_bridge := vlan_bridge,
            ssid :=
              { wep_key := wep_key, vlan_script := none, vlan_tagged_interface := none,
                vlan_naming := 1 },
            vlan := vlan },
        wpa_auth := true,
        vlan_priv := [] },
    os := { trace := [], ifaces := ["wlan0"] } }

/-- The calls of a trace, without the answers. -/
def calls (tr : List OsEvent) : List OsCall :=
  tr.map (fun e => e.call)

/-- The binding that `vlan_add_dynamic` fills in between `os_zalloc` and
`vlan_if_add`, for a template name with the text `p` before the first `#` and
`sfx` after it. -/
def fresh_binding (K : Consts) (p sfx : List Char) (vlan_id : Int) (vlan_desc : vlan_description) :
    hostapd_vlan :=
  { ifname := os_snprintf (K.IFNAMSIZ + 1) ((⟨p⟩ : String) ++ itoa vlan_id ++ ⟨sfx⟩),
    vlan_id := vlan_id,
    vlan_desc := vlan_desc,
    dynamic_vlan := 1,
    configured := 0,
    clean := 0,
    rsn_preauth := 0 }

/-! ## Properties of traces -/

/-- The bridge names of the `br_addbr` calls of a trace, in order. -/
def addbrs (tr : List OsEvent) : List String :=
  tr.filterMap (fun e =>
    match e.call with
    | .br_addbr b => some b
    | _ => none)

/-- The name whose creation failed, when the event is a failed creation call:
`br_addbr`, the `br_addbr` verb of the helper script (judged as `run_script`
judges it), or `hostapd_vlan_if_add`. -/
def failed_create (e : OsEvent) : Option String :=
  match e.call with
  | .br_addbr br => if e.ans.ret ≠ 0 then some br else none
  | .hostapd_vlan_if_add n => if e.ans.ret ≠ 0 then some n else none
  | .exec _ ("br_addbr" :: br :: _) _ =>
    if e.ans.ret ≠ 0 ∨ e.ans.val ≠ 0 then some br else none
  | _ => none

/-- Whether a trace has no `ifconfig_up(n)` after a failed creation call for
`n`. -/
def no_ifup_after_failed_create : List OsEvent → Bool
  | [] => true
  | e :: rest =>
    (match failed_create e with
      | some n => !(rest.any (fun x => decide (x.call = .ifconfig_up n)))
      | none => true)
    && no_ifup_after_failed_create rest

/-- An environment in which `br_addbr` fails and every other call
succeeds. -/
def oracle_addbr_fails : Oracle := fun tr c =>
  match c with
  | .br_addbr _ => { ret := -1, val := 0, str := "" }
  | _ => oracle_ok tr c

/-! ## The VIDs of a tagged vector -/

/-- The entries of the zero-terminated vector `tagged` that the loops can
reach: those among the first `MAX_NUM_TAGGED_VLAN` before the first 0. -/
def tagged_entries (K : Consts) (tagged : List Int) : List Int :=
  (tagged.take K.MAX_NUM_TAGGED_VLAN).takeWhile (fun t => decide (t ≠ 0))

/-- The VIDs for which the body of a loop over `tagged` runs, from index `i`
on, in order: the skeleton that the loops of `vlan_newlink` and `vlan_dellink`
share, with the body left out. -/
def tagged_run (K : Consts) (untagged : Int) (tagged : List Int) : Nat → Nat → List Int
  | 0, _ => []
  | fuel + 1, i =>
    if tagged.getD i 0 = 0 then []
    else if tagged.getD i 0 = untagged then tagged_run K untagged tagged fuel (i + 1)
    else if tagged.getD i 0 ≤ 0 ∨ tagged.getD i 0 > K.MAX_VLAN_ID then
      tagged_run K untagged tagged fuel (i + 1)
    else if i > 0 ∧ tagged.getD i 0 = tagged.getD (i - 1) 0 then
      tagged_run K untagged tagged fuel (i + 1)
    else tagged.getD i 0 :: tagged_run K untagged tagged fuel (i + 1)

/-- The same selection on a list, with the previous entry carried along. -/
def tagged_filter (K : Consts) (untagged : Int) : Option Int → List Int → List Int
  | _, [] => []
  | prev, t :: rest =>
    if t = 0 then []
    else if t = untagged ∨ (t ≤ 0 ∨ t > K.MAX_VLAN_ID) ∨ prev = some t then
      tagged_filter K untagged (some t) rest
    else t :: tagged_filter K untagged (some t) rest

/-- One pass of the body of the loop over `tagged` in `vlan_newlink`, on the
memory of `br_name` and the state. -/
def vlan_newlink_tagged_body (K : Consts) (ω : Oracle) (ifname : String)
    (st : List Char × Sys) (vid : Int) : List Char × Sys :=
  ((vlan_bridge_name K ω st.1 vid st.2).1.2,
   vlan_newlink_tagged K ω K.DYNAMIC_VLAN_NAMING_WITH_DEVICE ifname
    (vlan_bridge_name K ω st.1 vid st.2).1.1 vid
    (vlan_get_bridge K ω (vlan_bridge_name K ω st.1 vid st.2).1.1 vid
      (vlan_bridge_name K ω st.1 vid st.2).2))

/-- One pass of the body of the loop over `tagged` in `vlan_dellink`, on the
memory of `br_name` and the state. -/
def vlan_dellink_tagged_body (K : Consts) (ω : Oracle) (ifname : String)
    (st : List Char × Sys) (vid : Int) : List Char × Sys :=
  ((vlan_bridge_name K ω st.1 vid st.2).1.2,
   vlan_put_bridge K ω (vlan_bridge_name K ω st.1 vid st.2).1.1 vid
    (vlan_dellink_tagged K ω K.DYNAMIC_VLAN_NAMING_WITH_DEVICE ifname
      (vlan_bridge_name K ω st.1 vid st.2).1.1 vid (vlan_bridge_name K ω st.1 vid st.2).2))

/-- An environment in which the driver cannot remove an interface
(`hostapd_vlan_if_remove` fails) and every other call succeeds. -/
def oracle_if_remove_fails : Oracle := fun tr c =>
  match c with
  | .hostapd_vlan_if_remove _ => { ret := -1, val := 0, str := "" }
  | _ => oracle_ok tr c

/-- A step from `s` to `s1` that keeps the configuration, only adds calls to
the trace, and whose `br_addbr` calls are for the names `L`, in order. -/
def Frame (s s1 : Sys) (L : List String) : Prop :=
  s1.hapd.conf = s.hapd.conf ∧ s.os.trace <+: s1.os.trace ∧
    addbrs s1.os.trace = addbrs s.os.trace ++ L

/-! ## Netlink messages -/

/-- Sizes and numbers that the link watcher takes from `<linux/netlink.h>`,
`<linux/rtnetlink.h>` and `<linux/if_link.h>`. -/
structure NlConsts where
  /-- `NLMSG_ALIGNTO`. -/
  NLMSG_ALIGNTO : Nat
  /-- `RTA_ALIGNTO`. -/
  RTA_ALIGNTO : Nat
  /-- `sizeof(struct nlmsghdr)`. -/
  sizeof_nlmsghdr : Nat
  /-- `sizeof(struct ifinfomsg)`. -/
  sizeof_ifinfomsg : Nat
  /-- `sizeof(struct rtattr)`. -/
  sizeof_rtattr : Nat
  /-- `IFLA_IFNAME`, the attribute type of the interface name. -/
  IFLA_IFNAME : Nat
  /-- `RTM_NEWLINK`. -/
  RTM_NEWLINK : Nat
  /-- `RTM_DELLINK`. -/
  RTM_DELLINK : Nat

/-- The values of the Linux headers. -/
def linux_nl : NlConsts where
  NLMSG_ALIGNTO := 4
  RTA_ALIGNTO := 4
  sizeof_nlmsghdr := 16
  sizeof_ifinfomsg := 16
  sizeof_rtattr := 4
  IFLA_IFNAME := 3
  RTM_NEWLINK := 16
  RTM_DELLINK := 17

/-- The byte at offset `off` of the receive buffer. -/
def rd_u8 (buf : List Nat) (off : Nat) : Nat :=
  buf.getD off 0 % 256

/-- The `unsigned short` stored at offset `off`, low byte first. -/
def rd_u16 (buf : List Nat) (off : Nat) : Nat :=
  rd_u8 buf off + 256 * rd_u8 buf (off + 1)

/-- The `__u32` stored at offset `off`, low byte first. -/
def rd_u32 (buf : List Nat) (off : Nat) : Nat :=
  rd_u16 buf off + 65536 * rd_u16 buf (off + 2)

/-- The conversion of a value to `int`: reduction modulo `2^32` into the range
of a 32-bit two's complement integer. -/
def to_int32 (x : Int) : Int :=
  if x % 2 ^ 32 ≥ 2 ^ 31 then x % 2 ^ 32 - 2 ^ 32 else x % 2 ^ 32

/-- Modelled from the spec: "message framing per standard netlink alignment
rules", the macro `NLMSG_ALIGN(len)` of `<linux/netlink.h>`:
`((len) + NLMSG_ALIGNTO - 1) & ~(NLMSG_ALIGNTO - 1)`. -/
def NLMSG_ALIGN (N : NlConsts) (len : Nat) : Nat :=
  (len + N.NLMSG_ALIGNTO - 1) / N.NLMSG_ALIGNTO * N.NLMSG_ALIGNTO

/-- Modelled from the spec: the macro `NLMSG_HDRLEN` of `<linux/netlink.h>`,
`NLMSG_ALIGN(sizeof(struct nlmsghdr))`; `NLMSG_DATA(nlh)` is `NLMSG_HDRLEN`
bytes after `nlh`. -/
def NLMSG_HDRLEN (N : NlConsts) : Nat :=
  NLMSG_ALIGN N N.sizeof_nlmsghdr

/-- Modelled from the spec: the macro `RTA_ALIGN(len)` of
`<linux/rtnetlink.h>`: `((len) + RTA_ALIGNTO - 1) & ~(RTA_ALIGNTO - 1)`. -/
def RTA_ALIGN (N : NlConsts) (len : Nat) : Nat :=
  (len + N.RTA_ALIGNTO - 1) / N.RTA_ALIGNTO * N.RTA_ALIGNTO

/-- The field `nlmsg_len` of the `struct nlmsghdr` at offset `h`. -/
def nlmsg_len (buf : List Nat) (h : Nat) : Nat :=
  rd_u32 buf h

/-- The field `nlmsg_type` of the `struct nlmsghdr` at offset `h`. -/
def nlmsg_type (buf : List Nat) (h : Nat) : Nat :=
  rd_u16 buf (h + 4)

/-- The field `rta_len` of the `struct rtattr` at offset `attr`. -/
def rta_len (buf : List Nat) (attr : Nat) : Nat :=
  rd_u16 buf attr

/-- The field `rta_type` of the `struct rtattr` at offset `attr`. -/
def rta_type (buf : List Nat) (attr : Nat) : Nat :=
  rd_u16 buf (attr + 2)

/-- What the attribute loop of `vlan_read_ifnames` has done so far: the
content of `ifname[IFNAMSIZ + 1]`, the offsets of the `struct rtattr` headers
whose fields it has read, and the offsets of the bytes that `os_memcpy` has
read, all offsets counted from the start of the receive buffer. -/
structure RtaWalk where
  ifname : List Nat
  examined : List Nat
  copied : List Nat
deriving DecidableEq, Repr

/-- `os_memcpy(ifname, buf + src, n)`: the new content of `ifname`. -/
def os_memcpy (ifname : List Nat) (buf : List Nat) (src : Nat) (n : Nat) : List Nat :=
  (List.range n).map (fun j => rd_u8 buf (src + j)) ++ ifname.drop n

/-- The loop `while (RTA_OK(attr, attrlen)) { ... attr = RTA_NEXT(attr,
attrlen); }` of `vlan_read_ifnames`, with `attr` as an offset into the receive
buffer.  `RTA_OK(rta, len)` is `len >= (int) sizeof(struct rtattr) &&
rta->rta_len >= sizeof(struct rtattr) && rta->rta_len <= len`, and `RTA_NEXT`
moves on by `RTA_ALIGN(rta->rta_len)`; each pass takes at least one byte from
`attrlen`, which bounds `fuel`. -/
def rta_walk (K : Consts) (N : NlConsts) (buf : List Nat) :
    Nat → Nat → Int → RtaWalk → RtaWalk
  | 0, _, _, r => r
  | fuel + 1, attr, attrlen, r =>
    if attrlen < (N.sizeof_rtattr : Int) then r
    else if ¬ (rta_len buf attr ≥ N.sizeof_rtattr ∧ (rta_len buf attr : Int) ≤ attrlen) then
      { r with examined := r.examined ++ [attr] }
    else if rta_type buf attr = N.IFLA_IFNAME then
      if (rta_len buf attr : Int) - (RTA_ALIGN N N.sizeof_rtattr : Int) < 0 then
        { r with examined := r.examined ++ [attr] }
      else
        let n : Nat :=
          if rta_len buf attr - RTA_ALIGN N N.sizeof_rtattr ≥ K.IFNAMSIZ + 1 then K.IFNAMSIZ
          else rta_len buf attr - RTA_ALIGN N N.sizeof_rtattr
        rta_walk K N buf fuel (attr + RTA_ALIGN N (rta_len buf attr))
          (attrlen - (RTA_ALIGN N (rta_len buf attr) : Int))
          { ifname := os_memcpy r.ifname buf (attr + RTA_ALIGN N N.sizeof_rtattr) n,
            examined := r.examined ++ [attr],
            copied := r.copied
              ++ (List.range n).map (fun j => attr + RTA_ALIGN N N.sizeof_rtattr + j) }
    else
      rta_walk K N buf fuel (attr + RTA_ALIGN N (rta_len buf attr))
        (attrlen - (RTA_ALIGN N (rta_len buf attr) : Int))
        { r with examined := r.examined ++ [attr] }

/-- The text of the C string in a byte buffer: the characters before the
first 0. -/
def c_string (bytes : List Nat) : String :=
  ⟨(bytes.takeWhile (fun b => decide (b ≠ 0))).map Char.ofNat⟩

/-- `attrlen = h->nlmsg_len - nlmsg_len` in `vlan_read_ifnames`, with
`nlmsg_len = NLMSG_ALIGN(sizeof(struct ifinfomsg))`: an unsigned subtraction
whose result is stored in an `int`. -/
def vlan_read_ifnames_attrlen (N : NlConsts) (buf : List Nat) (h : Nat) : Int :=
  to_int32 ((nlmsg_len buf h : Int) - (NLMSG_ALIGN N N.sizeof_ifinfomsg : Int))

/-- The attribute walk of `vlan_read_ifnames` for the message whose header is
at offset `h`: from `ifi = NLMSG_DATA(h)` and `attr = ifi + nlmsg_len` with
`ifname` zeroed, to the end of the loop. -/
def vlan_read_ifnames_walk (K : Consts) (N : NlConsts) (buf : List Nat) (h : Nat) : RtaWalk :=
  rta_walk K N buf ((vlan_read_ifnames_attrlen N buf h).toNat + 1)
    (h + NLMSG_HDRLEN N + NLMSG_ALIGN N N.sizeof_ifinfomsg)
    (vlan_read_ifnames_attrlen N buf h)
    { ifname := List.replicate (K.IFNAMSIZ + 1) 0, examined := [], copied := [] }

/-- `vlan_read_ifnames(h, len, del, hapd)` for the message whose header is at
offset `h` of the receive buffer. -/
def vlan_read_ifnames (K : Consts) (N : NlConsts) (ω : Oracle) (buf : List Nat) (h : Nat)
    (len : Nat) (del : Bool) (s : Sys) : Sys :=
  if len < N.sizeof_ifinfomsg then s
  else if vlan_read_ifnames_attrlen N buf h < 0 then s
  else if (vlan_read_ifnames_walk K N buf h).ifname.headD 0 = 0 then s
  else if del ∧ if_nametoindex s.os (c_string (vlan_read_ifnames_walk K N buf h).ifname) ≠ 0 then
    s
  else if del then vlan_dellink K ω (c_string (vlan_read_ifnames_walk K N buf h).ifname) s
  else vlan_newlink K ω (c_string (vlan_read_ifnames_walk K N buf h).ifname) s

/-- The loop `while (NLMSG_OK(h, left)) { ... h = NLMSG_NEXT(h, left); }` of
`vlan_event_receive`, with `h` as an offset into `buf`.  `NLMSG_OK(nlh, len)`
is `len >= (int) sizeof(struct nlmsghdr) && nlh->nlmsg_len >= sizeof(struct
nlmsghdr) && nlh->nlmsg_len <= len`, and `NLMSG_NEXT` moves on by
`NLMSG_ALIGN(nlh->nlmsg_len)`. -/
def vlan_event_receive_loop (K : Consts) (N : NlConsts) (ω : Oracle) (buf : List Nat) :
    Nat → Nat → Int → Sys → Sys
  | 0, _, _, s => s
  | fuel + 1, h, left, s =>
    if ¬ (left ≥ (N.sizeof_nlmsghdr : Int) ∧ nlmsg_len buf h ≥ N.sizeof_nlmsghdr ∧
        (nlmsg_len buf h : Int) ≤ left) then s
    else if to_int32 (nlmsg_len buf h) > left ∨
        to_int32 (nlmsg_len buf h) - (N.sizeof_nlmsghdr : Int) < 0 then s
    else
      let plen : Int := to_int32 (nlmsg_len buf h) - (N.sizeof_nlmsghdr : Int)
      let s1 : Sys :=
        if nlmsg_type buf h = N.RTM_NEWLINK then
          vlan_read_ifnames K N ω buf h plen.toNat false s
        else if nlmsg_type buf h = N.RTM_DELLINK then
          vlan_read_ifnames K N ω buf h plen.toNat true s
        else s
      vlan_event_receive_loop K N ω buf fuel (h + NLMSG_ALIGN N (nlmsg_len buf h))
        (left - (NLMSG_ALIGN N (nlmsg_len buf h) : Int)) s1

/-- `vlan_event_receive(sock, hapd, NULL)` when `recvfrom` has put a datagram
into `buf` and returned `left`. -/
def vlan_event_receive (K : Consts) (N : NlConsts) (ω : Oracle) (buf : List Nat) (left : Int)
    (s : Sys) : Sys :=
  if left < 0 then s
  else vlan_event_receive_loop K N ω buf (left.toNat + 1) 0 left s

/-- The text that the format of `vlan_bridge_name` prints before the VID:
`hapd->conf->vlan_bridge` for `"%s%d"`, `br<tagged_interface>.` for
`"br%s.%d"`, and `brvlan` for `"brvlan%d"`. -/
def vlan_bridge_stem (hapd : hostapd_data) : String :=
  if hapd.conf.vlan_bridge ≠ "" then hapd.conf.vlan_bridge
  else
    match hapd.conf.ssid.vlan_tagged_interface with
    | some tagged_interface => "br" ++ tagged_interface ++ "."
    | none => "brvlan"

/-- A datagram of 48 bytes.  Bytes 0..31 are one `RTM_DELLINK` message with
`nlmsg_len = 32`: the header and a `struct ifinfomsg`, no attribute.  Bytes
32..47 follow the message: they have the form of an `IFLA_IFNAME` attribute of
12 bytes with the payload `wlan0.7`. -/
def dgram_trailing : List Nat :=
  [32, 0, 0, 0, 17, 0] ++ List.replicate 26 0
    ++ [12, 0, 3, 0, 119, 108, 97, 110, 48, 46, 55, 0] ++ List.replicate 4 0

/-- A datagram with one `RTM_DELLINK` message of 44 bytes: the header, a
`struct ifinfomsg`, and the `IFLA_IFNAME` attribute `wlan0.7`. -/
def dgram_dellink : List Nat :=
  [44, 0, 0, 0, 17, 0] ++ List.replicate 26 0
    ++ [12, 0, 3, 0, 119, 108, 97, 110, 48, 46, 55, 0]

/-- The value of a decimal digit character. -/
def digit_value (c : Char) : Nat :=
  c.toNat - 48

/-- The number that a list of decimal digits denotes, continuing from the
value `acc` of the digits read so far. -/
def decimal_value (acc : Nat) (cs : List Char) : Nat :=
  cs.foldl (fun a c => 10 * a + digit_value c) acc

/-- A registry is counted by `pend` when its names are pairwise distinct and
every entry stands for a number `t` of outstanding gets, `1 <= t <= pend
ifname`, with `usage` the `int` that `t` wraps to. -/
def counted (pend : String → Int) (reg : List dynamic_iface) : Prop :=
  (reg.map (fun x => x.ifname)).Nodup ∧
  ∀ e ∈ reg, ∃ t : Int, 1 ≤ t ∧ t ≤ pend e.ifname ∧ e.usage = to_int32 t

/-! ## Registry lemmas -/

theorem os_strlcpy_of_length_le (s : String) (n : Nat) (h : s.length ≤ n) :
    os_strlcpy s (n + 1) = s := by
  cases s with
  | mk cs =>
    simp only [os_strlcpy, Nat.add_sub_cancel]
    congr 1
    exact List.take_of_length_le h

theorem int_incr_of_ne (x : Int) (h : x ≠ 2147483647) : int_incr x = x + 1 := by
  unfold int_incr
  rw [if_neg h]

theorem int_decr_of_pos (x : Int) (h : 1 ≤ x) : int_decr x = x - 1 := by
  unfold int_decr
  rw [if_neg (by omega)]

theorem to_int32_incr (t : Int) : int_incr (to_int32 t) = to_int32 (t + 1) := by
  unfold int_incr to_int32
  split_ifs <;> omega

theorem to_int32_decr (t : Int) : int_decr (to_int32 t) = to_int32 (t - 1) := by
  unfold int_decr to_int32
  split_ifs <;> omega

theorem dyn_iface_get_found_absent (ifname : String) (clean : Nat)
    (reg : List dynamic_iface) (h : ∀ x ∈ reg, x.ifname ≠ ifname) :
    dyn_iface_get_found ifname clean reg = none := by
  induction reg with
  | nil => rfl
  | cons e rest ih =>
    have he : ¬ ifname = e.ifname := fun hh => h e (List.mem_cons_self _ _) hh.symm
    simp only [dyn_iface_get_found, he, if_false]
    rw [ih (fun x hx => h x (List.mem_cons_of_mem _ hx))]
    rfl

theorem dyn_iface_get_found_first (ifname : String) (clean : Nat)
    (pre : List dynamic_iface) (e : dynamic_iface) (post : List dynamic_iface)
    (hpre : ∀ x ∈ pre, x.ifname ≠ ifname) (he : e.ifname = ifname) :
    dyn_iface_get_found ifname clean (pre ++ e :: post)
      = some (pre ++ { e with usage := int_incr e.usage, clean := e.clean ||| clean }
          :: post) := by
  induction pre with
  | nil => simp [dyn_iface_get_found, he]
  | cons p pre ih =>
    have hp : ¬ ifname = p.ifname := fun hh => hpre p (List.mem_cons_self _ _) hh.symm
    rw [List.cons_append, dyn_iface_get_found, if_neg hp,
      ih (fun x hx => hpre x (List.mem_cons_of_mem _ hx))]
    rfl

theorem dyn_iface_put_absent (ifname : String) (reg : List dynamic_iface)
    (h : ∀ x ∈ reg, x.ifname ≠ ifname) :
    dyn_iface_put reg ifname = (reg, 0) := by
  induction reg with
  | nil => rfl
  | cons e rest ih =>
    have he : ¬ ifname = e.ifname := fun hh => h e (List.mem_cons_self _ _) hh.symm
    simp only [dyn_iface_put, he, if_false]
    rw [ih (fun x hx => h x (List.mem_cons_of_mem _ hx))]

theorem dyn_iface_put_first (ifname : String)
    (pre : List dynamic_iface) (e : dynamic_iface) (post : List dynamic_iface)
    (hpre : ∀ x ∈ pre, x.ifname ≠ ifname) (he : e.ifname = ifname) :
    dyn_iface_put (pre ++ e :: post) ifname
      = if int_decr e.usage ≠ 0 then
          (pre ++ { e with usage := int_decr e.usage } :: post, 0)
        else (pre ++ post, e.clean) := by
  induction pre with
  | nil =>
    simp only [List.nil_append, dyn_iface_put, he, if_true]
  | cons p pre ih =>
    have hp : ¬ ifname = p.ifname := fun hh => hpre p (List.mem_cons_self _ _) hh.symm
    rw [List.cons_append, dyn_iface_put, if_neg hp,
      ih (fun x hx => hpre x (List.mem_cons_of_mem _ hx))]
    split <;> rfl

theorem dyn_iface_get_eq (K : Consts) (a : Bool) (reg : List dynamic_iface)
    (ifname : String) (clean : Nat) :
    dyn_iface_get K a reg ifname clean =
      match dyn_iface_get_found ifname clean reg with
      | some reg1 => reg1
      | none =>
        if clean = 0 then reg
        else if !a then reg
        else
          { ifname := os_strlcpy ifname (K.IFNAMSIZ + 1), usage := 1, clean := clean } :: reg := by
  unfold dyn_iface_get dyn_iface_get_pre dyn_iface_get_post
  cases dyn_iface_get_found ifname clean reg with
  | some r => rfl
  | none =>
    by_cases hc : clean = 0
    · simp [hc]
    · simp [hc]

theorem dyn_iface_get_first (K : Consts) (a : Bool) (ifname : String) (clean : Nat)
    (pre : List dynamic_iface) (e : dynamic_iface) (post : List dynamic_iface)
    (hpre : ∀ x ∈ pre, x.ifname ≠ ifname) (he : e.ifname = ifname) :
    dyn_iface_get K a (pre ++ e :: post) ifname clean
      = pre ++ { ifname := e.ifname, usage := int_incr e.usage, clean := e.clean ||| clean }
          :: post := by
  simp only [dyn_iface_get_eq, dyn_iface_get_found_first ifname clean pre e post hpre he]

theorem dyn_iface_get_new (K : Consts) (ifname : String) (clean : Nat)
    (reg : List dynamic_iface) (habs : ∀ x ∈ reg, x.ifname ≠ ifname) (hc : clean ≠ 0) :
    dyn_iface_get K true reg ifname clean
      = { ifname := os_strlcpy ifname (K.IFNAMSIZ + 1), usage := 1, clean := clean } :: reg := by
  simp only [dyn_iface_get_eq, dyn_iface_get_found_absent ifname clean reg habs, hc,
    if_false, Bool.not_true]
  simp

theorem dyn_iface_get_absent (K : Consts) (ifname : String) (clean : Nat)
    (reg : List dynamic_iface) (hlen : ifname.length ≤ K.IFNAMSIZ)
    (habs : ∀ x ∈ reg, x.ifname ≠ ifname) (hc : clean ≠ 0) :
    dyn_iface_get K true reg ifname clean
      = { ifname := ifname, usage := 1, clean := clean } :: reg := by
  rw [dyn_iface_get_new K ifname clean reg habs hc, os_strlcpy_of_length_le ifname _ hlen]

theorem dyn_iface_get_noop (K : Consts) (a : Bool) (ifname : String) (clean : Nat)
    (reg : List dynamic_iface) (habs : ∀ x ∈ reg, x.ifname ≠ ifname)
    (h : clean = 0 ∨ a = false) :
    dyn_iface_get K a reg ifname clean = reg := by
  simp only [dyn_iface_get_eq, dyn_iface_get_found_absent ifname clean reg habs]
  rcases h with h | h
  · simp [h]
  · simp [h]

/-! ## Claims about the registry -/

/-- C1 as stated fails in two places.  A name of more than `IFNAMSIZ`
characters is not stored as it is: for the 20 characters of
`wlan0.verylongname.7` the new entry holds the first 16.  And an entry whose
`usage` is `INT_MAX` does not get `usage + 1`: the `int` counter rounds to
`INT_MIN`. -/
theorem dyn_iface_get_spec_counterexample :
    (¬ ∀ (reg : List dynamic_iface) (ifname : String) (clean : Nat),
        (∀ x ∈ reg, x.ifname ≠ ifname) → clean ≠ 0 →
        dyn_iface_get linux true reg ifname clean
          = { ifname := ifname, usage := 1, clean := clean } :: reg) ∧
    (¬ ∀ (pre : List dynamic_iface) (e : dynamic_iface) (post : List dynamic_iface)
        (ifname : String) (clean : Nat),
        (∀ x ∈ pre, x.ifname ≠ ifname) → e.ifname = ifname →
        dyn_iface_get linux true (pre ++ e :: post) ifname clean
          = pre ++ { ifname := e.ifname, usage := e.usage + 1, clean := e.clean ||| clean }
              :: post) := by
  constructor
  · intro h
    have h1 := h [] "wlan0.verylongname.7" 1 (by decide) (by decide)
    revert h1
    decide
  · intro h
    have h1 := h [] ⟨"brvlan7", 2147483647, 1⟩ [] "brvlan7" 0 (by decide) rfl
    revert h1
    decide

/-- C1, amended: `dyn_iface_get(ifname, clean)` with `os_zalloc` succeeding,
for every registry, name and clean bits.  If an entry named `ifname` exists
and the `usage` of the first such entry is not `INT_MAX`, that entry, and only
it, changes: `usage + 1` and `clean | clean_bits`.  If none exists and
`clean != 0`, a new entry with `usage = 1` and `clean` is put in front of the
unchanged list; its name is what `os_strlcpy` keeps of `ifname`, the first
`IFNAMSIZ` characters, which is `ifname` itself when `ifname` has at most
`IFNAMSIZ` characters.  If none exists and `clean == 0`, the list is
unchanged. -/
theorem dyn_iface_get_spec (K : Consts) (reg : List dynamic_iface) (ifname : String)
    (clean : Nat) :
    (∀ pre e post, reg = pre ++ e :: post → (∀ x ∈ pre, x.ifname ≠ ifname) →
        e.ifname = ifname → e.usage ≠ 2147483647 →
        dyn_iface_get K true reg ifname clean
          = pre ++ { ifname := e.ifname, usage := e.usage + 1, clean := e.clean ||| clean }
              :: post) ∧
    ((∀ x ∈ reg, x.ifname ≠ ifname) → clean ≠ 0 →
        dyn_iface_get K true reg ifname clean
          = { ifname := os_strlcpy ifname (K.IFNAMSIZ + 1), usage := 1, clean := clean }
              :: reg) ∧
    ((∀ x ∈ reg, x.ifname ≠ ifname) → clean ≠ 0 → ifname.length ≤ K.IFNAMSIZ →
        dyn_iface_get K true reg ifname clean
          = { ifname := ifname, usage := 1, clean := clean } :: reg) ∧
    ((∀ x ∈ reg, x.ifname ≠ ifname) → clean = 0 →
        dyn_iface_get K true reg ifname clean = reg) := by
  refine ⟨?_, ?_, ?_, ?_⟩
  · intro pre e post hreg hpre he hmax
    subst hreg
    rw [dyn_iface_get_first K true ifname clean pre e post hpre he, int_incr_of_ne _ hmax]
  · intro habs hc
    exact dyn_iface_get_new K ifname clean reg habs hc
  · intro habs hc hlen
    exact dyn_iface_get_absent K ifname clean reg hlen habs hc
  · intro habs hc
    exact dyn_iface_get_noop K true ifname clean reg habs (Or.inl hc)

/-- Witness for C1 on the Linux constants: the cases on a two-entry registry,
and a name of 20 characters. -/
theorem dyn_iface_get_spec_witness :
    dyn_iface_get linux true [⟨"brvlan1", 1, 1⟩, ⟨"brvlan7", 2, 1⟩] "brvlan7" 4
        = [⟨"brvlan1", 1, 1⟩, ⟨"brvlan7", 3, 5⟩] ∧
    dyn_iface_get linux true [⟨"brvlan1", 1, 1⟩] "wlan0.verylongname.7" 6
        = [⟨"wlan0.verylongna", 1, 6⟩, ⟨"brvlan1", 1, 1⟩] ∧
    dyn_iface_get linux true [⟨"brvlan1", 1, 1⟩] "eth0.7" 6
        = [⟨"eth0.7", 1, 6⟩, ⟨"brvlan1", 1, 1⟩] ∧
    dyn_iface_get linux true [⟨"brvlan1", 1, 1⟩] "eth0.7" 0 = [⟨"brvlan1", 1, 1⟩] :=
  ⟨(dyn_iface_get_spec linux _ "brvlan7" 4).1
      [⟨"brvlan1", 1, 1⟩] ⟨"brvlan7", 2, 1⟩ [] rfl (by decide) rfl (by decide),
   (dyn_iface_get_spec linux [⟨"brvlan1", 1, 1⟩] "wlan0.verylongname.7" 6).2.1
      (by decide) (by decide),
   (dyn_iface_get_spec linux [⟨"brvlan1", 1, 1⟩] "eth0.7" 6).2.2.1
      (by decide) (by decide) (by decide),
   (dyn_iface_get_spec linux [⟨"brvlan1", 1, 1⟩] "eth0.7" 0).2.2.2
      (by decide) rfl⟩

/-- C2: `dyn_iface_put(ifname)` on a registry whose entries all have
`usage >= 1`.  With no entry named `ifname` it returns 0 and changes nothing.
Otherwise, for the first entry `e` named `ifname`: when `e.usage > 1` it
returns 0 and only decrements `e.usage`; when `e.usage == 1` it removes `e`,
keeps all other entries in order, and returns `e.clean`.  The entry is removed
exactly when its usage drops to zero, and the two cases cover every entry. -/
theorem dyn_iface_put_spec (reg : List dynamic_iface) (ifname : String)
    (husage : ∀ x ∈ reg, 1 ≤ x.usage) :
    ((∀ x ∈ reg, x.ifname ≠ ifname) → dyn_iface_put reg ifname = (reg, 0)) ∧
    (∀ pre e post, reg = pre ++ e :: post → (∀ x ∈ pre, x.ifname ≠ ifname) →
        e.ifname = ifname →
        (1 < e.usage →
          dyn_iface_put reg ifname
            = (pre ++ { ifname := e.ifname, usage := e.usage - 1, clean := e.clean } :: post,
               0)) ∧
        (e.usage = 1 → dyn_iface_put reg ifname = (pre ++ post, e.clean)) ∧
        ((dyn_iface_put reg ifname).1 = pre ++ post ↔ e.usage - 1 = 0) ∧
        (1 < e.usage ∨ e.usage = 1)) := by
  refine ⟨fun habs => dyn_iface_put_absent ifname reg habs, ?_⟩
  intro pre e post hreg hpre he
  subst hreg
  have hge : 1 ≤ e.usage := husage e (by simp)
  rw [dyn_iface_put_first ifname pre e post hpre he, int_decr_of_pos _ hge]
  refine ⟨?_, ?_, ?_, by omega⟩
  · intro h1
    have : e.usage - 1 ≠ 0 := by omega
    simp only [this, ne_eq, not_false_eq_true, if_true]
  · intro h1
    simp [h1]
  · by_cases h0 : e.usage - 1 = 0
    · simp [h0]
    · simp only [ne_eq, h0, not_false_eq_true, if_true, iff_false]
      intro hEq
      have := congrArg List.length hEq
      simp at this

/-- Witness for C2: the three cases on a two-entry registry. -/
theorem dyn_iface_put_spec_witness :
    dyn_iface_put [⟨"brvlan1", 1, 1⟩, ⟨"brvlan7", 2, 5⟩] "eth0" 
        = ([⟨"brvlan1", 1, 1⟩, ⟨"brvlan7", 2, 5⟩], 0) ∧
    dyn_iface_put [⟨"brvlan1", 1, 1⟩, ⟨"brvlan7", 2, 5⟩] "brvlan7"
        = ([⟨"brvlan1", 1, 1⟩, ⟨"brvlan7", 1, 5⟩], 0) ∧
    dyn_iface_put [⟨"brvlan1", 1, 1⟩, ⟨"brvlan7", 1, 5⟩] "brvlan7"
        = ([⟨"brvlan1", 1, 1⟩], 5) :=
  ⟨(dyn_iface_put_spec [⟨"brvlan1", 1, 1⟩, ⟨"brvlan7", 2, 5⟩] "eth0" (by decide)).1
      (by decide),
   ((dyn_iface_put_spec [⟨"brvlan1", 1, 1⟩, ⟨"brvlan7", 2, 5⟩] "brvlan7" (by decide)).2
      [⟨"brvlan1", 1, 1⟩] ⟨"brvlan7", 2, 5⟩ [] rfl (by decide) rfl).1 (by decide),
   ((dyn_iface_put_spec [⟨"brvlan1", 1, 1⟩, ⟨"brvlan7", 1, 5⟩] "brvlan7" (by decide)).2
      [⟨"brvlan1", 1, 1⟩] ⟨"brvlan7", 1, 5⟩ [] rfl (by decide) rfl).2.1 rfl⟩

/-! ## Balanced call sequences -/

theorem exists_first_entry (X : String) (reg : List dynamic_iface) :
    (∀ x ∈ reg, x.ifname ≠ X) ∨
    ∃ pre e post, reg = pre ++ e :: post ∧ (∀ x ∈ pre, x.ifname ≠ X) ∧ e.ifname = X := by
  induction reg with
  | nil => left; intro x hx; cases hx
  | cons a rest ih =>
    by_cases ha : a.ifname = X
    · right; exact ⟨[], a, rest, rfl, by simp, ha⟩
    · rcases ih with h | ⟨pre, e, post, h1, h2, h3⟩
      · left
        intro x hx
        rcases List.mem_cons.1 hx with rfl | hx
        · exact ha
        · exact h x hx
      · right
        refine ⟨a :: pre, e, post, by rw [h1]; rfl, ?_, h3⟩
        intro x hx
        rcases List.mem_cons.1 hx with rfl | hx
        · exact ha
        · exact h2 x hx

theorem counted_mono (p q : String → Int) (reg : List dynamic_iface)
    (hpq : ∀ e ∈ reg, p e.ifname ≤ q e.ifname) (h : counted p reg) : counted q reg := by
  refine ⟨h.1, fun e he => ?_⟩
  obtain ⟨t, h1, h2, h3⟩ := h.2 e he
  exact ⟨t, h1, le_trans h2 (hpq e he), h3⟩

theorem nodup_names_split (pre : List dynamic_iface) (e : dynamic_iface)
    (post : List dynamic_iface)
    (h : ((pre ++ e :: post).map (fun x => x.ifname)).Nodup) :
    ((pre ++ post).map (fun x => x.ifname)).Nodup ∧
    ∀ u ∈ pre ++ post, u.ifname ≠ e.ifname := by
  rw [List.map_append, List.map_cons, List.nodup_append] at h
  obtain ⟨h1, h2, h3⟩ := h
  obtain ⟨h4, h5⟩ := List.nodup_cons.1 h2
  refine ⟨?_, ?_⟩
  · rw [List.map_append, List.nodup_append]
    refine ⟨h1, h5, ?_⟩
    intro a ha hb
    exact h3 ha (List.mem_cons_of_mem _ hb)
  · intro u hu heq
    rcases List.mem_append.1 hu with hm | hm
    · exact h3 (List.mem_map_of_mem (fun x => x.ifname) hm)
        (by rw [heq]; exact List.mem_cons_self _ _)
    · exact h4 (by rw [← heq]; exact List.mem_map_of_mem (fun x => x.ifname) hm)

/-- A `dyn_iface_get` on a name that fits the buffer keeps the registry
counted, with one more outstanding get for that name. -/
theorem dyn_iface_get_counted (K : Consts) (a : Bool) (reg : List dynamic_iface)
    (X : String) (c : Nat) (pend : String → Int) (hlen : X.length ≤ K.IFNAMSIZ)
    (h : counted pend reg) (h0 : 0 ≤ pend X) :
    counted (fun Y => pend Y + (if X = Y then 1 else 0)) (dyn_iface_get K a reg X c) := by
  have hmono : ∀ e : dynamic_iface,
      pend e.ifname ≤ (fun Y => pend Y + (if X = Y then 1 else 0)) e.ifname := by
    intro e
    show pend e.ifname ≤ pend e.ifname + (if X = e.ifname then 1 else 0)
    split_ifs <;> omega
  rcases exists_first_entry X reg with habs | ⟨pre, e, post, hreg, hpre, he⟩
  · by_cases hn : c = 0 ∨ a = false
    · rw [dyn_iface_get_noop K a X c reg habs hn]
      exact counted_mono _ _ reg (fun e _ => hmono e) h
    · rw [not_or] at hn
      have ha : a = true := by cases a <;> simp_all
      subst ha
      rw [dyn_iface_get_absent K X c reg hlen habs hn.1]
      refine ⟨?_, ?_⟩
      · rw [List.map_cons, List.nodup_cons]
        refine ⟨?_, h.1⟩
        intro hm
        obtain ⟨x, hx, hxe⟩ := List.mem_map.1 hm
        exact habs x hx hxe
      · intro e he
        rcases List.mem_cons.1 he with rfl | hm
        · refine ⟨1, le_refl _, ?_, show (1 : Int) = to_int32 1 by decide⟩
          show (1 : Int) ≤ pend X + (if X = X then 1 else 0)
          rw [if_pos rfl]; omega
        · obtain ⟨t, h1, h2, h3⟩ := h.2 e hm
          exact ⟨t, h1, le_trans h2 (hmono e), h3⟩
  · subst hreg
    rw [dyn_iface_get_first K a X c pre e post hpre he]
    refine ⟨?_, ?_⟩
    · have := h.1
      simpa [List.map_append] using this
    · intro u hu
      rcases List.mem_append.1 hu with hm | hm
      · obtain ⟨t, h1, h2, h3⟩ := h.2 u (List.mem_append_left _ hm)
        exact ⟨t, h1, le_trans h2 (hmono u), h3⟩
      · rcases List.mem_cons.1 hm with rfl | hm2
        · obtain ⟨t, h1, h2, h3⟩ := h.2 e (by simp)
          refine ⟨t + 1, by omega, ?_, ?_⟩
          · show t + 1 ≤ pend e.ifname + (if X = e.ifname then 1 else 0)
            rw [if_pos he.symm]; omega
          · show int_incr e.usage = to_int32 (t + 1)
            rw [h3, to_int32_incr]
        · obtain ⟨t, h1, h2, h3⟩ := h.2 u
            (List.mem_append_right _ (List.mem_cons_of_mem _ hm2))
          exact ⟨t, h1, le_trans h2 (hmono u), h3⟩

/-- A `dyn_iface_put` keeps the registry counted, with one outstanding get
fewer for that name. -/
theorem dyn_iface_put_counted (reg : List dynamic_iface) (X : String)
    (pend : String → Int) (h : counted pend reg) :
    counted (fun Y => pend Y - (if X = Y then 1 else 0)) (dyn_iface_put reg X).1 := by
  have hother : ∀ u : dynamic_iface, u.ifname ≠ X →
      (fun Y => pend Y - (if X = Y then 1 else 0)) u.ifname = pend u.ifname := by
    intro u hu
    show pend u.ifname - (if X = u.ifname then 1 else 0) = pend u.ifname
    rw [if_neg (fun hh => hu hh.symm)]; omega
  rcases exists_first_entry X reg with habs | ⟨pre, e, post, hreg, hpre, he⟩
  · rw [dyn_iface_put_absent X reg habs]
    refine ⟨h.1, fun u hu => ?_⟩
    obtain ⟨t, h1, h2, h3⟩ := h.2 u hu
    exact ⟨t, h1, by rw [hother u (habs u hu)]; exact h2, h3⟩
  · subst hreg
    obtain ⟨hnd, hne⟩ := nodup_names_split pre e post h.1
    have hrest : ∀ u ∈ pre ++ post, ∃ t : Int, 1 ≤ t ∧
        t ≤ (fun Y => pend Y - (if X = Y then 1 else 0)) u.ifname ∧ u.usage = to_int32 t := by
      intro u hu
      have hmem : u ∈ pre ++ e :: post := by
        rcases List.mem_append.1 hu with hm | hm
        · exact List.mem_append_left _ hm
        · exact List.mem_append_right _ (List.mem_cons_of_mem _ hm)
      obtain ⟨t, h1, h2, h3⟩ := h.2 u hmem
      exact ⟨t, h1, by rw [hother u (by rw [← he]; exact hne u hu)]; exact h2, h3⟩
    rw [dyn_iface_put_first X pre e post hpre he]
    by_cases hz : int_decr e.usage ≠ 0
    · rw [if_pos hz]
      refine ⟨?_, ?_⟩
      · have := h.1
        simpa [List.map_append] using this
      · intro u hu
        rcases List.mem_append.1 hu with hm | hm
        · exact hrest u (List.mem_append_left _ hm)
        · rcases List.mem_cons.1 hm with rfl | hm2
          · obtain ⟨t, h1, h2, h3⟩ := h.2 e (by simp)
            have hd : int_decr e.usage = to_int32 (t - 1) := by rw [h3, to_int32_decr]
            have ht : t ≠ 1 := by
              intro ht
              rw [ht] at hd
              exact hz (by rw [hd]; decide)
            refine ⟨t - 1, by omega, ?_, hd⟩
            show t - 1 ≤ pend e.ifname - (if X = e.ifname then 1 else 0)
            rw [if_pos he.symm]; omega
          · exact hrest u (List.mem_append_right _ hm2)
    · rw [if_neg hz]
      exact ⟨hnd, hrest⟩

/-- The invariant behind C3, from any counted registry: when every prefix of
the calls keeps the number of puts within `pend X` plus the number of gets,
the registry stays counted. -/
theorem run_ops_counted (K : Consts) (ops : List RegOp) :
    ∀ (reg : List dynamic_iface) (pend : String → Int),
      (∀ op ∈ ops, op.name.length ≤ K.IFNAMSIZ) →
      counted pend reg →
      (∀ X k, (puts X (ops.take k) : Int) ≤ pend X + gets X (ops.take k)) →
      counted (fun X => pend X + gets X ops - puts X ops) (run_ops K reg ops) := by
  induction ops with
  | nil =>
    intro reg pend _ hc _
    exact counted_mono _ _ reg (fun e _ => by simp [gets, puts]) hc
  | cons op rest ih =>
    intro reg pend hlen hc hp
    have hlen1 := hlen op (List.mem_cons_self _ _)
    have hlenr : ∀ o ∈ rest, o.name.length ≤ K.IFNAMSIZ :=
      fun o ho => hlen o (List.mem_cons_of_mem _ ho)
    cases op with
    | get n c a =>
      have h0 : 0 ≤ pend n := by
        have := hp n 0
        simpa [puts, gets] using this
      have key := ih (dyn_iface_get K a reg n c)
        (fun X => pend X + (if n = X then 1 else 0)) hlenr
        (dyn_iface_get_counted K a reg n c pend hlen1 hc h0)
        (by
          intro X k
          have := hp X (k + 1)
          simp only [List.take_succ_cons, puts, gets, List.countP_cons, RegOp.is_put,
            RegOp.is_get, decide_eq_true_eq] at this ⊢
          by_cases hX : n = X
          · simp only [hX, if_true] at this ⊢
            push_cast at this ⊢
            omega
          · simp only [hX, if_false] at this ⊢
            push_cast at this ⊢
            omega)
      refine counted_mono _ _ _ (fun e _ => ?_) key
      show pend e.ifname + (if n = e.ifname then 1 else 0) + gets e.ifname rest
          - puts e.ifname rest
        ≤ pend e.ifname + gets e.ifname (RegOp.get n c a :: rest)
          - puts e.ifname (RegOp.get n c a :: rest)
      simp only [puts, gets, List.countP_cons, RegOp.is_put, RegOp.is_get, decide_eq_true_eq]
      by_cases hX : n = e.ifname
      · simp only [hX, if_true]
        push_cast
        omega
      · simp only [hX, if_false]
        push_cast
        omega
    | put n =>
      have key := ih (dyn_iface_put reg n).1
        (fun X => pend X - (if n = X then 1 else 0)) hlenr
        (dyn_iface_put_counted reg n pend hc)
        (by
          intro X k
          have := hp X (k + 1)
          simp only [List.take_succ_cons, puts, gets, List.countP_cons, RegOp.is_put,
            RegOp.is_get, decide_eq_true_eq] at this ⊢
          by_cases hX : n = X
          · simp only [hX, if_true] at this ⊢
            push_cast at this ⊢
            omega
          · simp only [hX, if_false] at this ⊢
            push_cast at this ⊢
            omega)
      refine counted_mono _ _ _ (fun e _ => ?_) key
      show pend e.ifname - (if n = e.ifname then 1 else 0) + gets e.ifname rest
          - puts e.ifname rest
        ≤ pend e.ifname + gets e.ifname (RegOp.put n :: rest)
          - puts e.ifname (RegOp.put n :: rest)
      simp only [puts, gets, List.countP_cons, RegOp.is_put, RegOp.is_get, decide_eq_true_eq]
      by_cases hX : n = e.ifname
      · simp only [hX, if_true]
        push_cast
        omega
      · simp only [hX, if_false]
        push_cast
        omega

/-- C3 as stated fails for a name of more than `IFNAMSIZ` characters: the get
stores the first 16 characters of `wlan0.verylongname.7`, the put looks for all
20 and finds nothing, and the entry stays. -/
theorem registry_empty_after_balanced_counterexample :
    ¬ ∀ (ops : List RegOp),
        (∀ X k, puts X (ops.take k) ≤ gets X (ops.take k)) →
        (∀ X, gets X ops = puts X ops) →
        run_ops linux [] ops = [] := by
  intro h
  have h1 := h [.get "wlan0.verylongname.7" 1 true, .put "wlan0.verylongname.7"]
    (by
      intro X k
      rcases k with _ | _ | k <;>
        simp [puts, gets, RegOp.is_put, RegOp.is_get, List.countP_cons])
    (by
      intro X
      simp [puts, gets, RegOp.is_put, RegOp.is_get, List.countP_cons])
  revert h1
  decide

/-- C3, amended: starting from the empty registry, after any sequence of
`dyn_iface_get(X, c)` / `dyn_iface_put(X)` calls on names of at most
`IFNAMSIZ` characters, with arbitrary clean bits (zero included) and arbitrary
`os_zalloc` outcomes, in which for every name each prefix has at least as many
gets as puts (every put is paired with an earlier get) and the totals are
equal, the registry is empty. -/
theorem registry_empty_after_balanced (K : Consts) (ops : List RegOp)
    (hlen : ∀ op ∈ ops, op.name.length ≤ K.IFNAMSIZ)
    (hpaired : ∀ X k, puts X (ops.take k) ≤ gets X (ops.take k))
    (hbal : ∀ X, gets X ops = puts X ops) :
    run_ops K [] ops = [] := by
  have hc := run_ops_counted K ops [] (fun _ => 0) hlen
    ⟨List.nodup_nil, by intro e he; cases he⟩
    (by intro X k; have := hpaired X k; push_cast; omega)
  cases hr : run_ops K [] ops with
  | nil => rfl
  | cons e rest =>
    exfalso
    rw [hr] at hc
    obtain ⟨t, h1, h2, _⟩ := hc.2 e (List.mem_cons_self _ _)
    have hb := hbal e.ifname
    have h2' : t ≤ 0 + (gets e.ifname ops : Int) - (puts e.ifname ops : Int) := h2
    omega

/-- Witness for C3: two names, one get with zero clean bits, gets and puts
interleaved. -/
theorem registry_empty_after_balanced_witness :
    run_ops linux []
      [.get "brvlan7" 0 true, .get "eth0.7" 6 true, .get "brvlan7" 1 true,
       .put "brvlan7", .put "eth0.7", .put "brvlan7"] = [] :=
  registry_empty_after_balanced linux _ (by decide)
    (by
      intro X k
      rcases k with _ | _ | _ | _ | _ | _ | k <;>
        simp [puts, gets, RegOp.is_put, RegOp.is_get, List.countP_cons])
    (by
      intro X
      simp [puts, gets, RegOp.is_put, RegOp.is_get, List.countP_cons])

/-- C4 as stated fails in three ways.  With `c1 = 0` and
`c2 = DVLAN_CLEAN_VLAN_PORT` the first `dyn_iface_get` records nothing, so the
first `dyn_iface_put` already removes the entry and returns the cleanup bits.
The same happens with `c1 = DVLAN_CLEAN_VLAN` when the `os_zalloc` of the first
`dyn_iface_get` fails.  And for a name of more than `IFNAMSIZ` characters the
entries are stored under the first 16 characters, so that no put finds them
and `X` is never registered. -/
theorem shared_iface_counted_twice_counterexample :
    (¬ ∀ (reg : List dynamic_iface) (X : String) (c1 c2 : Nat),
        X.length ≤ linux.IFNAMSIZ → (∀ x ∈ reg, x.ifname ≠ X) → c1 ||| c2 ≠ 0 →
        (dyn_iface_put
          (dyn_iface_get linux true (dyn_iface_get linux true reg X c1) X c2) X).2 = 0 ∧
        (∃ e ∈ (dyn_iface_put
          (dyn_iface_get linux true (dyn_iface_get linux true reg X c1) X c2) X).1,
          e.ifname = X)) ∧
    (¬ ∀ (reg : List dynamic_iface) (X : String) (c1 c2 : Nat) (a1 : Bool),
        X.length ≤ linux.IFNAMSIZ → (∀ x ∈ reg, x.ifname ≠ X) → c1 ≠ 0 →
        (dyn_iface_put
          (dyn_iface_get linux true (dyn_iface_get linux a1 reg X c1) X c2) X).2 = 0 ∧
        (∃ e ∈ (dyn_iface_put
          (dyn_iface_get linux true (dyn_iface_get linux a1 reg X c1) X c2) X).1,
          e.ifname = X)) ∧
    (¬ ∀ (reg : List dynamic_iface) (X : String) (c1 c2 : Nat),
        (∀ x ∈ reg, x.ifname ≠ X) → c1 ≠ 0 →
        (dyn_iface_put
          (dyn_iface_get linux true (dyn_iface_get linux true reg X c1) X c2) X).2 = 0 ∧
        (∃ e ∈ (dyn_iface_put
          (dyn_iface_get linux true (dyn_iface_get linux true reg X c1) X c2) X).1,
          e.ifname = X)) := by
  refine ⟨?_, ?_, ?_⟩
  · intro h
    have h1 := (h [] "eth0.7" 0 4 (by decide) (by decide) (by decide)).1
    revert h1
    decide
  · intro h
    have h1 := (h [] "eth0.7" 2 4 false (by decide) (by decide) (by decide)).1
    revert h1
    decide
  · intro h
    have h1 := (h [] "wlan0.verylongname.7" 2 4 (by decide) (by decide)).2
    revert h1
    decide

/-- C4, amended: for a name `X` of at most `IFNAMSIZ` characters that is not
yet registered, when the first binding records a non-zero cleanup word
(`c1 != 0`) and the `os_zalloc` of its `dyn_iface_get` succeeds, the two gets
count `X` twice, whatever `c2` is: the first `dyn_iface_put(X)` returns 0 and
leaves `X` registered with usage 1 and cleanup bits `c1 | c2`; the second
removes `X`, returns `c1 | c2` and leaves the registry as it was before the
two gets. -/
theorem shared_iface_counted_twice (K : Consts) (reg : List dynamic_iface) (X : String)
    (c1 c2 : Nat) (a2 : Bool) (hlen : X.length ≤ K.IFNAMSIZ)
    (habs : ∀ x ∈ reg, x.ifname ≠ X) (hc1 : c1 ≠ 0) :
    (dyn_iface_put
      (dyn_iface_get K a2 (dyn_iface_get K true reg X c1) X c2) X)
      = ({ ifname := X, usage := 1, clean := c1 ||| c2 } :: reg, 0) ∧
    dyn_iface_put
      (dyn_iface_put
        (dyn_iface_get K a2 (dyn_iface_get K true reg X c1) X c2) X).1 X
      = (reg, c1 ||| c2) := by
  have g1 : dyn_iface_get K true reg X c1 = { ifname := X, usage := 1, clean := c1 } :: reg :=
    dyn_iface_get_absent K X c1 reg hlen habs hc1
  have g2 : dyn_iface_get K a2 ({ ifname := X, usage := 1, clean := c1 } :: reg) X c2
      = { ifname := X, usage := 2, clean := c1 ||| c2 } :: reg := by
    have := dyn_iface_get_first K a2 X c2 [] { ifname := X, usage := 1, clean := c1 } reg
      (by intro x hx; cases hx) rfl
    simpa [int_incr] using this
  rw [g1, g2]
  constructor
  · simp [dyn_iface_put, int_decr]
  · simp [dyn_iface_put, int_decr]

/-- Witness for C4 as amended: a trunk child shared by two bindings. -/
theorem shared_iface_counted_twice_witness :
    (dyn_iface_put
      (dyn_iface_get linux true (dyn_iface_get linux true [⟨"brvlan7", 2, 1⟩] "eth0.7" 2)
        "eth0.7" 4) "eth0.7")
      = ([⟨"eth0.7", 1, 6⟩, ⟨"brvlan7", 2, 1⟩], 0) ∧
    dyn_iface_put
      (dyn_iface_put
        (dyn_iface_get linux true (dyn_iface_get linux true [⟨"brvlan7", 2, 1⟩] "eth0.7" 2)
          "eth0.7" 4) "eth0.7").1 "eth0.7"
      = ([⟨"brvlan7", 2, 1⟩], 6) :=
  shared_iface_counted_twice linux [⟨"brvlan7", 2, 1⟩] "eth0.7" 2 4 true (by decide)
    (by decide) (by decide)

/-! ## State bookkeeping -/

@[simp] theorem Sys.with_os_os (s : Sys) (w : World) : (s.with_os w).os = w := rfl

@[simp] theorem Sys.with_os_hapd (s : Sys) (w : World) : (s.with_os w).hapd = s.hapd := rfl

@[simp] theorem Sys.with_vlan_priv_os (s : Sys) (r : List dynamic_iface) :
    (s.with_vlan_priv r).os = s.os := rfl

@[simp] theorem Sys.with_vlan_priv_conf (s : Sys) (r : List dynamic_iface) :
    (s.with_vlan_priv r).hapd.conf = s.hapd.conf := rfl

@[simp] theorem Sys.with_vlan_priv_wpa (s : Sys) (r : List dynamic_iface) :
    (s.with_vlan_priv r).hapd.wpa_auth = s.hapd.wpa_auth := rfl

@[simp] theorem Sys.with_vlan_priv_reg (s : Sys) (r : List dynamic_iface) :
    (s.with_vlan_priv r).hapd.vlan_priv = r := rfl

@[simp] theorem Sys.with_vlan_os (s : Sys) (l : List hostapd_vlan) :
    (s.with_vlan l).os = s.os := rfl

@[simp] theorem Sys.with_vlan_vlan (s : Sys) (l : List hostapd_vlan) :
    (s.with_vlan l).hapd.conf.vlan = l := rfl

@[simp] theorem Sys.with_vlan_bridge (s : Sys) (l : List hostapd_vlan) :
    (s.with_vlan l).hapd.conf.bridge = s.hapd.conf.bridge := rfl

@[simp] theorem Sys.with_vlan_vlan_bridge (s : Sys) (l : List hostapd_vlan) :
    (s.with_vlan l).hapd.conf.vlan_bridge = s.hapd.conf.vlan_bridge := rfl

@[simp] theorem Sys.with_vlan_wpa (s : Sys) (l : List hostapd_vlan) :
    (s.with_vlan l).hapd.wpa_auth = s.hapd.wpa_auth := rfl

@[simp] theorem Sys.with_vlan_reg (s : Sys) (l : List hostapd_vlan) :
    (s.with_vlan l).hapd.vlan_priv = s.hapd.vlan_priv := rfl

/-! ## WEP -/

theorem vlan_if_add_wep (K : Consts) (ω : Oracle) (hapd : hostapd_data) (vlan : hostapd_vlan)
    (existsok : Bool) (w : World) (hwep : true ∈ hapd.conf.ssid.wep_key) :
    vlan_if_add K ω hapd vlan existsok w = (-1, vlan, w) := by
  have h : hapd.conf.ssid.wep_key.any (fun k => k) = true :=
    List.any_eq_true.2 ⟨true, hwep, rfl⟩
  simp only [vlan_if_add, h, if_true]

theorem vlan_dynamic_add_wep (K : Consts) (ω : Oracle) (fuel : Nat) :
    ∀ (i : Nat) (s : Sys), true ∈ s.hapd.conf.ssid.wep_key →
      (vlan_dynamic_add K ω fuel i s).2 = s ∧
      ((∃ v ∈ s.hapd.conf.vlan.drop i, v.vlan_id ≠ K.VLAN_ID_WILDCARD) →
        s.hapd.conf.vlan.length ≤ i + fuel → (vlan_dynamic_add K ω fuel i s).1 = -1) := by
  induction fuel with
  | zero =>
    intro i s _
    refine ⟨rfl, ?_⟩
    rintro ⟨v, hv, _⟩ hlen
    have : s.hapd.conf.vlan.drop i = [] := List.drop_eq_nil_of_le (by omega)
    rw [this] at hv
    cases hv
  | succ fuel ih =>
    intro i s hwep
    rw [vlan_dynamic_add]
    cases hg : s.hapd.conf.vlan.get? i with
    | none =>
      refine ⟨rfl, ?_⟩
      rintro ⟨v, hv, _⟩ _
      have hle : s.hapd.conf.vlan.length ≤ i := List.get?_eq_none.1 hg
      rw [List.drop_eq_nil_of_le hle] at hv
      cases hv
    | some vlan =>
      have hset : s.hapd.conf.vlan.set i vlan = s.hapd.conf.vlan := by
        apply List.ext_get?
        intro n
        by_cases hn : i = n
        · subst hn
          rw [hg]
          have hlt : i < s.hapd.conf.vlan.length := by
            by_contra hc
            rw [List.get?_eq_none.2 (by omega)] at hg
            cases hg
          simp [List.getElem?_set, hlt]
        · simp [List.getElem?_set, hn]
      have hs : (s.with_os s.os).with_vlan s.hapd.conf.vlan = s := rfl
      by_cases hw : vlan.vlan_id = K.VLAN_ID_WILDCARD
      · simp only [hw, ne_eq, not_true_eq_false, if_false]
        refine ⟨(ih (i + 1) s hwep).1, ?_⟩
        rintro ⟨v, hv, hvw⟩ hlen
        apply (ih (i + 1) s hwep).2 _ (by omega)
        rw [List.drop_eq_getElem?_toList_append, ← List.get?_eq_getElem?, hg] at hv
        rcases List.mem_append.1 hv with h1 | h1
        · simp at h1
          rw [h1] at hvw
          exact absurd hw hvw
        · exact ⟨v, h1, hvw⟩
      · simp only [ne_eq, hw, not_false_eq_true, if_true, vlan_if_add_wep K ω s.hapd vlan true
          s.os hwep, hset, hs]
        simp

/-- C9 as stated fails: `vlan_newlink` has no WEP check.  On a BSS whose first
WEP key slot is set, the NEWLINK for the matching binding `wlan0.7` creates
the bridge `brvlan7` and enrolls the interface. -/
theorem wep_refuses_vlan_counterexample :
    ¬ ∀ (ω : Oracle) (ifname : String) (s : Sys),
        true ∈ s.hapd.conf.ssid.wep_key →
        (∃ v ∈ s.hapd.conf.vlan, v.ifname = ifname) →
        (vlan_newlink linux ω ifname s).os.trace = s.os.trace := by
  intro h
  have h1 := h oracle_ok "wlan0.7"
    (example_sys "" [true, false, false, false] [binding "wlan0.7" 7 ⟨1, 7, []⟩])
    (by decide) ⟨_, List.mem_cons_self _ _, rfl⟩
  have h2 := congrArg calls h1
  revert h2
  decide

/-- C9, amended: on a BSS with at least one WEP key slot set, `vlan_if_add`
returns -1 and issues no call at all (the world and the binding are
unchanged), and therefore `vlan_dynamic_add` issues no call either and never
reaches the `vlan_newlink` it runs after a successful `vlan_if_add`: it leaves
the state unchanged and returns -1 as soon as the list holds a concrete
binding.  (`vlan_newlink` itself does not look at the WEP keys.) -/
theorem wep_refuses_vlan_if_add (K : Consts) (ω : Oracle) (s : Sys) (vlan : hostapd_vlan)
    (existsok : Bool) (hwep : true ∈ s.hapd.conf.ssid.wep_key) :
    vlan_if_add K ω s.hapd vlan existsok s.os = (-1, vlan, s.os) ∧
    (vlan_dynamic_add K ω s.hapd.conf.vlan.length 0 s).2 = s ∧
    ((∃ v ∈ s.hapd.conf.vlan, v.vlan_id ≠ K.VLAN_ID_WILDCARD) →
      (vlan_dynamic_add K ω s.hapd.conf.vlan.length 0 s).1 = -1) := by
  refine ⟨vlan_if_add_wep K ω s.hapd vlan existsok s.os hwep, ?_, ?_⟩
  · exact (vlan_dynamic_add_wep K ω _ 0 s hwep).1
  · intro hv
    exact (vlan_dynamic_add_wep K ω _ 0 s hwep).2 (by simpa using hv) (by omega)

/-- Witness for C9 as amended: a BSS with the first WEP key slot set and one
concrete binding. -/
theorem wep_refuses_vlan_if_add_witness :
    vlan_if_add linux oracle_ok
      (example_sys "" [true, false, false, false] [binding "wlan0.7" 7 ⟨1, 7, []⟩]).hapd
      (binding "wlan0.7" 7 ⟨1, 7, []⟩) false
      (example_sys "" [true, false, false, false] [binding "wlan0.7" 7 ⟨1, 7, []⟩]).os
      = (-1, binding "wlan0.7" 7 ⟨1, 7, []⟩,
         (example_sys "" [true, false, false, false] [binding "wlan0.7" 7 ⟨1, 7, []⟩]).os) :=
  (wep_refuses_vlan_if_add linux oracle_ok
    (example_sys "" [true, false, false, false] [binding "wlan0.7" 7 ⟨1, 7, []⟩])
    (binding "wlan0.7" 7 ⟨1, 7, []⟩) false (by decide)).1

/-! ## `vlan_add_dynamic` -/

theorem vlan_if_add_up_binding (K : Consts) (ω : Oracle) (hapd : hostapd_data)
    (vlan : hostapd_vlan) (ret : Int) (w : World) :
    (vlan_if_add_up K ω hapd vlan ret w).2.1
      = { vlan with rsn_preauth := (vlan_if_add_up K ω hapd vlan ret w).2.1.rsn_preauth } := by
  unfold vlan_if_add_up
  dsimp only
  split_ifs <;> rfl

theorem vlan_if_add_binding (K : Consts) (ω : Oracle) (hapd : hostapd_data)
    (vlan : hostapd_vlan) (existsok : Bool) (w : World) :
    (vlan_if_add K ω hapd vlan existsok w).2.1
      = { vlan with rsn_preauth := (vlan_if_add K ω hapd vlan existsok w).2.1.rsn_preauth } := by
  unfold vlan_if_add
  split_ifs
  · rfl
  · exact vlan_if_add_up_binding K ω hapd vlan _ _
  · rfl
  · exact vlan_if_add_up_binding K ω hapd vlan _ _

theorem vlan_if_add_fields (K : Consts) (ω : Oracle) (hapd : hostapd_data)
    (vlan : hostapd_vlan) (existsok : Bool) (w : World) :
    (vlan_if_add K ω hapd vlan existsok w).2.1.ifname = vlan.ifname ∧
    (vlan_if_add K ω hapd vlan existsok w).2.1.vlan_id = vlan.vlan_id ∧
    (vlan_if_add K ω hapd vlan existsok w).2.1.vlan_desc = vlan.vlan_desc ∧
    (vlan_if_add K ω hapd vlan existsok w).2.1.dynamic_vlan = vlan.dynamic_vlan ∧
    (vlan_if_add K ω hapd vlan existsok w).2.1.configured = vlan.configured ∧
    (vlan_if_add K ω hapd vlan existsok w).2.1.clean = vlan.clean := by
  have h := vlan_if_add_binding K ω hapd vlan existsok w
  refine ⟨?_, ?_, ?_, ?_, ?_, ?_⟩ <;> rw [h]

theorem takeWhile_ne_append (p : List Char) (c : Char) (sfx : List Char) (hp : c ∉ p) :
    (p ++ c :: sfx).takeWhile (fun x => decide (x ≠ c)) = p ∧
    ((p ++ c :: sfx).dropWhile (fun x => decide (x ≠ c))).drop 1 = sfx := by
  induction p with
  | nil => simp [List.takeWhile, List.dropWhile]
  | cons a p ih =>
    have ha : a ≠ c := fun h => hp (by simp [h])
    have hp2 : c ∉ p := fun h => hp (List.mem_cons_of_mem _ h)
    obtain ⟨ih1, ih2⟩ := ih hp2
    have hd : decide (a ≠ c) = true := by simp [ha]
    rw [List.cons_append, List.takeWhile_cons, List.dropWhile_cons, hd]
    simp only [if_true]
    exact ⟨by rw [ih1], ih2⟩

/-- The binding that `vlan_add_dynamic` fills in after `os_zalloc`, for the
name parts `p` and `sfx` around the `#`. -/
theorem vlan_add_dynamic_result (K : Consts) (ω : Oracle) (t : hostapd_vlan) (vlan_id : Int)
    (vlan_desc : vlan_description) (s : Sys) :
    ((vlan_add_dynamic K ω (some t) vlan_id vlan_desc s).1 = none ∧
      (vlan_add_dynamic K ω (some t) vlan_id vlan_desc s).2.hapd.conf.vlan
        = s.hapd.conf.vlan) ∨
    (∃ n, (vlan_add_dynamic K ω (some t) vlan_id vlan_desc s).1 = some n ∧
      (vlan_add_dynamic K ω (some t) vlan_id vlan_desc s).2.hapd.conf.vlan
        = n :: s.hapd.conf.vlan) := by
  unfold vlan_add_dynamic
  dsimp only
  split
  · left; exact ⟨rfl, rfl⟩
  · split
    · left; exact ⟨rfl, rfl⟩
    · split
      · left; exact ⟨rfl, rfl⟩
      · split
        · left; exact ⟨rfl, rfl⟩
        · split
          · left; exact ⟨rfl, rfl⟩
          · right; exact ⟨_, rfl, rfl⟩

/-- C10: `vlan_add_dynamic` on a wildcard template whose name is
`p ++ "#" ++ sfx` with no `#` in `p`.  When `os_strdup`, `os_zalloc` and
`vlan_if_add(existsok = 0)` succeed, the returned binding has the name
`p ++ decimal(vid) ++ sfx` cut to `IFNAMSIZ` characters, `vlan_id = vid`,
`vlan_desc = desc` and `dynamic_vlan = 1`, and the new binding list is that
binding followed by the old list.  When the template is not a wildcard, or
`vlan_if_add` fails, and whenever `NULL` is returned, the binding list is
unchanged; in the first two cases `NULL` is returned. -/
theorem vlan_add_dynamic_spec (K : Consts) (ω : Oracle) (t : hostapd_vlan) (vid : Int)
    (desc : vlan_description) (s : Sys) (p sfx : List Char)
    (hname : t.ifname = ⟨p ++ '#' :: sfx⟩) (hp : '#' ∉ p) :
    (t.vlan_id = K.VLAN_ID_WILDCARD →
      (ω s.os.trace .os_strdup).ret ≠ 0 →
      (ω (os_call ω .os_strdup s.os).2.trace .os_zalloc).ret ≠ 0 →
      (vlan_if_add K ω
          (s.with_vlan (fresh_binding K p sfx vid desc :: s.hapd.conf.vlan)).hapd
          (fresh_binding K p sfx vid desc) false
          (os_call ω .os_zalloc (os_call ω .os_strdup s.os).2).2).1 = 0 →
      ∃ n, (vlan_add_dynamic K ω (some t) vid desc s).1 = some n ∧
        n.ifname = ⟨(p ++ (itoa vid).data ++ sfx).take K.IFNAMSIZ⟩ ∧
        n.vlan_id = vid ∧ n.vlan_desc = desc ∧ n.dynamic_vlan = 1 ∧
        (vlan_add_dynamic K ω (some t) vid desc s).2.hapd.conf.vlan
          = n :: s.hapd.conf.vlan) ∧
    (t.vlan_id ≠ K.VLAN_ID_WILDCARD →
      vlan_add_dynamic K ω (some t) vid desc s = (none, s)) ∧
    (t.vlan_id = K.VLAN_ID_WILDCARD →
      (ω s.os.trace .os_strdup).ret ≠ 0 →
      (ω (os_call ω .os_strdup s.os).2.trace .os_zalloc).ret ≠ 0 →
      (vlan_if_add K ω
          (s.with_vlan (fresh_binding K p sfx vid desc :: s.hapd.conf.vlan)).hapd
          (fresh_binding K p sfx vid desc) false
          (os_call ω .os_zalloc (os_call ω .os_strdup s.os).2).2).1 ≠ 0 →
      (vlan_add_dynamic K ω (some t) vid desc s).1 = none) ∧
    ((vlan_add_dynamic K ω (some t) vid desc s).1 = none →
      (vlan_add_dynamic K ω (some t) vid desc s).2.hapd.conf.vlan = s.hapd.conf.vlan) := by
  obtain ⟨htw, hdw⟩ := takeWhile_ne_append p '#' sfx hp
  have hmem : '#' ∈ t.ifname.data := by rw [hname]; simp
  refine ⟨?_, ?_, ?_, ?_⟩
  · intro hw hd hz hadd
    have hd' : (os_call ω .os_strdup s.os).1.ret ≠ 0 := hd
    have hz' : (os_call ω .os_zalloc (os_call ω .os_strdup s.os).2).1.ret ≠ 0 := hz
    have hf := vlan_if_add_fields K ω
      (s.with_vlan (fresh_binding K p sfx vid desc :: s.hapd.conf.vlan)).hapd
      (fresh_binding K p sfx vid desc) false (os_call ω .os_zalloc (os_call ω .os_strdup s.os).2).2
    refine ⟨(vlan_if_add K ω
      (s.with_vlan (fresh_binding K p sfx vid desc :: s.hapd.conf.vlan)).hapd
      (fresh_binding K p sfx vid desc) false
      (os_call ω .os_zalloc (os_call ω .os_strdup s.os).2).2).2.1, ?_, ?_, hf.2.1, hf.2.2.1,
      hf.2.2.2.1, ?_⟩
    · simp only [vlan_add_dynamic, hw, ne_eq, not_true_eq_false, if_false, hd', hz', hmem,
        hname, htw, hdw]
      simp only [fresh_binding] at hadd
      simp [hadd, fresh_binding]
    · rw [hf.1]
      simp [fresh_binding, os_snprintf, itoa]
    · simp only [vlan_add_dynamic, hw, ne_eq, not_true_eq_false, if_false, hd', hz', hmem,
        hname, htw, hdw]
      simp only [fresh_binding] at hadd
      simp [hadd, fresh_binding]
  · intro hw
    simp [vlan_add_dynamic, hw]
  · intro hw hd hz hadd
    have hd' : (os_call ω .os_strdup s.os).1.ret ≠ 0 := hd
    have hz' : (os_call ω .os_zalloc (os_call ω .os_strdup s.os).2).1.ret ≠ 0 := hz
    simp only [vlan_add_dynamic, hw, ne_eq, not_true_eq_false, if_false, hd', hz', hmem,
      hname, htw, hdw]
    simp only [fresh_binding] at hadd
    simp [hadd, fresh_binding]
  · intro hnone
    rcases vlan_add_dynamic_result K ω t vid desc s with h | ⟨n, h1, _⟩
    · exact h.2
    · rw [h1] at hnone; cases hnone

/-- Witness for C10: the template `wlan0.#` and VID 7 in an environment where
every call succeeds. -/
theorem vlan_add_dynamic_spec_witness :
    ∃ n, (vlan_add_dynamic linux oracle_ok (some (binding "wlan0.#" (-1) ⟨0, 0, []⟩)) 7
          ⟨1, 7, []⟩ (example_sys "" [false] [binding "wlan0.#" (-1) ⟨0, 0, []⟩])).1 = some n ∧
      n.ifname = ⟨("wlan0.".data ++ (itoa 7).data ++ []).take linux.IFNAMSIZ⟩ ∧
      n.vlan_id = 7 ∧ n.vlan_desc = ⟨1, 7, []⟩ ∧ n.dynamic_vlan = 1 ∧
      (vlan_add_dynamic linux oracle_ok (some (binding "wlan0.#" (-1) ⟨0, 0, []⟩)) 7
          ⟨1, 7, []⟩ (example_sys "" [false] [binding "wlan0.#" (-1) ⟨0, 0, []⟩])).2.hapd.conf.vlan
        = n :: (example_sys "" [false] [binding "wlan0.#" (-1) ⟨0, 0, []⟩]).hapd.conf.vlan :=
  (vlan_add_dynamic_spec linux oracle_ok (binding "wlan0.#" (-1) ⟨0, 0, []⟩) 7 ⟨1, 7, []⟩
    (example_sys "" [false] [binding "wlan0.#" (-1) ⟨0, 0, []⟩]) "wlan0.".data [] rfl
    (by decide)).1 rfl (by decide) (by decide) (by decide)

/-! ## Traces of the primitives -/

theorem addbrs_append (a b : List OsEvent) : addbrs (a ++ b) = addbrs a ++ addbrs b := by
  simp [addbrs, List.filterMap_append]

@[simp] theorem os_call_trace (ω : Oracle) (c : OsCall) (w : World) :
    (os_call ω c w).2.trace = w.trace ++ [{ call := c, ans := ω w.trace c }] := rfl

@[simp] theorem os_call_ans (ω : Oracle) (c : OsCall) (w : World) :
    (os_call ω c w).1 = ω w.trace c := rfl

@[simp] theorem ifconfig_up_trace (ω : Oracle) (n : String) (w : World) :
    (ifconfig_up ω n w).2.trace
      = w.trace ++ [{ call := .ifconfig_up n, ans := ω w.trace (.ifconfig_up n) }] := rfl

@[simp] theorem ifconfig_down_trace (ω : Oracle) (n : String) (w : World) :
    (ifconfig_down ω n w).2.trace
      = w.trace ++ [{ call := .ifconfig_down n, ans := ω w.trace (.ifconfig_down n) }] := rfl

@[simp] theorem br_addbr_trace (ω : Oracle) (n : String) (w : World) :
    (br_addbr ω n w).2.trace
      = w.trace ++ [{ call := .br_addbr n, ans := ω w.trace (.br_addbr n) }] := by
  unfold br_addbr; dsimp only; split <;> rfl

@[simp] theorem br_addbr_ret (ω : Oracle) (n : String) (w : World) :
    (br_addbr ω n w).1 = (ω w.trace (.br_addbr n)).ret := rfl

@[simp] theorem br_delbr_trace (ω : Oracle) (n : String) (w : World) :
    (br_delbr ω n w).2.trace
      = w.trace ++ [{ call := .br_delbr n, ans := ω w.trace (.br_delbr n) }] := by
  unfold br_delbr; dsimp only; split <;> rfl

@[simp] theorem br_addif_trace (ω : Oracle) (b n : String) (w : World) :
    (br_addif ω b n w).2.trace
      = w.trace ++ [{ call := .br_addif b n, ans := ω w.trace (.br_addif b n) }] := rfl

@[simp] theorem br_delif_trace (ω : Oracle) (b n : String) (w : World) :
    (br_delif ω b n w).2.trace
      = w.trace ++ [{ call := .br_delif b n, ans := ω w.trace (.br_delif b n) }] := rfl

@[simp] theorem br_getnumports_trace (ω : Oracle) (b : String) (w : World) :
    (br_getnumports ω b w).2.trace
      = w.trace ++ [{ call := .br_getnumports b, ans := ω w.trace (.br_getnumports b) }] := rfl

@[simp] theorem hostapd_vlan_if_add_trace (ω : Oracle) (n : String) (w : World) :
    (hostapd_vlan_if_add ω n w).2.trace
      = w.trace ++
        [{ call := .hostapd_vlan_if_add n, ans := ω w.trace (.hostapd_vlan_if_add n) }] := by
  unfold hostapd_vlan_if_add; dsimp only; split <;> rfl

@[simp] theorem hostapd_vlan_if_add_ret (ω : Oracle) (n : String) (w : World) :
    (hostapd_vlan_if_add ω n w).1 = (ω w.trace (.hostapd_vlan_if_add n)).ret := rfl

@[simp] theorem hostapd_vlan_if_remove_trace (ω : Oracle) (n : String) (w : World) :
    (hostapd_vlan_if_remove ω n w).2.trace
      = w.trace ++
        [{ call := .hostapd_vlan_if_remove n,
           ans := ω w.trace (.hostapd_vlan_if_remove n) }] := by
  unfold hostapd_vlan_if_remove; dsimp only; split <;> rfl

@[simp] theorem wpa_auth_ensure_group_trace (ω : Oracle) (v : Int) (w : World) :
    (wpa_auth_ensure_group ω v w).2.trace
      = w.trace ++
        [{ call := .wpa_auth_ensure_group v, ans := ω w.trace (.wpa_auth_ensure_group v) }] :=
  rfl

@[simp] theorem wpa_auth_release_group_trace (ω : Oracle) (v : Int) (w : World) :
    (wpa_auth_release_group ω v w).2.trace
      = w.trace ++
        [{ call := .wpa_auth_release_group v,
           ans := ω w.trace (.wpa_auth_release_group v) }] :=
  rfl

@[simp] theorem rsn_preauth_snoop_init_trace (ω : Oracle) (n : String) (w : World) :
    (rsn_preauth_snoop_init ω n w).2.trace
      = w.trace ++
        [{ call := .rsn_preauth_snoop_init n, ans := ω w.trace (.rsn_preauth_snoop_init n) }] :=
  rfl

@[simp] theorem rsn_preauth_snoop_deinit_trace (ω : Oracle) (n : String) (h : Int)
    (w : World) :
    (rsn_preauth_snoop_deinit ω n h w).trace
      = w.trace ++
        [{ call := .rsn_preauth_snoop_deinit n h,
           ans := ω w.trace (.rsn_preauth_snoop_deinit n h) }] :=
  rfl

@[simp] theorem run_script_trace (ω : Oracle) (output : Option (List Char)) (size : Nat)
    (script : String) (args : List (Option String)) (w : World) :
    (run_script ω output size script args w).2.trace
      = w.trace ++
        [{ call := .exec script (run_script_args ω w.trace 100 args) output.isSome,
           ans := ω w.trace
            (.exec script (run_script_args ω w.trace 100 args) output.isSome) }] := by
  unfold run_script
  dsimp only
  split_ifs
  · rfl
  · rfl
  · rfl
  · cases output <;> rfl

@[simp] theorem addbrs_nil : addbrs [] = [] := rfl

theorem addbrs_cons (e : OsEvent) (t : List OsEvent) :
    addbrs (e :: t)
      = (match e.call with
          | .br_addbr b => [b]
          | _ => []) ++ addbrs t := by
  unfold addbrs
  rw [List.filterMap_cons]
  split <;> rename_i h <;> split at h <;> simp_all

theorem vlan_add_new_frame (K : Consts) (ω : Oracle) (if_name : String) (vid : Int)
    (w : World) :
    w.trace <+: (vlan_add_new K ω if_name vid w).2.trace ∧
    addbrs (vlan_add_new K ω if_name vid w).2.trace = addbrs w.trace := by
  unfold vlan_add_new
  dsimp only
  split_ifs <;> simp [addbrs_append, addbrs_cons, List.append_assoc]

theorem vlan_add_frame (K : Consts) (ω : Oracle) (if_name : String) (vid : Int)
    (n : String) (w : World) :
    w.trace <+: (vlan_add K ω if_name vid n w).2.trace ∧
    addbrs (vlan_add K ω if_name vid n w).2.trace = addbrs w.trace := by
  unfold vlan_add
  dsimp only
  split_ifs
  · simp [addbrs_append, addbrs_cons]
  · simp [addbrs_append, addbrs_cons, List.append_assoc]
  · simp [addbrs_append, addbrs_cons, List.append_assoc]
  all_goals
    refine ⟨List.IsPrefix.trans ?_ (vlan_add_new_frame K ω if_name vid _).1, ?_⟩
    · simp [List.append_assoc]
    · rw [(vlan_add_new_frame K ω if_name vid _).2]
      simp [addbrs_append, addbrs_cons]

theorem vlan_rem_frame (K : Consts) (ω : Oracle) (if_name : String) (w : World) :
    w.trace <+: (vlan_rem K ω if_name w).2.trace ∧
    addbrs (vlan_rem K ω if_name w).2.trace = addbrs w.trace := by
  unfold vlan_rem
  dsimp only
  split_ifs <;> simp [addbrs_append, addbrs_cons, List.append_assoc]

theorem dyn_iface_get_call_frame (K : Consts) (ω : Oracle) (ifname : String) (clean : Nat)
    (s : Sys) :
    (dyn_iface_get_call K ω ifname clean s).hapd.conf = s.hapd.conf ∧
    s.os.trace <+: (dyn_iface_get_call K ω ifname clean s).os.trace ∧
    addbrs (dyn_iface_get_call K ω ifname clean s).os.trace = addbrs s.os.trace := by
  unfold dyn_iface_get_call
  split
  · simp
  · simp [addbrs_append, addbrs_cons]

theorem vlan_newlink_tagged_frame (K : Consts) (ω : Oracle) (naming : Int)
    (tagged_interface br_name : String) (vid : Int) (s : Sys) :
    (vlan_newlink_tagged K ω naming tagged_interface br_name vid s).hapd.conf
      = s.hapd.conf ∧
    s.os.trace <+: (vlan_newlink_tagged K ω naming tagged_interface br_name vid s).os.trace ∧
    addbrs (vlan_newlink_tagged K ω naming tagged_interface br_name vid s).os.trace
      = addbrs s.os.trace := by
  unfold vlan_newlink_tagged
  split
  · dsimp only
    refine ⟨?_, ?_, ?_⟩
    · simp [(dyn_iface_get_call_frame K ω _ _ _).1]
    · simp only [Sys.with_os_os, ifconfig_up_trace]
      refine List.IsPrefix.trans ?_ (List.prefix_append _ _)
      refine List.IsPrefix.trans ?_ (dyn_iface_get_call_frame K ω _ _ _).2.1
      simp [List.append_assoc]
    · simp [addbrs_append, addbrs_cons, (dyn_iface_get_call_frame K ω _ _ _).2.2]
  · dsimp only
    refine ⟨?_, ?_, ?_⟩
    · simp [(dyn_iface_get_call_frame K ω _ _ _).1]
    · simp only [Sys.with_os_os, ifconfig_up_trace]
      refine List.IsPrefix.trans ?_ (List.prefix_append _ _)
      refine List.IsPrefix.trans ?_ (dyn_iface_get_call_frame K ω _ _ _).2.1
      simp only [Sys.with_os_os, br_addif_trace]
      refine List.IsPrefix.trans ?_ (List.prefix_append _ _)
      refine List.IsPrefix.trans ?_ (vlan_add_frame K ω _ _ _ _).1
      simp
    · simp [addbrs_append, addbrs_cons, (dyn_iface_get_call_frame K ω _ _ _).2.2,
        (vlan_add_frame K ω _ _ _ _).2]

/-- The last call of `vlan_newlink_tagged` is `ifconfig_up(vlan_ifname)`; without
helper script it comes after the whole of `vlan_add`. -/
theorem vlan_newlink_tagged_last (K : Consts) (ω : Oracle) (naming : Int)
    (tagged_interface br_name : String) (vid : Int) (s : Sys) :
    ∃ t a, (vlan_newlink_tagged K ω naming tagged_interface br_name vid s).os.trace
        = t ++ [{ call := .ifconfig_up (vlan_ifname_of K naming tagged_interface vid),
                  ans := a }] ∧
      (s.hapd.conf.ssid.vlan_script = none →
        (vlan_add K ω tagged_interface vid (vlan_ifname_of K naming tagged_interface vid)
          (ifconfig_up ω tagged_interface s.os).2).2.trace <+: t) := by
  unfold vlan_newlink_tagged
  split
  · rename_i script hs
    exact ⟨_, _, rfl, fun h => by rw [h] at hs; cases hs⟩
  · refine ⟨_, _, rfl, fun _ => ?_⟩
    refine List.IsPrefix.trans ?_ (dyn_iface_get_call_frame K ω _ _ _).2.1
    simp

theorem trace_chain {t t1 t2 t3 final : List OsEvent} {x e : OsEvent}
    (h1 : t1 = t ++ [x]) (h2 : t1 <+: t2) (h3 : t3 = t2 ++ [e]) (h4 : t3 <+: final) :
    ∃ rest, final = t ++ x :: rest ∧ e ∈ rest := by
  obtain ⟨a, ha⟩ := h2
  obtain ⟨b, hb⟩ := h4
  refine ⟨a ++ [e] ++ b, ?_, ?_⟩
  · rw [← hb, h3, ← ha, h1]
    simp
  · simp

/-- The calls of `vlan_get_bridge`: the creation call comes first, and
`ifconfig_up(br_name)` follows it whatever it returned. -/
theorem vlan_get_bridge_ifup (K : Consts) (ω : Oracle) (br_name : String) (vid : Int)
    (s : Sys) :
    ∃ c rest, (vlan_get_bridge K ω br_name vid s).os.trace
        = s.os.trace ++ { call := c, ans := ω s.os.trace c } :: rest ∧
      (c = .br_addbr br_name ∨
        ∃ script, c = .exec script
          ("br_addbr" :: br_name :: itoa vid :: run_script_va_arg ω s.os.trace 97 0) false) ∧
      ∃ e ∈ rest, e.call = .ifconfig_up br_name := by
  unfold vlan_get_bridge
  cases hs : s.hapd.conf.ssid.vlan_script with
  | none =>
    dsimp only
    cases ht : s.hapd.conf.ssid.vlan_tagged_interface with
    | none =>
      obtain ⟨rest, hr, hm⟩ := trace_chain (br_addbr_trace ω br_name s.os)
        (dyn_iface_get_call_frame K ω br_name
          (if (br_addbr ω br_name s.os).1 ≠ 0 then 0 else DVLAN_CLEAN_BR)
          (s.with_os (br_addbr ω br_name s.os).2)).2.1
        (ifconfig_up_trace ω br_name _) (List.prefix_refl _)
      exact ⟨_, rest, hr, Or.inl rfl, _, hm, rfl⟩
    | some ti =>
      obtain ⟨rest, hr, hm⟩ := trace_chain (br_addbr_trace ω br_name s.os)
        (dyn_iface_get_call_frame K ω br_name
          (if (br_addbr ω br_name s.os).1 ≠ 0 then 0 else DVLAN_CLEAN_BR)
          (s.with_os (br_addbr ω br_name s.os).2)).2.1
        (ifconfig_up_trace ω br_name _)
        (vlan_newlink_tagged_frame K ω s.hapd.conf.ssid.vlan_naming ti br_name vid
          (Sys.with_os _ _)).2.1
      exact ⟨_, rest, hr, Or.inl rfl, _, hm, rfl⟩
  | some script =>
    dsimp only
    cases ht : s.hapd.conf.ssid.vlan_tagged_interface with
    | none =>
      obtain ⟨rest, hr, hm⟩ := trace_chain
        (run_script_trace ω none 0 script [some "br_addbr", some br_name, some (itoa vid)]
          s.os)
        (dyn_iface_get_call_frame K ω br_name
          (if (run_script ω none 0 script [some "br_addbr", some br_name, some (itoa vid)]
            s.os).1.1 ≠ 0 then 0 else DVLAN_CLEAN_BR)
          (s.with_os (run_script ω none 0 script
            [some "br_addbr", some br_name, some (itoa vid)] s.os).2)).2.1
        (ifconfig_up_trace ω br_name _) (List.prefix_refl _)
      exact ⟨_, rest, hr, Or.inr ⟨script, rfl⟩, _, hm, rfl⟩
    | some ti =>
      obtain ⟨rest, hr, hm⟩ := trace_chain
        (run_script_trace ω none 0 script [some "br_addbr", some br_name, some (itoa vid)]
          s.os)
        (dyn_iface_get_call_frame K ω br_name
          (if (run_script ω none 0 script [some "br_addbr", some br_name, some (itoa vid)]
            s.os).1.1 ≠ 0 then 0 else DVLAN_CLEAN_BR)
          (s.with_os (run_script ω none 0 script
            [some "br_addbr", some br_name, some (itoa vid)] s.os).2)).2.1
        (ifconfig_up_trace ω br_name _)
        (vlan_newlink_tagged_frame K ω s.hapd.conf.ssid.vlan_naming ti br_name vid
          (Sys.with_os _ _)).2.1
      exact ⟨_, rest, hr, Or.inr ⟨script, rfl⟩, _, hm, rfl⟩
/-! ## Interface creation and `ifconfig_up` -/

theorem no_ifup_of_no_failed (es : List OsEvent) (h : ∀ e ∈ es, failed_create e = none) :
    no_ifup_after_failed_create es = true := by
  induction es with
  | nil => rfl
  | cons e rest ih =>
    simp only [no_ifup_after_failed_create, h e (List.mem_cons_self _ _), Bool.true_and]
    exact ih (fun x hx => h x (List.mem_cons_of_mem _ hx))

theorem vlan_if_add_up_events (K : Consts) (ω : Oracle) (hapd : hostapd_data)
    (vlan : hostapd_vlan) (ret : Int) (w : World) :
    ∃ es, (vlan_if_add_up K ω hapd vlan ret w).2.2.trace = w.trace ++ es ∧
      (∀ e ∈ es, failed_create e = none) ∧ (ret ≠ 0 → es = []) := by
  unfold vlan_if_add_up
  by_cases hret : ret ≠ 0
  · rw [if_pos hret]
    exact ⟨[], by simp, by simp, fun _ => rfl⟩
  · rw [if_neg hret]
    dsimp only
    split_ifs <;>
      exact ⟨_, by simp only [wpa_auth_ensure_group_trace, ifconfig_up_trace,
          rsn_preauth_snoop_init_trace, rsn_preauth_snoop_deinit_trace,
          wpa_auth_release_group_trace, hostapd_vlan_if_remove_trace, List.append_assoc]; rfl,
        by simp [failed_create], fun h => absurd h hret⟩

/-- C6 as stated fails: when `br_addbr("brvlan7")` fails, `vlan_get_bridge`
still issues `ifconfig_up("brvlan7")` in the same NEWLINK handling. -/
theorem no_ifup_after_failed_create_counterexample :
    ¬ ∀ (ω : Oracle) (ifname : String) (s : Sys),
        no_ifup_after_failed_create
          ((vlan_newlink linux ω ifname s).os.trace.drop s.os.trace.length) = true := by
  intro h
  have h1 := h oracle_addbr_fails "wlan0.7"
    (example_sys "" [false] [binding "wlan0.7" 7 ⟨1, 7, []⟩])
  revert h1
  decide

/-- C6, amended: no `ifconfig_up` follows a failed creation of the per-station
interface: the calls of `vlan_if_add` contain no `ifconfig_up` on a name after
a failed `hostapd_vlan_if_add` for it (the function returns right after the
failure).  For bridges and trunk children the creation result only selects the
cleanup bits: `vlan_get_bridge` issues `ifconfig_up(br_name)` after `br_addbr`
or the `br_addbr` script verb whatever it returned, and `vlan_newlink_tagged`
always ends with `ifconfig_up(vlan_ifname)`, after the whole of `vlan_add`. -/
theorem no_ifup_after_failed_if_add (K : Consts) (ω : Oracle) (s : Sys) (vlan : hostapd_vlan)
    (existsok : Bool) (naming : Int) (tagged_interface br_name : String) (vid : Int) :
    no_ifup_after_failed_create
        ((vlan_if_add K ω s.hapd vlan existsok s.os).2.2.trace.drop s.os.trace.length)
      = true ∧
    ((if_nametoindex s.os vlan.ifname = 0 ∧ true ∉ s.hapd.conf.ssid.wep_key ∧
        (ω s.os.trace (.hostapd_vlan_if_add vlan.ifname)).ret ≠ 0) →
      (vlan_if_add K ω s.hapd vlan existsok s.os).2.2.trace
        = s.os.trace ++
          [{ call := .hostapd_vlan_if_add vlan.ifname,
             ans := ω s.os.trace (.hostapd_vlan_if_add vlan.ifname) }]) ∧
    (∃ c rest, (vlan_get_bridge K ω br_name vid s).os.trace
        = s.os.trace ++ { call := c, ans := ω s.os.trace c } :: rest ∧
      (c = .br_addbr br_name ∨
        ∃ script, c = .exec script
          ("br_addbr" :: br_name :: itoa vid :: run_script_va_arg ω s.os.trace 97 0) false) ∧
      ∃ e ∈ rest, e.call = .ifconfig_up br_name) ∧
    (∃ t a, (vlan_newlink_tagged K ω naming tagged_interface br_name vid s).os.trace
        = t ++ [{ call := .ifconfig_up (vlan_ifname_of K naming tagged_interface vid),
                  ans := a }] ∧
      (s.hapd.conf.ssid.vlan_script = none →
        (vlan_add K ω tagged_interface vid (vlan_ifname_of K naming tagged_interface vid)
          (ifconfig_up ω tagged_interface s.os).2).2.trace <+: t)) := by
  refine ⟨?_, ?_, vlan_get_bridge_ifup K ω br_name vid s,
    vlan_newlink_tagged_last K ω naming tagged_interface br_name vid s⟩
  · unfold vlan_if_add
    split_ifs with hwep hidx hex
    · simp [no_ifup_after_failed_create]
    · obtain ⟨es, h1, h2, h3⟩ := vlan_if_add_up_events K ω s.hapd vlan
        (hostapd_vlan_if_add ω vlan.ifname s.os).1 (hostapd_vlan_if_add ω vlan.ifname s.os).2
      rw [h1, hostapd_vlan_if_add_trace, List.append_assoc, List.drop_left]
      by_cases hr : (hostapd_vlan_if_add ω vlan.ifname s.os).1 ≠ 0
      · rw [h3 hr]
        simp only [List.append_nil, no_ifup_after_failed_create, List.any_nil, Bool.not_false,
          Bool.and_true]
        split <;> rfl
      · apply no_ifup_of_no_failed
        intro e he
        rcases List.mem_append.1 he with he | he
        · simp only [List.mem_singleton] at he
          subst he
          simp only [hostapd_vlan_if_add_ret, ne_eq, not_not] at hr
          simp [failed_create, hr]
        · exact h2 e he
    · simp [no_ifup_after_failed_create]
    · obtain ⟨es, h1, h2, _⟩ := vlan_if_add_up_events K ω s.hapd vlan 0 s.os
      rw [h1, List.drop_left]
      exact no_ifup_of_no_failed es h2
  · rintro ⟨hidx, hwep, hfail⟩
    have hw : s.hapd.conf.ssid.wep_key.any (fun k => k) = false := by
      rw [Bool.eq_false_iff]
      intro h
      obtain ⟨k, hk, hk2⟩ := List.any_eq_true.1 h
      subst hk2
      exact hwep hk
    simp only [vlan_if_add, hw, Bool.false_eq_true, if_false, hidx, if_true]
    obtain ⟨es, h1, _, h3⟩ := vlan_if_add_up_events K ω s.hapd vlan
      (hostapd_vlan_if_add ω vlan.ifname s.os).1 (hostapd_vlan_if_add ω vlan.ifname s.os).2
    rw [h1, h3 hfail]
    simp

/-! ## The loops over `tagged` -/

theorem vlan_newlink_tagged_loop_eq (K : Consts) (ω : Oracle) (ifname : String)
    (untagged : Int) (tagged : List Int) (fuel : Nat) :
    ∀ (i : Nat) (s : List Char × Sys),
      vlan_newlink_tagged_loop K ω ifname untagged tagged fuel i s
        = (tagged_run K untagged tagged fuel i).foldl (vlan_newlink_tagged_body K ω ifname) s := by
  induction fuel with
  | zero => intro i s; rfl
  | succ fuel ih =>
    intro i s
    rw [vlan_newlink_tagged_loop, tagged_run]
    split_ifs
    · rfl
    · exact ih _ _
    · exact ih _ _
    · exact ih _ _
    · rw [List.foldl_cons]
      exact ih _ _

theorem vlan_dellink_tagged_loop_eq (K : Consts) (ω : Oracle) (ifname : String)
    (untagged : Int) (tagged : List Int) (fuel : Nat) :
    ∀ (i : Nat) (s : List Char × Sys),
      vlan_dellink_tagged_loop K ω ifname untagged tagged fuel i s
        = (tagged_run K untagged tagged fuel i).foldl (vlan_dellink_tagged_body K ω ifname) s := by
  induction fuel with
  | zero => intro i s; rfl
  | succ fuel ih =>
    intro i s
    rw [vlan_dellink_tagged_loop, tagged_run]
    split_ifs
    · rfl
    · exact ih _ _
    · exact ih _ _
    · exact ih _ _
    · rw [List.foldl_cons]
      exact ih _ _

theorem tagged_step_eq (K : Consts) (untagged t : Int) (i : Nat) (q : Int)
    (a b : List Int) :
    (if t = 0 then []
      else if t = untagged then a
      else if t ≤ 0 ∨ t > K.MAX_VLAN_ID then a
      else if i > 0 ∧ t = q then a
      else t :: b)
    = (if t = 0 then []
      else if t = untagged ∨ (t ≤ 0 ∨ t > K.MAX_VLAN_ID) ∨
          (if i = 0 then none else some q) = some t then a
      else t :: b) := by
  have hprev : (i > 0 ∧ t = q) ↔ (if i = 0 then none else some q) = some t := by
    by_cases h0 : i = 0
    · simp [h0]
    · simp only [h0, if_false, Option.some.injEq]
      constructor
      · rintro ⟨_, h⟩; exact h.symm
      · intro h; exact ⟨by omega, h.symm⟩
  by_cases h1 : t = 0
  · simp only [h1, if_true]
  · by_cases h2 : t = untagged
    · simp only [h1, h2, if_true, if_false, true_or]
    · by_cases h3 : t ≤ 0 ∨ t > K.MAX_VLAN_ID
      · simp only [h1, h2, h3, if_true, if_false, true_or, or_true]
      · by_cases h4 : i > 0 ∧ t = q
        · rw [if_neg h1, if_neg h2, if_neg h3, if_pos h4, if_neg h1,
            if_pos (Or.inr (Or.inr (hprev.1 h4)))]
        · have h4' : ¬ (if i = 0 then none else some q) = some t := fun h => h4 (hprev.2 h)
          have h5 : ¬ (t = untagged ∨ (t ≤ 0 ∨ t > K.MAX_VLAN_ID) ∨
              (if i = 0 then none else some q) = some t) := by
            rintro (h | h | h)
            · exact h2 h
            · exact h3 h
            · exact h4' h
          rw [if_neg h1, if_neg h2, if_neg h3, if_neg h4, if_neg h1, if_neg h5]

theorem tagged_run_eq_filter (K : Consts) (untagged : Int) (tagged : List Int) (fuel : Nat) :
    ∀ i : Nat,
      tagged_run K untagged tagged fuel i
        = tagged_filter K untagged (if i = 0 then none else some (tagged.getD (i - 1) 0))
            ((tagged.drop i).take fuel) := by
  induction fuel with
  | zero => intro i; simp [tagged_run, tagged_filter]
  | succ fuel ih =>
    intro i
    rw [tagged_run]
    by_cases hi : i < tagged.length
    · have hd : tagged.drop i = tagged.getD i 0 :: tagged.drop (i + 1) := by
        rw [List.getD_eq_getElem tagged 0 hi]
        exact List.drop_eq_getElem_cons hi
      rw [hd, List.take_succ_cons, tagged_filter, ih (i + 1)]
      simp only [Nat.add_sub_cancel, Nat.succ_ne_zero, if_false]
      exact tagged_step_eq K untagged (tagged.getD i 0) i (tagged.getD (i - 1) 0) _ _
    · have hd : tagged.drop i = [] := List.drop_eq_nil_of_le (by omega)
      have hg : tagged.getD i 0 = 0 := List.getD_eq_default tagged 0 (by omega)
      rw [hd, hg]
      simp [tagged_filter]

theorem tagged_filter_sorted (K : Consts) (untagged : Int) (l : List Int) :
    ∀ prev : Option Int,
      (l.takeWhile (fun t => decide (t ≠ 0))).Pairwise (fun a b => a ≤ b) →
      (∀ p, prev = some p → ∀ x ∈ l.takeWhile (fun t => decide (t ≠ 0)), p ≤ x) →
      (tagged_filter K untagged prev l).Pairwise (fun a b => a < b) ∧
      (∀ v ∈ tagged_filter K untagged prev l, ∀ p, prev = some p → p < v) ∧
      (∀ v, v ∈ tagged_filter K untagged prev l ↔
        v ∈ l.takeWhile (fun t => decide (t ≠ 0)) ∧ 1 ≤ v ∧ v ≤ K.MAX_VLAN_ID ∧
          v ≠ untagged ∧ prev ≠ some v) := by
  induction l with
  | nil => intro prev _ _; simp [tagged_filter]
  | cons t rest ih =>
    intro prev hs hp
    by_cases ht : t = 0
    · subst ht
      simp [tagged_filter, List.takeWhile]
    · have htw : (t :: rest).takeWhile (fun t => decide (t ≠ 0))
          = t :: rest.takeWhile (fun t => decide (t ≠ 0)) := by
        simp [List.takeWhile_cons, ht]
      rw [htw] at hs hp
      rw [htw]
      obtain ⟨hs1, hs2⟩ := List.pairwise_cons.1 hs
      obtain ⟨i1, i2, i3⟩ := ih (some t) hs2 (by
        intro p hpe x hx
        cases hpe
        exact hs1 x hx)
      have hpt : ∀ p, prev = some p → p ≤ t := fun p hpe => hp p hpe t (List.mem_cons_self _ _)
      rw [tagged_filter, if_neg ht]
      by_cases hskip : t = untagged ∨ (t ≤ 0 ∨ t > K.MAX_VLAN_ID) ∨ prev = some t
      · rw [if_pos hskip]
        refine ⟨i1, ?_, ?_⟩
        · intro v hv p hpe
          have := i2 v hv t rfl
          have := hpt p hpe
          omega
        · intro v
          rw [i3 v]
          constructor
          · rintro ⟨h1, h2, h3, h4, h5⟩
            refine ⟨List.mem_cons_of_mem _ h1, h2, h3, h4, ?_⟩
            intro hpe
            have hle := hpt v hpe
            have hvt := hs1 v h1
            have : v = t := by omega
            exact h5 (by rw [this])
          · rintro ⟨h1, h2, h3, h4, h5⟩
            have hvt : v ≠ t := by
              intro hvt
              subst hvt
              rcases hskip with h | h | h
              · exact h4 h
              · omega
              · exact h5 h
            rcases List.mem_cons.1 h1 with h | h
            · exact absurd h hvt
            · exact ⟨h, h2, h3, h4, fun h => hvt (by cases h; rfl)⟩
      · rw [if_neg hskip]
        have hsk := not_or.1 hskip
        have hsk2 := not_or.1 hsk.2
        refine ⟨?_, ?_, ?_⟩
        · exact List.pairwise_cons.2 ⟨fun v hv => i2 v hv t rfl, i1⟩
        · intro v hv p hpe
          have hle := hpt p hpe
          have hne : p ≠ t := by
            intro h
            subst h
            exact hsk2.2 hpe
          rcases List.mem_cons.1 hv with h | h
          · subst h; omega
          · have := i2 v h t rfl
            omega
        · intro v
          rw [List.mem_cons, i3 v, List.mem_cons]
          constructor
          · rintro (h | ⟨h1, h2, h3, h4, h5⟩)
            · subst h
              refine ⟨Or.inl rfl, by omega, by omega, hsk.1, hsk2.2⟩
            · refine ⟨Or.inr h1, h2, h3, h4, ?_⟩
              intro hpe
              have hle := hpt v hpe
              have hvt := hs1 v h1
              have : v = t := by omega
              exact h5 (by rw [this])
          · rintro ⟨h1, h2, h3, h4, h5⟩
            by_cases hvt : v = t
            · exact Or.inl hvt
            · rcases h1 with h | h
              · exact absurd h hvt
              · exact Or.inr ⟨h, h2, h3, h4, fun h => hvt (by cases h; rfl)⟩

/-- The VIDs the loops over `tagged` handle, for an ascending vector: each
valid VID other than `untagged` once. -/
theorem tagged_run_spec (K : Consts) (untagged : Int) (tagged : List Int)
    (hsorted : (tagged_entries K tagged).Pairwise (fun a b => a ≤ b)) :
    (tagged_run K untagged tagged K.MAX_NUM_TAGGED_VLAN 0).Nodup ∧
    ∀ v, v ∈ tagged_run K untagged tagged K.MAX_NUM_TAGGED_VLAN 0 ↔
      v ∈ tagged_entries K tagged ∧ 1 ≤ v ∧ v ≤ K.MAX_VLAN_ID ∧ v ≠ untagged := by
  rw [tagged_run_eq_filter]
  simp only [if_true, List.drop_zero]
  obtain ⟨h1, _, h3⟩ := tagged_filter_sorted K untagged (tagged.take K.MAX_NUM_TAGGED_VLAN) none
    hsorted (by intro p hp; cases hp)
  refine ⟨?_, ?_⟩
  · exact h1.imp (fun h => ne_of_lt h)
  · intro v
    rw [h3 v]
    simp [tagged_entries]

/-- C7 as stated fails for a vector that is not ascending: the loops compare
an entry only with the one before it.  For `tagged = [9, 1, 9]` and untagged
VID 7 the loop of `vlan_newlink` runs its body for 9, for 1 and for 9 again,
so `br_addbr("brvlan9")` of `vlan_get_bridge` is called twice. -/
theorem tagged_vids_once_counterexample :
    ¬ ∀ (untagged : Int) (tagged : List Int) (v : Int),
        v ∈ tagged_entries linux tagged → 1 ≤ v → v ≤ linux.MAX_VLAN_ID → v ≠ untagged →
        (calls (vlan_newlink_tagged_loop linux oracle_ok "wlan0.7" untagged tagged
            linux.MAX_NUM_TAGGED_VLAN 0 ([], example_sys "" [] [])).2.os.trace).count
          (.br_addbr (vlan_bridge_name_default linux (example_sys "" [] []).hapd v)) = 1 := by
  intro h
  have h1 := h 7 [9, 1, 9] 9 (by decide) (by decide) (by decide) (by decide)
  revert h1
  decide

/-- C7, amended: for a binding whose zero-terminated `tagged` vector is
ascending (it may hold duplicates, the untagged VID and invalid values), there
is a duplicate-free list `vids` that contains exactly the VIDs `v` of the
vector with `1 <= v <= MAX_VLAN_ID` and `v != untagged`, such that the loop of
`vlan_newlink` performs the tagged setup (`vlan_bridge_name`,
`vlan_get_bridge`, `vlan_newlink_tagged` on `ifname`) once for each element of
`vids` and for nothing else, and the loop of `vlan_dellink` performs the
teardown once for each element of the same list.  Both loops are followed on
the state together with the memory of `br_name`. -/
theorem tagged_vids_once (K : Consts) (ω : Oracle) (ifname : String) (untagged : Int)
    (tagged : List Int)
    (hsorted : (tagged_entries K tagged).Pairwise (fun a b => a ≤ b)) :
    ∃ vids : List Int,
      vids.Nodup ∧
      (∀ v, v ∈ vids ↔
        v ∈ tagged_entries K tagged ∧ 1 ≤ v ∧ v ≤ K.MAX_VLAN_ID ∧ v ≠ untagged) ∧
      untagged ∉ vids ∧
      (∀ st, vlan_newlink_tagged_loop K ω ifname untagged tagged K.MAX_NUM_TAGGED_VLAN 0 st
        = vids.foldl
            (fun st vid =>
              ((vlan_bridge_name K ω st.1 vid st.2).1.2,
               vlan_newlink_tagged K ω K.DYNAMIC_VLAN_NAMING_WITH_DEVICE ifname
                (vlan_bridge_name K ω st.1 vid st.2).1.1 vid
                (vlan_get_bridge K ω (vlan_bridge_name K ω st.1 vid st.2).1.1 vid
                  (vlan_bridge_name K ω st.1 vid st.2).2))) st) ∧
      (∀ st, vlan_dellink_tagged_loop K ω ifname untagged tagged K.MAX_NUM_TAGGED_VLAN 0 st
        = vids.foldl
            (fun st vid =>
              ((vlan_bridge_name K ω st.1 vid st.2).1.2,
               vlan_put_bridge K ω (vlan_bridge_name K ω st.1 vid st.2).1.1 vid
                (vlan_dellink_tagged K ω K.DYNAMIC_VLAN_NAMING_WITH_DEVICE ifname
                  (vlan_bridge_name K ω st.1 vid st.2).1.1 vid
                  (vlan_bridge_name K ω st.1 vid st.2).2))) st) := by
  obtain ⟨h1, h2⟩ := tagged_run_spec K untagged tagged hsorted
  refine ⟨tagged_run K untagged tagged K.MAX_NUM_TAGGED_VLAN 0, h1, h2, ?_, ?_, ?_⟩
  · intro h
    exact ((h2 untagged).1 h).2.2.2 rfl
  · intro st
    exact vlan_newlink_tagged_loop_eq K ω ifname untagged tagged _ 0 st
  · intro st
    exact vlan_dellink_tagged_loop_eq K ω ifname untagged tagged _ 0 st

/-- Witness for C7 as amended: the vector `[7, 7, 9]` with untagged VID 7. -/
theorem tagged_vids_once_witness :
    ∃ vids : List Int,
      vids.Nodup ∧
      (∀ v, v ∈ vids ↔
        v ∈ tagged_entries linux [7, 7, 9] ∧ 1 ≤ v ∧ v ≤ linux.MAX_VLAN_ID ∧ v ≠ 7) ∧
      (7 : Int) ∉ vids ∧
      (∀ st, vlan_newlink_tagged_loop linux oracle_ok "wlan0.7" 7 [7, 7, 9]
          linux.MAX_NUM_TAGGED_VLAN 0 st
        = vids.foldl
            (fun st vid =>
              ((vlan_bridge_name linux oracle_ok st.1 vid st.2).1.2,
               vlan_newlink_tagged linux oracle_ok linux.DYNAMIC_VLAN_NAMING_WITH_DEVICE
                "wlan0.7" (vlan_bridge_name linux oracle_ok st.1 vid st.2).1.1 vid
                (vlan_get_bridge linux oracle_ok
                  (vlan_bridge_name linux oracle_ok st.1 vid st.2).1.1 vid
                  (vlan_bridge_name linux oracle_ok st.1 vid st.2).2))) st) ∧
      (∀ st, vlan_dellink_tagged_loop linux oracle_ok "wlan0.7" 7 [7, 7, 9]
          linux.MAX_NUM_TAGGED_VLAN 0 st
        = vids.foldl
            (fun st vid =>
              ((vlan_bridge_name linux oracle_ok st.1 vid st.2).1.2,
               vlan_put_bridge linux oracle_ok
                (vlan_bridge_name linux oracle_ok st.1 vid st.2).1.1 vid
                (vlan_dellink_tagged linux oracle_ok linux.DYNAMIC_VLAN_NAMING_WITH_DEVICE
                  "wlan0.7" (vlan_bridge_name linux oracle_ok st.1 vid st.2).1.1 vid
                  (vlan_bridge_name linux oracle_ok st.1 vid st.2).2))) st) :=
  tagged_vids_once linux oracle_ok "wlan0.7" 7 [7, 7, 9] (by decide)

/-! ## Round trip of `vlan_add_dynamic` and `vlan_remove_dynamic` -/

theorem if_nametoindex_eq_zero (w : World) (n : String) :
    if_nametoindex w n = 0 ↔ n ∉ w.ifaces := by
  unfold if_nametoindex
  split <;> simp_all

theorem iface_remove_cons_self (n : String) (l : List String) (h : n ∉ l) :
    iface_remove n (n :: l) = l := by
  unfold iface_remove
  rw [List.filter_cons_of_neg (by simp)]
  exact List.filter_eq_self.2 (fun a ha => by
    simp only [ne_eq, decide_not, Bool.not_eq_true', decide_eq_false_iff_not]
    intro hh; exact h (hh ▸ ha))

theorem vlan_if_add_up_ifaces (K : Consts) (ω : Oracle) (hapd : hostapd_data)
    (vlan : hostapd_vlan) (w : World)
    (h : (vlan_if_add_up K ω hapd vlan 0 w).1 = 0) :
    (vlan_if_add_up K ω hapd vlan 0 w).2.2.ifaces = w.ifaces := by
  unfold vlan_if_add_up at h ⊢
  simp only [ne_eq, not_true_eq_false, if_false] at h ⊢
  split_ifs at h ⊢ <;> first | rfl | (exfalso; simp_all)

/-- A successful `vlan_if_add(existsok = 0)` found no interface of that name
and leaves exactly one more interface, the new one. -/
theorem vlan_if_add_created (K : Consts) (ω : Oracle) (hapd : hostapd_data)
    (vlan : hostapd_vlan) (w : World)
    (h : (vlan_if_add K ω hapd vlan false w).1 = 0) :
    vlan.ifname ∉ w.ifaces ∧
    (vlan_if_add K ω hapd vlan false w).2.2.ifaces = vlan.ifname :: w.ifaces := by
  unfold vlan_if_add at h ⊢
  simp only [Bool.not_false, if_true] at h ⊢
  split_ifs at h ⊢ with hwep hidx
  · simp at h
  · have hn := (if_nametoindex_eq_zero w vlan.ifname).1 hidx
    refine ⟨hn, ?_⟩
    have hr : (hostapd_vlan_if_add ω vlan.ifname w).1 = 0 := by
      by_contra hne
      unfold vlan_if_add_up at h
      rw [if_pos hne] at h
      exact hne h
    have hw : (hostapd_vlan_if_add ω vlan.ifname w).2.ifaces = vlan.ifname :: w.ifaces := by
      unfold hostapd_vlan_if_add at hr ⊢
      dsimp only at hr ⊢
      rw [if_pos hr]
      simp [iface_insert, hn, os_call]
    show (vlan_if_add_up K ω hapd vlan (hostapd_vlan_if_add ω vlan.ifname w).1
      (hostapd_vlan_if_add ω vlan.ifname w).2).2.2.ifaces = _
    have h' : (vlan_if_add_up K ω hapd vlan (hostapd_vlan_if_add ω vlan.ifname w).1
      (hostapd_vlan_if_add ω vlan.ifname w).2).1 = 0 := h
    rw [hr] at h' ⊢
    rw [vlan_if_add_up_ifaces K ω hapd vlan _ h', hw]
  · simp at h

/-- What `vlan_if_remove` does to the interface set and to the binding: the
interface goes exactly when the function returns 0. -/
theorem vlan_if_remove_effect (K : Consts) (ω : Oracle) (v : hostapd_vlan) (w : World) :
    (vlan_if_remove K ω v w).2.2.ifaces
        = (if (vlan_if_remove K ω v w).1 = 0 then iface_remove v.ifname w.ifaces
            else w.ifaces) ∧
    (vlan_if_remove K ω v w).2.1
        = { v with rsn_preauth := (vlan_if_remove K ω v w).2.1.rsn_preauth } := by
  unfold vlan_if_remove
  dsimp only
  split_ifs with hp h0 h0 <;> refine ⟨?_, rfl⟩ <;>
    · unfold hostapd_vlan_if_remove at h0 ⊢
      dsimp only at h0 ⊢
      first
        | rw [if_pos h0]; rfl
        | rw [if_neg h0]; rfl

theorem vlan_add_dynamic_some (K : Consts) (ω : Oracle) (t : hostapd_vlan) (vid : Int)
    (desc : vlan_description) (s : Sys) (n : hostapd_vlan) (s1 : Sys)
    (hadd : vlan_add_dynamic K ω (some t) vid desc s = (some n, s1)) :
    ∃ (n0 : hostapd_vlan) (hapd0 : hostapd_data) (w2 : World),
      n0.vlan_id = vid ∧ n0.dynamic_vlan = 1 ∧ n0.configured = 0 ∧
      w2.ifaces = s.os.ifaces ∧
      (vlan_if_add K ω hapd0 n0 false w2).1 = 0 ∧
      n = (vlan_if_add K ω hapd0 n0 false w2).2.1 ∧
      s1 = (s.with_os (vlan_if_add K ω hapd0 n0 false w2).2.2).with_vlan
        (n :: s.hapd.conf.vlan) := by
  unfold vlan_add_dynamic at hadd
  dsimp only at hadd
  split_ifs at hadd with h1 h2 h3 h4 h5
  all_goals first | (exfalso; cases hadd; done) | skip
  simp only [Prod.mk.injEq, Option.some.injEq] at hadd
  obtain ⟨hn, hs⟩ := hadd
  refine ⟨_, _, _, ?_, ?_, ?_, ?_, not_not.1 h5, hn.symm, ?_⟩
  · rfl
  · rfl
  · rfl
  · rfl
  · rw [← hs, hn]

/-- C8 as stated fails: when the driver cannot remove the interface
(`hostapd_vlan_if_remove` fails, also in the retry of `vlan_dellink`),
`vlan_remove_dynamic` still returns 0 and unlinks the binding, but the
interface `wlan0.7` that `vlan_add_dynamic` created stays. -/
theorem add_remove_dynamic_counterexample :
    ¬ ∀ (ω : Oracle) (t : hostapd_vlan) (vid : Int) (desc : vlan_description) (s : Sys)
        (n : hostapd_vlan) (s1 : Sys),
        t ∈ s.hapd.conf.vlan → 0 < vid →
        vlan_add_dynamic linux ω (some t) vid desc s = (some n, s1) →
        (vlan_remove_dynamic linux ω vid s1).1 = 0 ∧
        (vlan_remove_dynamic linux ω vid s1).2.hapd.conf.vlan = s.hapd.conf.vlan ∧
        (vlan_remove_dynamic linux ω vid s1).2.hapd.vlan_priv = s.hapd.vlan_priv ∧
        (vlan_remove_dynamic linux ω vid s1).2.os.ifaces = s.os.ifaces := by
  intro h
  have h1 := h oracle_if_remove_fails (binding "wlan0.#" (-1) ⟨0, 0, []⟩) 7 ⟨1, 7, []⟩
    (example_sys "" [false] [binding "wlan0.#" (-1) ⟨0, 0, []⟩])
    { binding "wlan0.7" 7 ⟨1, 7, []⟩ with dynamic_vlan := 1 }
    (vlan_add_dynamic linux oracle_if_remove_fails (some (binding "wlan0.#" (-1) ⟨0, 0, []⟩)) 7
      ⟨1, 7, []⟩ (example_sys "" [false] [binding "wlan0.#" (-1) ⟨0, 0, []⟩])).2
    (by decide) (by decide) (by decide)
  have h2 := h1.2.2.2
  revert h2
  decide

/-- C8, amended: when `vlan_add_dynamic(template, vid, desc)` with `vid > 0`
succeeds and `vlan_remove_dynamic(vid)` follows immediately, then
`vlan_remove_dynamic` returns 0 and the binding list and the registry are what
they were before `vlan_add_dynamic`; the set of existing interfaces is what it
was before exactly when the driver removes the interface, that is when
`vlan_if_remove` returns 0 either in `vlan_remove_dynamic` or in the retry
that `vlan_dellink` makes because the interface still exists. -/
theorem add_remove_dynamic_round_trip (K : Consts) (ω : Oracle) (t : hostapd_vlan)
    (vid : Int) (desc : vlan_description) (s : Sys) (n : hostapd_vlan) (s1 : Sys)
    (hvid : 0 < vid)
    (hadd : vlan_add_dynamic K ω (some t) vid desc s = (some n, s1)) :
    (vlan_remove_dynamic K ω vid s1).1 = 0 ∧
    (vlan_remove_dynamic K ω vid s1).2.hapd.conf.vlan = s.hapd.conf.vlan ∧
    (vlan_remove_dynamic K ω vid s1).2.hapd.vlan_priv = s.hapd.vlan_priv ∧
    ((vlan_remove_dynamic K ω vid s1).2.os.ifaces = s.os.ifaces ↔
      ((vlan_if_remove K ω { n with dynamic_vlan := n.dynamic_vlan - 1 } s1.os).1 = 0 ∨
       (vlan_if_remove K ω
          (vlan_if_remove K ω { n with dynamic_vlan := n.dynamic_vlan - 1 } s1.os).2.1
          (vlan_if_remove K ω { n with dynamic_vlan := n.dynamic_vlan - 1 } s1.os).2.2).1
            = 0)) := by
  obtain ⟨n0, hapd0, w2, hv, hd, hc, hw2, hok, hn, hs1⟩ :=
    vlan_add_dynamic_some K ω t vid desc s n s1 hadd
  obtain ⟨f1, f2, _, f4, f5, _⟩ := vlan_if_add_fields K ω hapd0 n0 false w2
  obtain ⟨habs, hifs⟩ := vlan_if_add_created K ω hapd0 n0 w2 hok
  rw [← hn] at f1 f2 f4 f5
  have hnv : n.vlan_id = vid := by rw [f2, hv]
  have hnd : n.dynamic_vlan = 1 := by rw [f4, hd]
  have hnc : n.configured = 0 := by rw [f5, hc]
  have habs' : n.ifname ∉ s.os.ifaces := by rw [f1, ← hw2]; exact habs
  have hifs' : s1.os.ifaces = n.ifname :: s.os.ifaces := by
    rw [hs1, f1, ← hw2]; exact hifs
  have hl : s1.hapd.conf.vlan = n :: s.hapd.conf.vlan := by rw [hs1]; rfl
  have hreg : s1.hapd.vlan_priv = s.hapd.vlan_priv := by rw [hs1]; rfl
  have hdyn0 : n.dynamic_vlan - 1 = 0 := by omega
  simp only [hdyn0]
  -- the first removal
  obtain ⟨e1, e2⟩ := vlan_if_remove_effect K ω { n with dynamic_vlan := 0 } s1.os
  generalize hr1 : vlan_if_remove K ω { n with dynamic_vlan := 0 } s1.os = r1 at e1 e2 ⊢
  have hr1n : r1.2.1.ifname = n.ifname := by rw [e2]
  have hr1c : r1.2.1.configured = 0 := by rw [e2]; exact hnc
  -- the retry
  obtain ⟨g1, _⟩ := vlan_if_remove_effect K ω r1.2.1 r1.2.2
  generalize hr2 : vlan_if_remove K ω r1.2.1 r1.2.2 = r2 at g1 ⊢
  have hfind : vlan_remove_dynamic_find vid s1.hapd.conf.vlan = some 0 := by
    rw [hl, vlan_remove_dynamic_find, if_pos ⟨hnv, by omega⟩]
  have hfind2 : vlan_dellink_find n.ifname (r1.2.1 :: s.hapd.conf.vlan) = some 0 := by
    rw [vlan_dellink_find, if_neg (by simp [hr1n])]
  have hres : vlan_remove_dynamic K ω vid s1
      = (0, ((if if_nametoindex r1.2.2 n.ifname ≠ 0 then
              ((s1.with_os r1.2.2).with_vlan (r1.2.1 :: s.hapd.conf.vlan)).with_os r2.2.2
            else (s1.with_os r1.2.2).with_vlan (r1.2.1 :: s.hapd.conf.vlan)).with_vlan
              s.hapd.conf.vlan)) := by
    unfold vlan_remove_dynamic
    rw [if_neg (by omega), hfind]
    simp only [hl, List.get?_cons_zero, List.set_cons_zero, hdyn0, if_true, hr1,
      Sys.with_vlan_vlan, Sys.with_os_os, Sys.with_vlan_os]
    unfold vlan_dellink
    simp only [Sys.with_vlan_vlan, hfind2, List.get?_cons_zero, vlan_dellink_vlan, hr1c,
      if_true, Sys.with_vlan_os, Sys.with_os_os, hr1n, hr2]
    split_ifs <;> rfl
  rw [hres]
  refine ⟨rfl, ?_, ?_, ?_⟩
  · split_ifs <;> rfl
  · split_ifs <;> exact hreg
  · rw [hifs'] at e1
    by_cases h1 : r1.1 = 0
    · rw [if_pos h1, iface_remove_cons_self n.ifname s.os.ifaces habs'] at e1
      have hz : if_nametoindex r1.2.2 n.ifname = 0 := by
        rw [if_nametoindex_eq_zero, e1]; exact habs'
      simp only [hz, ne_eq, not_true_eq_false, if_false, Sys.with_vlan_os, Sys.with_os_os, e1,
        h1, true_or]
    · rw [if_neg h1] at e1
      have hz : if_nametoindex r1.2.2 n.ifname ≠ 0 := by
        rw [ne_eq, if_nametoindex_eq_zero, e1]; simp
      rw [e1, hr1n] at g1
      simp only [hz, ne_eq, not_false_eq_true, if_true, Sys.with_vlan_os, Sys.with_os_os, h1,
        false_or, g1]
      by_cases h2 : r2.1 = 0
      · simp [h2, iface_remove_cons_self n.ifname s.os.ifaces habs']
      · simp [h2]

/-- Witness for C8 as amended: the template `wlan0.#`, VID 7, in an
environment where every call succeeds; the interface set is restored. -/
theorem add_remove_dynamic_round_trip_witness :
    (vlan_remove_dynamic linux oracle_ok 7
      (vlan_add_dynamic linux oracle_ok (some (binding "wlan0.#" (-1) ⟨0, 0, []⟩)) 7
        ⟨1, 7, []⟩ (example_sys "" [false] [binding "wlan0.#" (-1) ⟨0, 0, []⟩])).2).1 = 0 ∧
    (vlan_remove_dynamic linux oracle_ok 7
      (vlan_add_dynamic linux oracle_ok (some (binding "wlan0.#" (-1) ⟨0, 0, []⟩)) 7
        ⟨1, 7, []⟩ (example_sys "" [false] [binding "wlan0.#" (-1) ⟨0, 0, []⟩])).2).2.os.ifaces
      = (example_sys "" [false] [binding "wlan0.#" (-1) ⟨0, 0, []⟩]).os.ifaces :=
  ⟨(add_remove_dynamic_round_trip linux oracle_ok (binding "wlan0.#" (-1) ⟨0, 0, []⟩) 7
      ⟨1, 7, []⟩ (example_sys "" [false] [binding "wlan0.#" (-1) ⟨0, 0, []⟩])
      { binding "wlan0.7" 7 ⟨1, 7, []⟩ with dynamic_vlan := 1 } _ (by decide) (by decide)).1,
   (add_remove_dynamic_round_trip linux oracle_ok (binding "wlan0.#" (-1) ⟨0, 0, []⟩) 7
      ⟨1, 7, []⟩ (example_sys "" [false] [binding "wlan0.#" (-1) ⟨0, 0, []⟩])
      { binding "wlan0.7" 7 ⟨1, 7, []⟩ with dynamic_vlan := 1 } _ (by decide)
      (by decide)).2.2.2.2 (Or.inl (by decide))⟩

/-! ## Frames: configuration, trace growth and `br_addbr` calls -/

theorem Frame.refl (s : Sys) : Frame s s [] :=
  ⟨rfl, List.prefix_refl _, by simp⟩

theorem Frame.trans {s s1 s2 : Sys} {L M : List String} (h1 : Frame s s1 L)
    (h2 : Frame s1 s2 M) : Frame s s2 (L ++ M) :=
  ⟨h2.1.trans h1.1, h1.2.1.trans h2.2.1, by rw [h2.2.2, h1.2.2, List.append_assoc]⟩

theorem Frame.trans_nil {s s1 s2 : Sys} {L : List String} (h1 : Frame s s1 L)
    (h2 : Frame s1 s2 []) : Frame s s2 L := by
  have := h1.trans h2
  rwa [List.append_nil] at this

theorem Frame.nil_trans {s s1 s2 : Sys} {L : List String} (h1 : Frame s s1 [])
    (h2 : Frame s1 s2 L) : Frame s s2 L := by
  have := h1.trans h2
  rwa [List.nil_append] at this

theorem Frame.of_event (s : Sys) (w : World) (e : OsEvent)
    (h : w.trace = s.os.trace ++ [e]) (hq : ∀ b, e.call ≠ .br_addbr b) :
    Frame s (s.with_os w) [] := by
  refine ⟨rfl, ?_, ?_⟩
  · rw [Sys.with_os_os, h]; exact List.prefix_append _ _
  · rw [Sys.with_os_os, h, addbrs_append, addbrs_cons]
    split
    · rename_i b hb; exact absurd hb (hq b)
    · simp

theorem Frame.of_world (s : Sys) (w : World) (h1 : s.os.trace <+: w.trace)
    (h2 : addbrs w.trace = addbrs s.os.trace) : Frame s (s.with_os w) [] :=
  ⟨rfl, h1, by rw [Sys.with_os_os, h2, List.append_nil]⟩

theorem Frame.with_vlan_priv {s s1 : Sys} {L : List String} (h : Frame s s1 L)
    (r : List dynamic_iface) : Frame s (s1.with_vlan_priv r) L := h

theorem frame_ifconfig_down (ω : Oracle) (n : String) (s : Sys) :
    Frame s (s.with_os (ifconfig_down ω n s.os).2) [] :=
  Frame.of_event s _ _ (ifconfig_down_trace ω n s.os) (by intro b h; cases h)

theorem frame_br_delif (ω : Oracle) (b n : String) (s : Sys) :
    Frame s (s.with_os (br_delif ω b n s.os).2) [] :=
  Frame.of_event s _ _ (br_delif_trace ω b n s.os) (by intro b h; cases h)

theorem frame_br_delbr (ω : Oracle) (b : String) (s : Sys) :
    Frame s (s.with_os (br_delbr ω b s.os).2) [] :=
  Frame.of_event s _ _ (br_delbr_trace ω b s.os) (by intro b h; cases h)

theorem frame_br_getnumports (ω : Oracle) (b : String) (s : Sys) :
    Frame s (s.with_os (br_getnumports ω b s.os).2) [] :=
  Frame.of_event s _ _ (br_getnumports_trace ω b s.os) (by intro b h; cases h)

theorem frame_run_script (ω : Oracle) (output : Option (List Char)) (size : Nat)
    (script : String) (args : List (Option String)) (s : Sys) :
    Frame s (s.with_os (run_script ω output size script args s.os).2) [] :=
  Frame.of_event s _ _ (run_script_trace ω output size script args s.os)
    (by intro b h; cases h)

theorem frame_rsn_preauth_snoop_deinit (ω : Oracle) (n : String) (h : Int) (s : Sys) :
    Frame s (s.with_os (rsn_preauth_snoop_deinit ω n h s.os)) [] :=
  Frame.of_event s _ _ (rsn_preauth_snoop_deinit_trace ω n h s.os) (by intro b h; cases h)

theorem frame_vlan_add (K : Consts) (ω : Oracle) (if_name : String) (vid : Int)
    (n : String) (s : Sys) :
    Frame s (s.with_os (vlan_add K ω if_name vid n s.os).2) [] :=
  Frame.of_world s _ (vlan_add_frame K ω if_name vid n s.os).1
    (vlan_add_frame K ω if_name vid n s.os).2

theorem frame_vlan_rem (K : Consts) (ω : Oracle) (if_name : String) (s : Sys) :
    Frame s (s.with_os (vlan_rem K ω if_name s.os).2) [] :=
  Frame.of_world s _ (vlan_rem_frame K ω if_name s.os).1 (vlan_rem_frame K ω if_name s.os).2

theorem frame_vlan_if_remove (K : Consts) (ω : Oracle) (v : hostapd_vlan) (s : Sys) :
    Frame s (s.with_os (vlan_if_remove K ω v s.os).2.2) [] := by
  apply Frame.of_world
  · unfold vlan_if_remove
    dsimp only
    split_ifs <;> simp [List.append_assoc]
  · unfold vlan_if_remove
    dsimp only
    split_ifs <;> simp [addbrs_append, addbrs_cons]

theorem frame_dyn_iface_put_call (ifname : String) (s : Sys) :
    Frame s (dyn_iface_put_call ifname s).2 [] :=
  Frame.refl s

theorem vlan_bridge_name_no_script (K : Consts) (ω : Oracle) (br_name : List Char)
    (vid : Int) (s : Sys) (hs : s.hapd.conf.ssid.vlan_script = none) :
    vlan_bridge_name K ω br_name vid s
      = ((vlan_bridge_name_default K s.hapd vid,
          store_c_text (vlan_bridge_name_default K s.hapd vid) br_name), s) := by
  unfold vlan_bridge_name
  rw [hs]

theorem frame_vlan_bridge_name (K : Consts) (ω : Oracle) (br_name : List Char) (vid : Int)
    (s : Sys) : Frame s (vlan_bridge_name K ω br_name vid s).2 [] := by
  unfold vlan_bridge_name
  split
  · dsimp only
    split_ifs <;> exact frame_run_script ω _ _ _ _ _
  · exact Frame.refl s

theorem frame_vlan_dellink_tagged (K : Consts) (ω : Oracle) (naming : Int)
    (tagged_interface br_name : String) (vid : Int) (s : Sys) :
    Frame s (vlan_dellink_tagged K ω naming tagged_interface br_name vid s) [] := by
  unfold vlan_dellink_tagged
  dsimp only
  have f0 := frame_dyn_iface_put_call (vlan_ifname_of K naming tagged_interface vid) s
  split
  · split_ifs
    · exact f0.trans_nil (frame_run_script ω _ _ _ _ _)
    · exact f0
  · apply f0.trans_nil
    by_cases hA : (dyn_iface_put_call (vlan_ifname_of K naming tagged_interface vid) s).1
        &&& DVLAN_CLEAN_VLAN_PORT ≠ 0
    · rw [if_pos hA]
      by_cases hB : (dyn_iface_put_call (vlan_ifname_of K naming tagged_interface vid) s).1
          &&& DVLAN_CLEAN_VLAN ≠ 0
      · rw [if_pos hB]
        exact (frame_br_delif ω _ _ _).trans_nil
          ((frame_ifconfig_down ω _ _).trans_nil (frame_vlan_rem K ω _ _))
      · rw [if_neg hB]
        exact frame_br_delif ω _ _ _
    · rw [if_neg hA]
      by_cases hB : (dyn_iface_put_call (vlan_ifname_of K naming tagged_interface vid) s).1
          &&& DVLAN_CLEAN_VLAN ≠ 0
      · rw [if_pos hB]
        exact (frame_ifconfig_down ω _ _).trans_nil (frame_vlan_rem K ω _ _)
      · rw [if_neg hB]
        exact Frame.refl _

theorem frame_vlan_put_bridge (K : Consts) (ω : Oracle) (br_name : String) (vid : Int)
    (s : Sys) : Frame s (vlan_put_bridge K ω br_name vid s) [] := by
  unfold vlan_put_bridge
  dsimp only
  have f0 : Frame s (match s.hapd.conf.ssid.vlan_tagged_interface with
      | some tagged_interface =>
        vlan_dellink_tagged K ω s.hapd.conf.ssid.vlan_naming tagged_interface br_name vid s
      | none => s) [] := by
    split
    · exact frame_vlan_dellink_tagged K ω _ _ _ _ _
    · exact Frame.refl s
  generalize (match s.hapd.conf.ssid.vlan_tagged_interface with
      | some tagged_interface =>
        vlan_dellink_tagged K ω s.hapd.conf.ssid.vlan_naming tagged_interface br_name vid s
      | none => s) = s1 at f0 ⊢
  have f1 := f0.trans_nil (frame_dyn_iface_put_call br_name s1)
  by_cases hA : (dyn_iface_put_call br_name s1).1 &&& DVLAN_CLEAN_BR = 0
  · rw [if_pos hA]; exact f1
  · rw [if_neg hA]
    cases s.hapd.conf.ssid.vlan_script with
    | none =>
      dsimp only
      by_cases hB : (br_getnumports ω br_name (dyn_iface_put_call br_name s1).2.os).1 ≠ 0
      · rw [if_pos hB]
        exact f1.trans_nil (frame_br_getnumports ω _ _)
      · rw [if_neg hB]
        exact f1.trans_nil ((frame_br_getnumports ω _ _).trans_nil
          ((frame_ifconfig_down ω _ _).trans_nil (frame_br_delbr ω _ _)))
    | some script =>
      exact f1.trans_nil ((frame_ifconfig_down ω _ _).trans_nil (frame_run_script ω _ _ _ _ _))

theorem frame_vlan_dellink_tagged_body (K : Consts) (ω : Oracle) (ifname : String)
    (st : List Char × Sys) (vid : Int) :
    Frame st.2 (vlan_dellink_tagged_body K ω ifname st vid).2 [] := by
  unfold vlan_dellink_tagged_body
  exact (frame_vlan_bridge_name K ω st.1 vid st.2).trans_nil
    ((frame_vlan_dellink_tagged K ω _ ifname _ vid _).trans_nil
      (frame_vlan_put_bridge K ω _ vid _))

theorem frame_dellink_foldl (K : Consts) (ω : Oracle) (ifname : String) (vids : List Int) :
    ∀ st : List Char × Sys,
      Frame st.2 (vids.foldl (vlan_dellink_tagged_body K ω ifname) st).2 [] := by
  induction vids with
  | nil => intro st; exact Frame.refl st.2
  | cons v rest ih =>
    intro st
    exact (frame_vlan_dellink_tagged_body K ω ifname st v).trans_nil (ih _)

theorem frame_vlan_dellink_counting (K : Consts) (ω : Oracle) (ifname : String)
    (vlan : hostapd_vlan) (s : Sys) :
    Frame s (vlan_dellink_counting K ω ifname vlan s) [] := by
  unfold vlan_dellink_counting
  dsimp only
  have f0 : Frame s (if K.CONFIG_RSN_PREAUTH_COPY then
      s.with_os (rsn_preauth_snoop_deinit ω vlan.ifname vlan.rsn_preauth s.os) else s) [] := by
    split_ifs
    · exact frame_rsn_preauth_snoop_deinit ω _ _ s
    · exact Frame.refl s
  have f1 := f0.trans_nil (frame_dellink_foldl K ω ifname
    (tagged_run K vlan.vlan_desc.untagged vlan.vlan_desc.tagged K.MAX_NUM_TAGGED_VLAN 0)
    (br_name_uninit ω s.os, if K.CONFIG_RSN_PREAUTH_COPY then
      s.with_os (rsn_preauth_snoop_deinit ω vlan.ifname vlan.rsn_preauth s.os) else s))
  rw [← vlan_dellink_tagged_loop_eq] at f1
  generalize vlan_dellink_tagged_loop K ω ifname vlan.vlan_desc.untagged vlan.vlan_desc.tagged
    K.MAX_NUM_TAGGED_VLAN 0 (br_name_uninit ω s.os, if K.CONFIG_RSN_PREAUTH_COPY then
      s.with_os (rsn_preauth_snoop_deinit ω vlan.ifname vlan.rsn_preauth s.os) else s) = st1
    at f1 ⊢
  have f2 := f1.trans_nil (frame_vlan_bridge_name K ω st1.1 vlan.vlan_desc.untagged st1.2)
  by_cases hne : vlan.vlan_desc.notempty = 0
  · rw [if_pos hne]
    by_cases hb : s.hapd.conf.bridge ≠ "" ∧ vlan.clean &&& K.DVLAN_CLEAN_WLAN_PORT ≠ 0
    · rw [if_pos hb]
      cases s.hapd.conf.ssid.vlan_script with
      | none => exact f1.trans_nil (frame_br_delif ω _ _ _)
      | some script => exact f1.trans_nil (frame_run_script ω _ _ _ _ _)
    · rw [if_neg hb]; exact f1
  · rw [if_neg hne]
    by_cases hu : vlan.vlan_desc.untagged > 0 ∧ vlan.vlan_desc.untagged ≤ K.MAX_VLAN_ID
    · rw [if_pos hu]
      by_cases hc : vlan.clean &&& K.DVLAN_CLEAN_WLAN_PORT ≠ 0
      · rw [if_pos hc]
        cases s.hapd.conf.ssid.vlan_script with
        | none =>
          exact (f2.trans_nil (frame_br_delif ω _ _ _)).trans_nil
            (frame_vlan_put_bridge K ω _ _ _)
        | some script =>
          exact (f2.trans_nil (frame_run_script ω _ _ _ _ _)).trans_nil
            (frame_vlan_put_bridge K ω _ _ _)
      · rw [if_neg hc]
        exact f2.trans_nil (frame_vlan_put_bridge K ω _ _ _)
    · rw [if_neg hu]; exact f1

theorem frame_vlan_dellink_vlan (K : Consts) (ω : Oracle) (ifname : String)
    (vlan : hostapd_vlan) (s : Sys) :
    Frame s (vlan_dellink_vlan K ω ifname vlan s) [] := by
  unfold vlan_dellink_vlan
  dsimp only
  have f0 : Frame s (if vlan.configured = 0 then s
      else vlan_dellink_counting K ω ifname vlan s) [] := by
    split_ifs
    · exact Frame.refl s
    · exact frame_vlan_dellink_counting K ω ifname vlan s
  generalize (if vlan.configured = 0 then s
      else vlan_dellink_counting K ω ifname vlan s) = s1 at f0 ⊢
  split_ifs
  · exact f0.trans_nil (frame_vlan_if_remove K ω vlan _)
  · exact f0

/-! ## NEWLINK and DELLINK on the binding list -/

theorem get?_append_length (pre : List hostapd_vlan) (v : hostapd_vlan)
    (post : List hostapd_vlan) : (pre ++ v :: post).get? pre.length = some v := by
  induction pre with
  | nil => rfl
  | cons a pre ih => exact ih

theorem set_append_length (pre : List hostapd_vlan) (v v1 : hostapd_vlan)
    (post : List hostapd_vlan) : (pre ++ v :: post).set pre.length v1 = pre ++ v1 :: post := by
  induction pre with
  | nil => rfl
  | cons a pre ih => simp [ih]

theorem eraseIdx_append_length (pre : List hostapd_vlan) (v : hostapd_vlan)
    (post : List hostapd_vlan) : (pre ++ v :: post).eraseIdx pre.length = pre ++ post := by
  induction pre with
  | nil => rfl
  | cons a pre ih => simp [ih]

theorem vlan_remove_dynamic_find_none (vid : Int) (l : List hostapd_vlan)
    (h : ∀ v ∈ l, ¬ (v.vlan_id = vid ∧ v.dynamic_vlan > 0)) :
    vlan_remove_dynamic_find vid l = none := by
  induction l with
  | nil => rfl
  | cons a rest ih =>
    rw [vlan_remove_dynamic_find, if_neg (h a (List.mem_cons_self _ _)),
      ih (fun v hv => h v (List.mem_cons_of_mem _ hv))]
    rfl

theorem vlan_remove_dynamic_find_first (vid : Int) (pre : List hostapd_vlan)
    (v : hostapd_vlan) (post : List hostapd_vlan)
    (hpre : ∀ u ∈ pre, ¬ (u.vlan_id = vid ∧ u.dynamic_vlan > 0))
    (hv : v.vlan_id = vid ∧ v.dynamic_vlan > 0) :
    vlan_remove_dynamic_find vid (pre ++ v :: post) = some pre.length := by
  induction pre with
  | nil => simp [vlan_remove_dynamic_find, hv]
  | cons a pre ih =>
    rw [List.cons_append, vlan_remove_dynamic_find, if_neg (hpre a (List.mem_cons_self _ _)),
      ih (fun u hu => hpre u (List.mem_cons_of_mem _ hu))]
    rfl

theorem exists_first_binding (P : hostapd_vlan → Prop) (l : List hostapd_vlan)
    (h : ∃ v ∈ l, P v) :
    ∃ pre v post, l = pre ++ v :: post ∧ (∀ u ∈ pre, ¬ P u) ∧ P v := by
  induction l with
  | nil => obtain ⟨v, hv, _⟩ := h; cases hv
  | cons a rest ih =>
    by_cases ha : P a
    · exact ⟨[], a, rest, rfl, by simp, ha⟩
    · obtain ⟨v, hv, hP⟩ := h
      rcases List.mem_cons.1 hv with rfl | hm
      · exact absurd hP ha
      · obtain ⟨pre, w, post, h1, h2, h3⟩ := ih ⟨v, hm, hP⟩
        refine ⟨a :: pre, w, post, by rw [h1]; rfl, ?_, h3⟩
        intro u hu
        rcases List.mem_cons.1 hu with rfl | hu
        · exact ha
        · exact h2 u hu

theorem vlan_dellink_find_first (ifname : String) (pre : List hostapd_vlan)
    (v : hostapd_vlan) (post : List hostapd_vlan)
    (hpre : ∀ u ∈ pre, u.ifname ≠ ifname) (hv : v.ifname = ifname) :
    vlan_dellink_find ifname (pre ++ v :: post) = some pre.length := by
  induction pre with
  | nil => simp [vlan_dellink_find, hv]
  | cons a pre ih =>
    have ha : ifname ≠ a.ifname := fun hh => hpre a (List.mem_cons_self _ _) hh.symm
    rw [List.cons_append, vlan_dellink_find, if_pos ha,
      ih (fun u hu => hpre u (List.mem_cons_of_mem _ hu))]
    rfl

/-- A DELLINK for the name of a binding that no earlier binding shares unlinks
that binding and keeps the others. -/
theorem vlan_dellink_first (K : Consts) (ω : Oracle) (ifname : String) (s : Sys)
    (pre : List hostapd_vlan) (v : hostapd_vlan) (post : List hostapd_vlan)
    (hl : s.hapd.conf.vlan = pre ++ v :: post)
    (hpre : ∀ u ∈ pre, u.ifname ≠ ifname) (hv : v.ifname = ifname) :
    (vlan_dellink K ω ifname s).hapd.conf.vlan = pre ++ post := by
  unfold vlan_dellink
  rw [hl, vlan_dellink_find_first ifname pre v post hpre hv]
  simp only [get?_append_length]
  have f := frame_vlan_dellink_vlan K ω ifname v s
  rw [Sys.with_vlan_vlan, f.1, hl]
  exact eraseIdx_append_length pre v post

theorem nodup_ifname_pre (pre : List hostapd_vlan) (v : hostapd_vlan)
    (post : List hostapd_vlan)
    (h : ((pre ++ v :: post).map (fun x => x.ifname)).Nodup) :
    ∀ u ∈ pre, u.ifname ≠ v.ifname := by
  intro u hu heq
  rw [List.map_append, List.map_cons, List.nodup_append] at h
  exact h.2.2 (List.mem_map_of_mem (fun x => x.ifname) hu)
    (by rw [heq]; exact List.mem_cons_self _ _)

/-- What `vlan_remove_dynamic` does when the first binding with `vlan_id` and
a positive `dynamic_vlan` is `v`, and no earlier binding shares its name. -/
theorem vlan_remove_dynamic_first (K : Consts) (ω : Oracle) (vid : Int) (s : Sys)
    (pre : List hostapd_vlan) (v : hostapd_vlan) (post : List hostapd_vlan)
    (hvid : 0 < vid) (hl : s.hapd.conf.vlan = pre ++ v :: post)
    (hpre : ∀ u ∈ pre, ¬ (u.vlan_id = vid ∧ u.dynamic_vlan > 0))
    (hv : v.vlan_id = vid ∧ v.dynamic_vlan > 0)
    (hname : ∀ u ∈ pre, u.ifname ≠ v.ifname) :
    (vlan_remove_dynamic K ω vid s).1 = 0 ∧
    (vlan_remove_dynamic K ω vid s).2.hapd.conf.vlan
      = if v.dynamic_vlan - 1 = 0 then pre ++ post
        else pre ++ { v with dynamic_vlan := v.dynamic_vlan - 1 } :: post := by
  unfold vlan_remove_dynamic
  rw [if_neg (by omega), hl, vlan_remove_dynamic_find_first vid pre v post hpre hv]
  simp only [get?_append_length]
  by_cases h0 : v.dynamic_vlan - 1 = 0
  · rw [if_pos h0, if_pos h0]
    refine ⟨rfl, ?_⟩
    have he := (vlan_if_remove_effect K ω { v with dynamic_vlan := v.dynamic_vlan - 1 }
      (s.with_vlan ((pre ++ v :: post).set pre.length
        { v with dynamic_vlan := v.dynamic_vlan - 1 })).os).2
    apply vlan_dellink_first K ω _ _ pre
      (vlan_if_remove K ω { v with dynamic_vlan := v.dynamic_vlan - 1 }
        (s.with_vlan ((pre ++ v :: post).set pre.length
          { v with dynamic_vlan := v.dynamic_vlan - 1 })).os).2.1 post
    · rw [Sys.with_vlan_vlan, Sys.with_vlan_vlan, set_append_length, set_append_length]
    · exact hname
    · rw [he]
  · rw [if_neg h0, if_neg h0]
    exact ⟨rfl, set_append_length pre v _ post⟩

/-- C11: `vlan_remove_dynamic(vid)` on a binding list with pairwise distinct
ifnames.  It returns 1 and leaves the binding list unchanged if and only if
`vid <= 0` or no binding has `vlan_id == vid` and `dynamic_vlan > 0` (and then
it changes nothing at all).  Otherwise, with `v` the first such binding, it
returns 0; when `v.dynamic_vlan - 1` is zero the binding is removed and the
list is the other bindings, unchanged and in order; when it is not zero the
list is the same except that `v.dynamic_vlan` is one less.  So `v` is removed
exactly when its `dynamic_vlan` reached zero. -/
theorem vlan_remove_dynamic_spec (K : Consts) (ω : Oracle) (vid : Int) (s : Sys)
    (hnd : (s.hapd.conf.vlan.map (fun x => x.ifname)).Nodup) :
    (((vlan_remove_dynamic K ω vid s).1 = 1 ∧
        (vlan_remove_dynamic K ω vid s).2.hapd.conf.vlan = s.hapd.conf.vlan) ↔
      (vid ≤ 0 ∨ ∀ v ∈ s.hapd.conf.vlan, ¬ (v.vlan_id = vid ∧ v.dynamic_vlan > 0))) ∧
    ((vid ≤ 0 ∨ ∀ v ∈ s.hapd.conf.vlan, ¬ (v.vlan_id = vid ∧ v.dynamic_vlan > 0)) →
      vlan_remove_dynamic K ω vid s = (1, s)) ∧
    (∀ pre v post, 0 < vid → s.hapd.conf.vlan = pre ++ v :: post →
      (∀ u ∈ pre, ¬ (u.vlan_id = vid ∧ u.dynamic_vlan > 0)) →
      v.vlan_id = vid → v.dynamic_vlan > 0 →
      (vlan_remove_dynamic K ω vid s).1 = 0 ∧
      (v.dynamic_vlan - 1 = 0 →
        (vlan_remove_dynamic K ω vid s).2.hapd.conf.vlan = pre ++ post) ∧
      (v.dynamic_vlan - 1 ≠ 0 →
        (vlan_remove_dynamic K ω vid s).2.hapd.conf.vlan
          = pre ++ { v with dynamic_vlan := v.dynamic_vlan - 1 } :: post) ∧
      ((vlan_remove_dynamic K ω vid s).2.hapd.conf.vlan = pre ++ post ↔
        v.dynamic_vlan - 1 = 0)) := by
  have hnone : (vid ≤ 0 ∨ ∀ v ∈ s.hapd.conf.vlan, ¬ (v.vlan_id = vid ∧ v.dynamic_vlan > 0)) →
      vlan_remove_dynamic K ω vid s = (1, s) := by
    intro h
    unfold vlan_remove_dynamic
    by_cases hv : vid ≤ 0
    · rw [if_pos hv]
    · rw [if_neg hv, vlan_remove_dynamic_find_none vid _ (h.resolve_left hv)]
  have hsome : ∀ pre v post, 0 < vid → s.hapd.conf.vlan = pre ++ v :: post →
      (∀ u ∈ pre, ¬ (u.vlan_id = vid ∧ u.dynamic_vlan > 0)) →
      v.vlan_id = vid → v.dynamic_vlan > 0 →
      (vlan_remove_dynamic K ω vid s).1 = 0 ∧
      (vlan_remove_dynamic K ω vid s).2.hapd.conf.vlan
        = if v.dynamic_vlan - 1 = 0 then pre ++ post
          else pre ++ { v with dynamic_vlan := v.dynamic_vlan - 1 } :: post := by
    intro pre v post hvid hl hpre h1 h2
    exact vlan_remove_dynamic_first K ω vid s pre v post hvid hl hpre ⟨h1, h2⟩
      (nodup_ifname_pre pre v post (by rw [← hl]; exact hnd))
  refine ⟨⟨?_, fun h => ?_⟩, hnone, ?_⟩
  · intro hret
    by_contra hc
    rw [not_or] at hc
    have hex : ∃ v ∈ s.hapd.conf.vlan, v.vlan_id = vid ∧ v.dynamic_vlan > 0 := by
      by_contra hne
      exact hc.2 (fun v hv hP => hne ⟨v, hv, hP⟩)
    obtain ⟨pre, v, post, hl, hpre, hP⟩ :=
      exists_first_binding (fun v => v.vlan_id = vid ∧ v.dynamic_vlan > 0) _ hex
    have h0 := (hsome pre v post (by omega) hl hpre hP.1 hP.2).1
    rw [hret.1] at h0
    exact absurd h0 (by decide)
  · rw [hnone h]
    exact ⟨rfl, rfl⟩
  · intro pre v post hvid hl hpre h1 h2
    obtain ⟨hr, hlist⟩ := hsome pre v post hvid hl hpre h1 h2
    refine ⟨hr, fun h0 => by rw [hlist, if_pos h0], fun h0 => by rw [hlist, if_neg h0], ?_⟩
    rw [hlist]
    by_cases h0 : v.dynamic_vlan - 1 = 0
    · simp [h0]
    · rw [if_neg h0]
      simp only [h0, iff_false]
      intro hEq
      have := congrArg List.length hEq
      simp at this

/-- Witness for C11: two dynamic bindings with distinct names; removing VID 7
unlinks `wlan0.7` and keeps `wlan0.9`, removing VID 9 (two users) only
decrements, and removing VID 8 returns 1. -/
theorem vlan_remove_dynamic_spec_witness :
    (vlan_remove_dynamic linux oracle_ok 7
        (example_sys "" []
          [{ binding "wlan0.9" 9 ⟨1, 9, []⟩ with dynamic_vlan := 2 },
           { binding "wlan0.7" 7 ⟨1, 7, []⟩ with dynamic_vlan := 1 }])).1 = 0 ∧
    (vlan_remove_dynamic linux oracle_ok 7
        (example_sys "" []
          [{ binding "wlan0.9" 9 ⟨1, 9, []⟩ with dynamic_vlan := 2 },
           { binding "wlan0.7" 7 ⟨1, 7, []⟩ with dynamic_vlan := 1 }])).2.hapd.conf.vlan
      = [{ binding "wlan0.9" 9 ⟨1, 9, []⟩ with dynamic_vlan := 2 }] ∧
    vlan_remove_dynamic linux oracle_ok 8
        (example_sys "" []
          [{ binding "wlan0.9" 9 ⟨1, 9, []⟩ with dynamic_vlan := 2 },
           { binding "wlan0.7" 7 ⟨1, 7, []⟩ with dynamic_vlan := 1 }])
      = (1, example_sys "" []
          [{ binding "wlan0.9" 9 ⟨1, 9, []⟩ with dynamic_vlan := 2 },
           { binding "wlan0.7" 7 ⟨1, 7, []⟩ with dynamic_vlan := 1 }]) :=
  ⟨((vlan_remove_dynamic_spec linux oracle_ok 7 _ (by decide)).2.2
      [{ binding "wlan0.9" 9 ⟨1, 9, []⟩ with dynamic_vlan := 2 }]
      { binding "wlan0.7" 7 ⟨1, 7, []⟩ with dynamic_vlan := 1 } []
      (by decide) rfl (by decide) rfl (by decide)).1,
   ((vlan_remove_dynamic_spec linux oracle_ok 7 _ (by decide)).2.2
      [{ binding "wlan0.9" 9 ⟨1, 9, []⟩ with dynamic_vlan := 2 }]
      { binding "wlan0.7" 7 ⟨1, 7, []⟩ with dynamic_vlan := 1 } []
      (by decide) rfl (by decide) rfl (by decide)).2.1 (by decide),
   (vlan_remove_dynamic_spec linux oracle_ok 8 _ (by decide)).2.1
      (Or.inr (by decide))⟩

/-! ## The link watcher -/

/-- A DELLINK is dropped when the name still resolves. -/
theorem vlan_read_ifnames_del_resolves (K : Consts) (N : NlConsts) (ω : Oracle)
    (buf : List Nat) (h len : Nat) (s : Sys)
    (hres : if_nametoindex s.os (c_string (vlan_read_ifnames_walk K N buf h).ifname) ≠ 0) :
    vlan_read_ifnames K N ω buf h len true s = s := by
  unfold vlan_read_ifnames
  by_cases h1 : len < N.sizeof_ifinfomsg
  · rw [if_pos h1]
  · rw [if_neg h1]
    by_cases h2 : vlan_read_ifnames_attrlen N buf h < 0
    · rw [if_pos h2]
    · rw [if_neg h2]
      by_cases h3 : (vlan_read_ifnames_walk K N buf h).ifname.headD 0 = 0
      · rw [if_pos h3]
      · rw [if_neg h3, if_pos ⟨rfl, hres⟩]

/-- A DELLINK with a name that does not resolve goes to `vlan_dellink`. -/
theorem vlan_read_ifnames_del_gone (K : Consts) (N : NlConsts) (ω : Oracle)
    (buf : List Nat) (h len : Nat) (s : Sys)
    (h1 : N.sizeof_ifinfomsg ≤ len) (h2 : 0 ≤ vlan_read_ifnames_attrlen N buf h)
    (h3 : (vlan_read_ifnames_walk K N buf h).ifname.headD 0 ≠ 0)
    (hres : if_nametoindex s.os (c_string (vlan_read_ifnames_walk K N buf h).ifname) = 0) :
    vlan_read_ifnames K N ω buf h len true s
      = vlan_dellink K ω (c_string (vlan_read_ifnames_walk K N buf h).ifname) s := by
  unfold vlan_read_ifnames
  rw [if_neg (by omega), if_neg (by omega), if_neg h3, if_neg (fun hh => hh.2 hres),
    if_pos rfl]

/-- C12: DELLINK race suppression.  For every state and every `RTM_DELLINK`
message whose extracted ifname still resolves (`if_nametoindex(ifname) != 0`),
`vlan_read_ifnames` returns with the state as it was: no call is added to the
trace of OS operations, and the binding list and the registry are unchanged.
A later `RTM_DELLINK` message that carries the same name, in a state where the
name no longer resolves, is handed to `vlan_dellink` with that name. -/
theorem dellink_race_suppressed (K : Consts) (N : NlConsts) (ω : Oracle)
    (buf : List Nat) (h len : Nat) (s : Sys)
    (hres : if_nametoindex s.os (c_string (vlan_read_ifnames_walk K N buf h).ifname) ≠ 0) :
    vlan_read_ifnames K N ω buf h len true s = s ∧
    (vlan_read_ifnames K N ω buf h len true s).os.trace = s.os.trace ∧
    (vlan_read_ifnames K N ω buf h len true s).hapd.conf.vlan = s.hapd.conf.vlan ∧
    (vlan_read_ifnames K N ω buf h len true s).hapd.vlan_priv = s.hapd.vlan_priv ∧
    ∀ (buf1 : List Nat) (h1 len1 : Nat) (s1 : Sys),
      N.sizeof_ifinfomsg ≤ len1 → 0 ≤ vlan_read_ifnames_attrlen N buf1 h1 →
      (vlan_read_ifnames_walk K N buf1 h1).ifname.headD 0 ≠ 0 →
      c_string (vlan_read_ifnames_walk K N buf1 h1).ifname
        = c_string (vlan_read_ifnames_walk K N buf h).ifname →
      if_nametoindex s1.os (c_string (vlan_read_ifnames_walk K N buf h).ifname) = 0 →
      vlan_read_ifnames K N ω buf1 h1 len1 true s1
        = vlan_dellink K ω (c_string (vlan_read_ifnames_walk K N buf h).ifname) s1 := by
  have hs := vlan_read_ifnames_del_resolves K N ω buf h len s hres
  refine ⟨hs, by rw [hs], by rw [hs], by rw [hs], ?_⟩
  intro buf1 h1 len1 s1 hlen hattr hhead hname hgone
  rw [← hname] at hgone ⊢
  exact vlan_read_ifnames_del_gone K N ω buf1 h1 len1 s1 hlen hattr hhead hgone

/-- Witness for C12: the DELLINK message for `wlan0.7` is dropped while
`wlan0.7` exists, and the same message is handed to `vlan_dellink`, which
unlinks the binding, once `wlan0.7` is gone. -/
theorem dellink_race_suppressed_witness :
    vlan_read_ifnames linux linux_nl oracle_ok dgram_dellink 0 28 true
        { hapd := (example_sys "" [] [binding "wlan0.7" 7 ⟨1, 7, []⟩]).hapd,
          os := { trace := [], ifaces := ["wlan0", "wlan0.7"] } }
      = { hapd := (example_sys "" [] [binding "wlan0.7" 7 ⟨1, 7, []⟩]).hapd,
          os := { trace := [], ifaces := ["wlan0", "wlan0.7"] } } ∧
    vlan_read_ifnames linux linux_nl oracle_ok dgram_dellink 0 28 true
        (example_sys "" [] [binding "wlan0.7" 7 ⟨1, 7, []⟩])
      = vlan_dellink linux oracle_ok "wlan0.7"
          (example_sys "" [] [binding "wlan0.7" 7 ⟨1, 7, []⟩]) ∧
    (vlan_dellink linux oracle_ok "wlan0.7"
        (example_sys "" [] [binding "wlan0.7" 7 ⟨1, 7, []⟩])).hapd.conf.vlan = [] :=
  ⟨(dellink_race_suppressed linux linux_nl oracle_ok dgram_dellink 0 28
      { hapd := (example_sys "" [] [binding "wlan0.7" 7 ⟨1, 7, []⟩]).hapd,
        os := { trace := [], ifaces := ["wlan0", "wlan0.7"] } } (by decide)).1,
   (dellink_race_suppressed linux linux_nl oracle_ok dgram_dellink 0 28
      { hapd := (example_sys "" [] [binding "wlan0.7" 7 ⟨1, 7, []⟩]).hapd,
        os := { trace := [], ifaces := ["wlan0", "wlan0.7"] } } (by decide)).2.2.2.2
      dgram_dellink 0 28 (example_sys "" [] [binding "wlan0.7" 7 ⟨1, 7, []⟩])
      (by decide) (by decide) (by decide) rfl (by decide),
   by decide⟩

/-! ## Bridge names -/

theorem digit_value_digitChar (d : Nat) (h : d < 10) : digit_value (Nat.digitChar d) = d := by
  interval_cases d <;> rfl

theorem decimal_value_toDigitsCore (fuel : Nat) :
    ∀ (n : Nat) (ds : List Char), n < fuel →
      decimal_value 0 (Nat.toDigitsCore 10 fuel n ds) = decimal_value n ds := by
  induction fuel with
  | zero => intro n ds h; omega
  | succ fuel ih =>
    intro n ds h
    rw [Nat.toDigitsCore]
    by_cases h0 : n / 10 = 0
    · rw [if_pos h0]
      have hn : n % 10 = n := Nat.mod_eq_of_lt (by omega)
      simp only [decimal_value, List.foldl_cons, Nat.mul_zero, Nat.zero_add]
      rw [digit_value_digitChar _ (Nat.mod_lt _ (by decide)), hn]
    · rw [if_neg h0, ih (n / 10) _ (by omega)]
      simp only [decimal_value, List.foldl_cons]
      rw [digit_value_digitChar _ (Nat.mod_lt _ (by decide)), Nat.div_add_mod]

theorem decimal_value_repr (n : Nat) : decimal_value 0 (Nat.repr n).data = n := by
  show decimal_value 0 (Nat.toDigitsCore 10 (n + 1) n []) = n
  rw [decimal_value_toDigitsCore (n + 1) n [] (by omega)]
  rfl

/-- `itoa` prints different texts for different non-negative numbers. -/
theorem itoa_injective (a b : Int) (ha : 0 ≤ a) (hb : 0 ≤ b) (h : itoa a = itoa b) : a = b := by
  obtain ⟨m, rfl⟩ := Int.eq_ofNat_of_zero_le ha
  obtain ⟨n, rfl⟩ := Int.eq_ofNat_of_zero_le hb
  have h1 : Nat.repr m = Nat.repr n := h
  have h2 := congrArg (fun s : String => decimal_value 0 s.data) h1
  simp only [decimal_value_repr] at h2
  rw [h2]

theorem os_snprintf_of_length_lt (s : String) (n : Nat) (h : s.length < n) :
    os_snprintf n s = s := by
  cases s with
  | mk cs =>
    simp only [os_snprintf]
    congr 1
    exact List.take_of_length_le (by simp only [String.length] at h; omega)

theorem vlan_bridge_name_default_stem (K : Consts) (hapd : hostapd_data) (vid : Int) :
    vlan_bridge_name_default K hapd vid
      = os_snprintf K.IFNAMSIZ (vlan_bridge_stem hapd ++ itoa vid) := by
  unfold vlan_bridge_name_default vlan_bridge_stem
  split_ifs
  · rfl
  · cases hapd.conf.ssid.vlan_tagged_interface <;> rfl

theorem string_append_left_cancel (p a b : String) (h : p ++ a = p ++ b) : a = b := by
  have h1 := congrArg String.data h
  simp only [String.data_append] at h1
  exact String.ext (List.append_cancel_left h1)

/-- C13 as stated fails: without helper script and with the bridge name stem
`br-guest-vlan`, the VIDs 10 and 100 get the same bridge name
`br-guest-vlan10`, since the buffer of `IFNAMSIZ` bytes holds 15 characters. -/
theorem bridge_names_distinct_counterexample :
    ¬ ∀ (s : Sys) (v1 v2 : Int) (br1 br2 : List Char),
        s.hapd.conf.ssid.vlan_script = none → v1 ≠ v2 →
        0 < v1 → v1 ≤ linux.MAX_VLAN_ID → 0 < v2 → v2 ≤ linux.MAX_VLAN_ID →
        (vlan_bridge_name linux oracle_ok br1 v1 s).1.1
          ≠ (vlan_bridge_name linux oracle_ok br2 v2 s).1.1 := by
  intro h
  have h1 := h (example_sys "br-guest-vlan" [] []) 10 100 [] [] rfl (by decide) (by decide)
    (by decide) (by decide) (by decide)
  revert h1
  decide

/-- C13, amended: without helper script, for two distinct VIDs `v1 != v2` in
`1..MAX_VLAN_ID` whose full names fit into the buffer (the text before the
VID and the decimal VID have together fewer than `IFNAMSIZ` characters), the
names that `vlan_bridge_name` writes for `v1` and for `v2` are different,
whatever the buffer held before. -/
theorem bridge_names_distinct (K : Consts) (ω : Oracle) (s : Sys) (v1 v2 : Int)
    (br1 br2 : List Char)
    (hs : s.hapd.conf.ssid.vlan_script = none) (hne : v1 ≠ v2)
    (h1 : 0 < v1 ∧ v1 ≤ K.MAX_VLAN_ID) (h2 : 0 < v2 ∧ v2 ≤ K.MAX_VLAN_ID)
    (hfit1 : (vlan_bridge_stem s.hapd).length + (itoa v1).length < K.IFNAMSIZ)
    (hfit2 : (vlan_bridge_stem s.hapd).length + (itoa v2).length < K.IFNAMSIZ) :
    (vlan_bridge_name K ω br1 v1 s).1.1 ≠ (vlan_bridge_name K ω br2 v2 s).1.1 := by
  rw [vlan_bridge_name_no_script K ω br1 v1 s hs, vlan_bridge_name_no_script K ω br2 v2 s hs]
  show vlan_bridge_name_default K s.hapd v1 ≠ vlan_bridge_name_default K s.hapd v2
  rw [vlan_bridge_name_default_stem, vlan_bridge_name_default_stem,
    os_snprintf_of_length_lt _ _ (by rw [String.length_append]; exact hfit1),
    os_snprintf_of_length_lt _ _ (by rw [String.length_append]; exact hfit2)]
  intro heq
  exact hne (itoa_injective v1 v2 (by omega) (by omega)
    (string_append_left_cancel _ _ _ heq))

/-- Witness for C13: with the stem `br-guest-vlan` the VIDs 1 and 2 fit and
get the names `br-guest-vlan1` and `br-guest-vlan2`. -/
theorem bridge_names_distinct_witness :
    (vlan_bridge_name linux oracle_ok [] 1 (example_sys "br-guest-vlan" [] [])).1.1
      ≠ (vlan_bridge_name linux oracle_ok [] 2 (example_sys "br-guest-vlan" [] [])).1.1 :=
  bridge_names_distinct linux oracle_ok (example_sys "br-guest-vlan" [] []) 1 2 [] [] rfl
    (by decide) (by decide) (by decide) (by decide) (by decide)

/-! ## The attribute walk -/

theorem RTA_ALIGN_ge (N : NlConsts) (hA : 0 < N.RTA_ALIGNTO) (x : Nat) :
    x ≤ RTA_ALIGN N x := by
  unfold RTA_ALIGN
  have h1 := Nat.div_add_mod (x + N.RTA_ALIGNTO - 1) N.RTA_ALIGNTO
  have h2 := Nat.mod_lt (x + N.RTA_ALIGNTO - 1) hA
  rw [Nat.mul_comm] at h1
  omega

/-- The loop ends by its own test: fuel beyond `attrlen` changes nothing. -/
theorem rta_walk_fuel (K : Consts) (N : NlConsts) (buf : List Nat)
    (hA : 0 < N.RTA_ALIGNTO) (hS : 0 < N.sizeof_rtattr) (fuel : Nat) :
    ∀ (k attr : Nat) (attrlen : Int) (r : RtaWalk), attrlen < (fuel : Int) →
      rta_walk K N buf (fuel + k) attr attrlen r = rta_walk K N buf fuel attr attrlen r := by
  induction fuel with
  | zero =>
    intro k attr attrlen r h
    cases k with
    | zero => rfl
    | succ k =>
      rw [Nat.zero_add, rta_walk, rta_walk, if_pos (by omega)]
  | succ fuel ih =>
    intro k attr attrlen r h
    rw [show fuel + 1 + k = (fuel + k) + 1 by omega, rta_walk, rta_walk]
    by_cases c1 : attrlen < (N.sizeof_rtattr : Int)
    · rw [if_pos c1, if_pos c1]
    · rw [if_neg c1, if_neg c1]
      by_cases c2 : ¬ (rta_len buf attr ≥ N.sizeof_rtattr ∧ (rta_len buf attr : Int) ≤ attrlen)
      · rw [if_pos c2, if_pos c2]
      · rw [if_neg c2, if_neg c2]
        have c2' := not_not.1 c2
        have hge := RTA_ALIGN_ge N hA (rta_len buf attr)
        have hlt : attrlen - (RTA_ALIGN N (rta_len buf attr) : Int) < (fuel : Int) := by
          have := c2'.1
          omega
        by_cases c3 : rta_type buf attr = N.IFLA_IFNAME
        · rw [if_pos c3, if_pos c3]
          by_cases c4 : (rta_len buf attr : Int) - (RTA_ALIGN N N.sizeof_rtattr : Int) < 0
          · rw [if_pos c4, if_pos c4]
          · rw [if_neg c4, if_neg c4]
            exact ih k _ _ _ hlt
        · rw [if_neg c3, if_neg c3]
          exact ih k _ _ _ hlt

/-- Every header the loop examines and every byte it copies lies inside its
budget, that is before the offset `attr + attrlen`. -/
theorem rta_walk_bounds (K : Consts) (N : NlConsts) (buf : List Nat) (E : Int) (fuel : Nat) :
    ∀ (attr : Nat) (attrlen : Int) (r : RtaWalk), (attr : Int) + attrlen = E →
      (∀ o ∈ r.examined, (o : Int) + (N.sizeof_rtattr : Int) ≤ E) →
      (∀ c ∈ r.copied, (c : Int) < E) →
      (∀ o ∈ (rta_walk K N buf fuel attr attrlen r).examined,
        (o : Int) + (N.sizeof_rtattr : Int) ≤ E) ∧
      (∀ c ∈ (rta_walk K N buf fuel attr attrlen r).copied, (c : Int) < E) := by
  induction fuel with
  | zero => intro attr attrlen r _ h1 h2; exact ⟨h1, h2⟩
  | succ fuel ih =>
    intro attr attrlen r hE h1 h2
    rw [rta_walk]
    by_cases c1 : attrlen < (N.sizeof_rtattr : Int)
    · rw [if_pos c1]; exact ⟨h1, h2⟩
    · rw [if_neg c1]
      have hex : ∀ o ∈ r.examined ++ [attr], (o : Int) + (N.sizeof_rtattr : Int) ≤ E := by
        intro o ho
        rcases List.mem_append.1 ho with ho | ho
        · exact h1 o ho
        · rw [List.mem_singleton.1 ho]; omega
      by_cases c2 : ¬ (rta_len buf attr ≥ N.sizeof_rtattr ∧ (rta_len buf attr : Int) ≤ attrlen)
      · rw [if_pos c2]; exact ⟨hex, h2⟩
      · rw [if_neg c2]
        have c2' := not_not.1 c2
        have hE' : ((attr + RTA_ALIGN N (rta_len buf attr) : Nat) : Int)
            + (attrlen - (RTA_ALIGN N (rta_len buf attr) : Int)) = E := by
          push_cast; omega
        by_cases c3 : rta_type buf attr = N.IFLA_IFNAME
        · rw [if_pos c3]
          by_cases c4 : (rta_len buf attr : Int) - (RTA_ALIGN N N.sizeof_rtattr : Int) < 0
          · rw [if_pos c4]; exact ⟨hex, h2⟩
          · rw [if_neg c4]
            apply ih _ _ _ hE' hex
            intro c hc
            rcases List.mem_append.1 hc with hc | hc
            · exact h2 c hc
            · obtain ⟨j, hj, rfl⟩ := List.mem_map.1 hc
              have hj' := List.mem_range.1 hj
              have := c2'.2
              split_ifs at hj' <;> push_cast <;> omega
        · rw [if_neg c3]
          exact ih _ _ _ hE' hex h2

theorem os_memcpy_keeps_nul (pre : List Nat) (buf : List Nat) (src n : Nat)
    (hn : n ≤ pre.length) :
    ∃ pre1, os_memcpy (pre ++ [0]) buf src n = pre1 ++ [0] ∧ pre1.length = pre.length := by
  refine ⟨(List.range n).map (fun j => rd_u8 buf (src + j)) ++ pre.drop n, ?_, ?_⟩
  · unfold os_memcpy
    rw [List.drop_append_of_le_length hn, List.append_assoc]
  · simp only [List.length_append, List.length_map, List.length_range, List.length_drop]
    omega

/-- The last byte of `ifname[IFNAMSIZ + 1]` stays 0 during the loop. -/
theorem rta_walk_ifname (K : Consts) (N : NlConsts) (buf : List Nat) (fuel : Nat) :
    ∀ (attr : Nat) (attrlen : Int) (r : RtaWalk),
      (∃ pre, r.ifname = pre ++ [0] ∧ pre.length = K.IFNAMSIZ) →
      ∃ pre, (rta_walk K N buf fuel attr attrlen r).ifname = pre ++ [0] ∧
        pre.length = K.IFNAMSIZ := by
  induction fuel with
  | zero => intro attr attrlen r h; exact h
  | succ fuel ih =>
    intro attr attrlen r h
    rw [rta_walk]
    by_cases c1 : attrlen < (N.sizeof_rtattr : Int)
    · rw [if_pos c1]; exact h
    · rw [if_neg c1]
      by_cases c2 : ¬ (rta_len buf attr ≥ N.sizeof_rtattr ∧ (rta_len buf attr : Int) ≤ attrlen)
      · rw [if_pos c2]; exact h
      · rw [if_neg c2]
        by_cases c3 : rta_type buf attr = N.IFLA_IFNAME
        · rw [if_pos c3]
          by_cases c4 : (rta_len buf attr : Int) - (RTA_ALIGN N N.sizeof_rtattr : Int) < 0
          · rw [if_pos c4]; exact h
          · rw [if_neg c4]
            apply ih
            obtain ⟨pre, hp, hl⟩ := h
            dsimp only
            rw [hp]
            obtain ⟨pre1, h1, h2⟩ := os_memcpy_keeps_nul pre buf
              (attr + RTA_ALIGN N N.sizeof_rtattr)
              (if rta_len buf attr - RTA_ALIGN N N.sizeof_rtattr ≥ K.IFNAMSIZ + 1
                then K.IFNAMSIZ else rta_len buf attr - RTA_ALIGN N N.sizeof_rtattr)
              (by split_ifs <;> omega)
            exact ⟨pre1, h1, by rw [h2, hl]⟩
        · rw [if_neg c3]
          exact ih _ _ _ h

theorem takeWhile_nul_length (pre : List Nat) :
    ((pre ++ [0]).takeWhile (fun b => decide (b ≠ 0))).length ≤ pre.length := by
  induction pre with
  | nil => simp
  | cons a pre ih =>
    by_cases ha : a = 0
    · simp [ha]
    · simp only [List.cons_append, List.takeWhile_cons, ne_eq, ha, not_false_eq_true,
        decide_True, if_true, List.length_cons]
      simp only [ne_eq] at ih
      omega

theorem c_string_length_le (pre : List Nat) : (c_string (pre ++ [0])).length ≤ pre.length := by
  unfold c_string
  simp only [String.length, List.length_map]
  exact takeWhile_nul_length pre

theorem to_int32_of_range (x : Int) (h0 : 0 ≤ x) (h1 : x < 2 ^ 31) : to_int32 x = x := by
  unfold to_int32
  have hm : x % 2 ^ 32 = x := Int.emod_eq_of_lt h0 (by omega)
  rw [hm, if_neg (by omega)]

/-- How far the attribute walk of `vlan_read_ifnames` goes, for a message with
`NLMSG_ALIGN(sizeof(struct ifinfomsg)) <= nlmsg_len < 2^31`: every `struct
rtattr` it examines and every byte it copies lies before the offset
`NLMSG_HDRLEN + nlmsg_len` from the header of the message, and the name it
extracts has at most `IFNAMSIZ` characters. -/
theorem vlan_read_ifnames_walk_bounds (K : Consts) (N : NlConsts) (buf : List Nat) (h : Nat)
    (hlo : NLMSG_ALIGN N N.sizeof_ifinfomsg ≤ nlmsg_len buf h)
    (hhi : nlmsg_len buf h < 2 ^ 31) :
    (∀ o ∈ (vlan_read_ifnames_walk K N buf h).examined,
      o + N.sizeof_rtattr ≤ h + NLMSG_HDRLEN N + nlmsg_len buf h) ∧
    (∀ c ∈ (vlan_read_ifnames_walk K N buf h).copied,
      c < h + NLMSG_HDRLEN N + nlmsg_len buf h) ∧
    (c_string (vlan_read_ifnames_walk K N buf h).ifname).length ≤ K.IFNAMSIZ := by
  have hattr : vlan_read_ifnames_attrlen N buf h
      = (nlmsg_len buf h : Int) - (NLMSG_ALIGN N N.sizeof_ifinfomsg : Int) := by
    unfold vlan_read_ifnames_attrlen
    exact to_int32_of_range _ (by omega) (by omega)
  have hb := rta_walk_bounds K N buf ((h + NLMSG_HDRLEN N + nlmsg_len buf h : Nat) : Int)
    ((vlan_read_ifnames_attrlen N buf h).toNat + 1)
    (h + NLMSG_HDRLEN N + NLMSG_ALIGN N N.sizeof_ifinfomsg)
    (vlan_read_ifnames_attrlen N buf h)
    { ifname := List.replicate (K.IFNAMSIZ + 1) 0, examined := [], copied := [] }
    (by rw [hattr]; push_cast; omega) (by simp) (by simp)
  refine ⟨fun o ho => ?_, fun c hc => ?_, ?_⟩
  · have := hb.1 o ho
    omega
  · have := hb.2 c hc
    omega
  · obtain ⟨pre, hp, hl⟩ := rta_walk_ifname K N buf
      ((vlan_read_ifnames_attrlen N buf h).toNat + 1)
      (h + NLMSG_HDRLEN N + NLMSG_ALIGN N N.sizeof_ifinfomsg)
      (vlan_read_ifnames_attrlen N buf h)
      { ifname := List.replicate (K.IFNAMSIZ + 1) 0, examined := [], copied := [] }
      ⟨List.replicate K.IFNAMSIZ 0, by
        simp [List.replicate_succ', List.replicate_add], by simp⟩
    show (c_string (rta_walk K N buf _ _ _ _).ifname).length ≤ K.IFNAMSIZ
    rw [hp, ← hl]
    exact c_string_length_le pre

/-- C14: the attribute walk of `vlan_read_ifnames` does not stay inside the
message.  The budget is `attrlen = h->nlmsg_len - NLMSG_ALIGN(sizeof(struct
ifinfomsg))`; the netlink header is not taken off.  For the ordinary
`RTM_DELLINK` message `dgram_dellink` (`nlmsg_len` = 44 = length of the
datagram, one `IFLA_IFNAME` attribute) the budget is 28 although the message
has 12 bytes of attributes, and the loop examines a `struct rtattr` at offset
44, which is not below `nlmsg_len`.  For `dgram_trailing` (`nlmsg_len` = 32,
no attribute, 16 more bytes in the datagram) the loop examines headers at the
offsets 32 and 44, copies the bytes 36..43 and extracts the name `wlan0.7`,
all from behind the message, and `vlan_event_receive` unlinks the binding
`wlan0.7` for it. -/
theorem attr_walk_leaves_message :
    nlmsg_len dgram_dellink 0 = 44 ∧ dgram_dellink.length = 44 ∧
    NLMSG_HDRLEN linux_nl + linux_nl.sizeof_ifinfomsg ≤ nlmsg_len dgram_dellink 0 ∧
    vlan_read_ifnames_attrlen linux_nl dgram_dellink 0 = 28 ∧
    (vlan_read_ifnames_walk linux linux_nl dgram_dellink 0).examined = [32, 44] ∧
    ¬ (∀ o ∈ (vlan_read_ifnames_walk linux linux_nl dgram_dellink 0).examined,
        o < nlmsg_len dgram_dellink 0) ∧
    nlmsg_len dgram_trailing 0 = 32 ∧ dgram_trailing.length = 48 ∧
    NLMSG_HDRLEN linux_nl + linux_nl.sizeof_ifinfomsg ≤ nlmsg_len dgram_trailing 0 ∧
    (vlan_read_ifnames_walk linux linux_nl dgram_trailing 0).examined = [32, 44] ∧
    (vlan_read_ifnames_walk linux linux_nl dgram_trailing 0).copied
      = [36, 37, 38, 39, 40, 41, 42, 43] ∧
    c_string (vlan_read_ifnames_walk linux linux_nl dgram_trailing 0).ifname = "wlan0.7" ∧
    (vlan_event_receive linux linux_nl oracle_ok dgram_trailing 48
      (example_sys "" [] [binding "wlan0.7" 7 ⟨1, 7, []⟩])).hapd.conf.vlan = [] := by
  refine ⟨?_, ?_, ?_, ?_, ?_, ?_, ?_, ?_, ?_, ?_, ?_, ?_, ?_⟩
  all_goals decide

end VlanInit
